import Mathlib

/-! The `tables-query` node (src/nodes/query.js) and the DDL generator of the
`tables-schema` node (src/nodes/utils/table-hints.js).

A shallow embedding of the query node: the upstream discovery `findInputNodeId`,
the throttled status emission `updateStatus`, and the input handler with its
closures `handleDone`, `handleError`, `cursorCallback` and `getNextRows`.

JavaScript runs every callback to completion, so the node is modelled as a
transition function `step` that consumes one event (an incoming message, the
outcome of `pool.connect()`, the answer to a `cursor.read`, the outcome of a
`client.query`, the status timer) and returns the new state together with the
calls the node made to its collaborators, in order.

Variables declared in `QueryNode` are fields of `State`; variables declared
inside the input handler (`client`, `query`, `partsId`, `partsIndex`, the
message object) live in one `Invocation` record per query message.

What lies outside the source file is the environment of the model:
* `Mustache.render`, `named.convert` and `RED.nodes.getNode` are fields of `Config`;
* the value of `Math.random()` comes with the event;
* a pool client always offers `release` (it comes from `pg.Pool`), so the
  `client.end` alternative of `handleDone` is not reachable and not modelled;
* a cursor holds the rows it has not delivered yet, and `read(n, cb)` is answered
  later with the next `n` of them (or with an error). `cursor.close()` takes the
  reads outstanding on the cursor out of `pendingReads`, so `Event.readDone` and
  `run` describe the runs in which a closed cursor makes no further callback; an
  answer that a closed cursor still gives to a read that was in flight is the
  separate event `LateEvent.stale` of `runLate`;
* of a message only the fields this development speaks about are kept
  (`pgsql` and the user fields are left out).
-/

namespace TablesQuery

/-! ## Data model -/

abbrev NodeId := String

abbrev Row := Nat

/-- An entry of `allNodes`: the fields `findInputNodeId` and its filter look at. -/
structure FlowNode where
  id : NodeId
  wires : Option (List (List NodeId))
  tickConsumer : Bool
deriving DecidableEq, Repr

/-- The `toNode` argument: its id and `toNode._flow.global.allNodes`, keys in
`Object.keys` order; `none` when `_flow` or `_flow.global` is missing. -/
structure ToNode where
  id : NodeId
  allNodes : Option (List (String × Option FlowNode))
deriving DecidableEq, Repr

/-- A `parts` descriptor: `id`, `type`, `index`, `count`, `abort`, and the nested
descriptor `parts.parts`. -/
inductive Parts where
  | mk (id : Nat) (type : Option String) (index : Option Nat) (count : Option Nat)
      (abort : Bool) (parts : Option Parts) : Parts

namespace Parts

def id : Parts → Nat
  | mk i _ _ _ _ _ => i

def type : Parts → Option String
  | mk _ t _ _ _ _ => t

def index : Parts → Option Nat
  | mk _ _ x _ _ _ => x

def count : Parts → Option Nat
  | mk _ _ _ c _ _ => c

def abort : Parts → Bool
  | mk _ _ _ _ a _ => a

def parts : Parts → Option Parts
  | mk _ _ _ _ _ p => p

/-- Equality of descriptors is decidable. -/
def decEq : (a b : Parts) → Decidable (a = b)
  | mk i t x c a p, mk i2 t2 x2 c2 a2 p2 =>
    if h : i = i2 ∧ t = t2 ∧ x = x2 ∧ c = c2 ∧ a = a2 then
      match p, p2 with
      | none, none =>
        isTrue (by obtain ⟨h1, h2, h3, h4, h5⟩ := h; subst h1 h2 h3 h4 h5; rfl)
      | some q, some q2 =>
        match decEq q q2 with
        | isTrue hq =>
          isTrue (by obtain ⟨h1, h2, h3, h4, h5⟩ := h; subst h1 h2 h3 h4 h5 hq; rfl)
        | isFalse hq =>
          isFalse (by
            intro heq
            injection heq with _ _ _ _ _ hp
            injection hp with hp
            exact hq hp)
      | none, some _ => isFalse (by intro heq; injection heq with _ _ _ _ _ hp; cases hp)
      | some _, none => isFalse (by intro heq; injection heq with _ _ _ _ _ hp; cases hp)
    else
      isFalse (by intro heq; injection heq with h1 h2 h3 h4 h5 _; exact h ⟨h1, h2, h3, h4, h5⟩)

instance : DecidableEq Parts := decEq

end Parts

inductive Payload where
  | undefined
  | other (v : String)
  | row (r : Row)
  | rows (rs : List Row)
  | text (s : String)
deriving DecidableEq, Repr

/-- A message. `tick`, `query`, `params`, `queryParameters` are read by the node,
`payload`, `parts`, `complete` are written by it. -/
structure Msg where
  tick : Bool := false
  query : Option String := none
  params : List String := []
  queryParameters : Option String := none
  payload : Payload := Payload.undefined
  parts : Option Parts := none
  complete : Bool := false
deriving DecidableEq

/-- The node configuration and the external functions it calls. -/
structure Config where
  node : ToNode
  query : String
  split : Bool
  rowsPerMsg : Option Nat
  enableBackPressure : Bool
  render : String → Msg → String
  convert : String → String → Except String String
  getNode : NodeId → Bool

/-- The function held by `getNextRows`, named by the invocation that created it. -/
inductive Pull where
  | split (inv : Nat)
  | single (inv : Nat)
deriving DecidableEq, Repr

/-- The variables of one run of the `else` branch of the input handler. -/
structure Invocation where
  msg : Msg := {}
  hasDone : Bool := true
  partsId : Nat := 0
  query : String := ""
  client : Bool := false
  partsIndex : Nat := 0
deriving DecidableEq

instance : Inhabited Invocation := ⟨{}⟩

structure CursorObj where
  rows : List Row := []
  closed : Bool := false
deriving DecidableEq, Repr

instance : Inhabited CursorObj := ⟨{}⟩

/-- A `cursor.read(n, cursorCallback)` that has not been answered yet. -/
structure PendingRead where
  cursor : Nat
  n : Nat
  cb : Nat
deriving DecidableEq, Repr

/-- What `client.query(query, params)` resolves to: one result or a list of them. -/
inductive QueryResult where
  | single (rows : List Row)
  | multi (results : List (List Row))
deriving DecidableEq, Repr

structure PgPool where
  connect : Bool := false
  totalCount : Nat := 0
deriving DecidableEq, Repr

inductive Fill where
  | grey | red | blue | green | yellow
deriving DecidableEq, Repr

inductive Shape where
  | ring | dot
deriving DecidableEq, Repr

structure Status where
  fill : Fill
  shape : Shape
  text : String
deriving DecidableEq, Repr

/-- The three ways the node calls `send`: `send([msg2, null])`, `send([null, msg2])`, `send(msg)`. -/
inductive Port where
  | first | second | whole
deriving DecidableEq, Repr

/-- The calls the node makes to its collaborators. -/
inductive Effect where
  | connect (inv : Nat)
  | cursorOpen (inv cursor : Nat)
  | cursorRead (cursor n cb : Nat)
  | cursorClose (cursor : Nat)
  | release (inv : Nat) (isError : Bool)
  | clientQuery (inv : Nat)
  | send (inv : Nat) (port : Port) (msg : Msg)
  | tickUpstream (node : NodeId)
  | done (inv : Nat) (err : Option String)
  | nodeError (text : String)
  | nodeWarn (text : String)
  | status (st : Status)
  | uncaught
deriving DecidableEq

/-- The variables of `QueryNode`, the invocation records, the cursor objects, and
the asynchronous operations that are still outstanding. -/
structure State where
  tickUpstreamId : Option (Option NodeId) := none
  tickUpstreamNode : Option NodeId := none
  downstreamReady : Bool := true
  cursor : Option Nat := none
  getNextRows : Option Pull := none
  nbQueue : Int := 0
  hasError : Bool := false
  statusTimer : Bool := false
  pgPool : PgPool := {}
  invs : List Invocation := []
  cursors : List CursorObj := []
  pendingConnects : List Nat := []
  pendingReads : List PendingRead := []
  pendingQueries : List Nat := []

/-- The events of the node. -/
inductive Event where
  | input (msg : Msg) (hasDone : Bool) (random : Nat)
  | connected (inv : Nat) (rows : List Row)
  | connectFailed (inv : Nat) (err : Option String)
  | readDone (k : Nat) (err : Option String)
  | queryDone (k : Nat) (res : Except (Option String) QueryResult)
  | statusTimer
  | databases (n : Nat)
  | poolCount (n : Nat)

/-! ## findInputNodeId -/

/-- Lines 10-28. The three nested loops return at the first hit. -/
def findInputNodeId (toNode : ToNode) (filter : Option (FlowNode → Bool)) : Option NodeId :=
  match toNode.allNodes with
  | none => none
  | some allNodes =>
    allNodes.findSome? fun entry =>
      match entry.2 with
      | none => none
      | some fromNode =>
        match fromNode.wires with
        | none => none
        | some wires =>
          wires.findSome? fun wire =>
            wire.findSome? fun toNodeId =>
              if toNode.id = toNodeId ∧ (match filter with
                  | none => true
                  | some f => f fromNode) = true
              then some fromNode.id else none

/-- The filter of line 139: `(n) => n && n.tickConsumer`. -/
def tickConsumerFilter (n : FlowNode) : Bool := n.tickConsumer

/-! ## updateStatus -/

/-- Lines 74-76: the counters are updated and the timer is armed unless it already is. -/
def updateStatus (incQueue : Int) (isError : Bool) (s : State) : State :=
  { s with
    nbQueue := s.nbQueue + incQueue
    hasError := s.hasError || isError
    statusTimer := true }

/-- Lines 78-92: the status object built by the timer callback. -/
def statusOf (nbQueue : Int) (hasError : Bool) (totalCount : Nat) : Status :=
  { fill :=
      if hasError then Fill.red
      else if nbQueue ≤ 0 then Fill.blue
      else if nbQueue ≤ (totalCount : Int) then Fill.green
      else Fill.yellow
    shape := if hasError ∨ nbQueue > (totalCount : Int) then Shape.ring else Shape.dot
    text := "Queue: " ++ toString nbQueue ++ (if hasError then " Error!" else "") }

/-- Lines 77-95: the timer callback. -/
def statusTimerCallback (s : State) : State × List Effect :=
  ({ s with hasError := false, statusTimer := false },
   [Effect.status (statusOf s.nbQueue s.hasError s.pgPool.totalCount)])

/-! ## The input handler and its closures -/

/-- The record of invocation `i`. -/
def getInv (i : Nat) (s : State) : Invocation := (s.invs[i]?).getD default

def modifyInv (i : Nat) (f : Invocation → Invocation) (s : State) : State :=
  { s with invs := s.invs.set i (f (getInv i s)) }

/-- The call `cursor.close()`: the cursor is marked closed and its outstanding reads
leave `pendingReads`, so that `Event.readDone` cannot answer them. A read of a closed
cursor that is answered all the same is `LateEvent.stale`. -/
def closeCursor (c : Nat) (s : State) : State :=
  { s with
    cursors := s.cursors.set c { ((s.cursors[c]?).getD default) with closed := true }
    pendingReads := s.pendingReads.filter fun p => p.cursor != c }

/-- Lines 155-158: an open cursor is closed and forgotten. -/
def closeHeld (s : State) : State × List Effect :=
  match s.cursor with
  | some c => (closeCursor c { s with cursor := none }, [Effect.cursorClose c])
  | none => (s, [])

/-- Lines 159-169: the client of invocation `i` is released and the queue is lowered. -/
def releaseHeld (i : Nat) (isError : Bool) (s : State) : State × List Effect :=
  if (getInv i s).client then
    (updateStatus (-1) isError (modifyInv i (fun v => { v with client := false }) s),
      [Effect.release i isError])
  else if isError then (updateStatus (-1) isError s, [])
  else (s, [])

/-- Lines 154-171, `handleDone` of invocation `i`. -/
def handleDone (i : Nat) (isError : Bool) (s : State) : State × List Effect :=
  let r1 := closeHeld s
  let r2 := releaseHeld i isError r1.1
  ({ r2.1 with getNextRows := none }, r1.2 ++ r2.2)

/-- Lines 173-191, `handleError` of invocation `i`; `err = none` is a falsy `err`. -/
def handleError (i : Nat) (err : Option String) (s : State) : State × List Effect :=
  let error : String :=
    (match err with
      | some e => e
      | none => "Unknown error!") ++ " " ++ (getInv i s).query
  let r1 := handleDone i true s
  let s2 := modifyInv i (fun v => { v with msg := { v.msg with
      payload := Payload.text error
      parts := some (Parts.mk v.partsId none none none true none) } }) r1.1
  let s3 := { s2 with downstreamReady := false }
  let e3 : List Effect :=
    match err with
    | some e => if (getInv i s3).hasDone then [Effect.done i (some e)] else [Effect.nodeError e]
    | none => []
  (s3, r1.2 ++ e3)

/-- The value of `node.rowsPerMsg || 1`. -/
def rowsPerRead (cfg : Config) : Nat :=
  match cfg.rowsPerMsg with
  | some n => if n = 0 then 1 else n
  | none => 1

/-- The value of `rows.length < node.rowsPerMsg`; false when `rowsPerMsg` is undefined. -/
def isComplete (cfg : Config) (rows : List Row) : Bool :=
  match cfg.rowsPerMsg with
  | some n => decide (rows.length < n)
  | none => false

/-- The text of the TypeError raised by a call on `null`. -/
def typeError : String := "TypeError: Cannot read properties of null"

/-- The call `getNextRows()`, lines 268-272 and 274-276. The result is `none` when the
call throws: nothing is held, or the split closure finds `cursor` null. The single-shot
closure catches its own exceptions (line 306). -/
def callGetNextRows (cfg : Config) (s : State) : Option (State × List Effect) :=
  match s.getNextRows with
  | none => none
  | some (Pull.split i) =>
    if s.downstreamReady then
      match s.cursor with
      | none => none
      | some c =>
        some ({ s with pendingReads := s.pendingReads ++ [⟨c, rowsPerRead cfg, i⟩] },
          [Effect.cursorRead c (rowsPerRead cfg) i])
    else some (s, [])
  | some (Pull.single i) =>
    if (getInv i s).client then
      some ({ s with pendingQueries := s.pendingQueries ++ [i] }, [Effect.clientQuery i])
    else some (handleError i (some typeError) s)

/-- Lines 223-241: the message built for a batch from the message object, `partsId` and
`partsIndex` of the invocation. -/
def batchMsg (cfg : Config) (msg : Msg) (partsId partsIndex : Nat) (rows : List Row)
    (complete : Bool) : Msg :=
  { msg with
    payload :=
      if rowsPerRead cfg > 1 then Payload.rows rows
      else match rows.head? with
        | some r => Payload.row r
        | none => Payload.undefined
    parts := some (Parts.mk partsId (some "array") (some partsIndex)
      (if complete then some (partsIndex + 1) else none) false msg.parts)
    complete := if complete then true else msg.complete }

/-- The calls `tickUpstreamNode.receive({ tick: true })` and `done()` that end an invocation. -/
def finishEffects (i : Nat) (s : State) : List Effect :=
  (match s.tickUpstreamNode with
    | some u => [Effect.tickUpstream u]
    | none => []) ++
  (if (getInv i s).hasDone then [Effect.done i none] else [])

/-- Lines 215-266, `cursorCallback` of invocation `i`. -/
def cursorCallback (cfg : Config) (i : Nat) (err : Option String) (rows : List Row)
    (s : State) : State × List Effect :=
  match err with
  | some e => handleError i (some e) s
  | none =>
    let complete := isComplete cfg rows
    let r1 : State × List Effect := if complete then handleDone i false s else (s, [])
    let msg2 := batchMsg cfg (getInv i r1.1).msg (getInv i r1.1).partsId (getInv i r1.1).partsIndex
      rows complete
    let s2 := modifyInv i (fun v => { v with partsIndex := v.partsIndex + 1 }) r1.1
    let s3 := { s2 with downstreamReady := !cfg.enableBackPressure }
    let e3 := [Effect.send i (if msg2.complete then Port.second else Port.first) msg2]
    if complete then
      (s3, r1.2 ++ e3 ++ finishEffects i s3)
    else
      match callGetNextRows cfg s3 with
      | some r4 => (r4.1, r1.2 ++ e3 ++ r4.2)
      | none => (s3, r1.2 ++ e3 ++ [Effect.uncaught])

/-- Lines 137-141: the upstream node is looked up once. -/
def discover (cfg : Config) (s : State) : State :=
  match s.tickUpstreamId with
  | some _ => s
  | none =>
    let r := findInputNodeId cfg.node (some tickConsumerFilter)
    { s with
      tickUpstreamId := some r
      tickUpstreamNode :=
        match r with
        | some u => if u ≠ "" ∧ cfg.getNode u = true then some u else none
        | none => none }

/-- Line 150: the query text of a message. -/
def queryText (cfg : Config) (msg : Msg) : String :=
  match msg.query with
  | some q => if q ≠ "" then q else cfg.render cfg.query msg
  | none => cfg.render cfg.query msg

def noDatabase : String := "No database found. Please setup a database in FlowFuse Tables."

/-- Lines 149-152: the variables of a new invocation. -/
def newInvocation (cfg : Config) (msg : Msg) (hasDone : Bool) (random : Nat) : Invocation :=
  { msg := msg, hasDone := hasDone, partsId := random, query := queryText cfg msg,
    client := false, partsIndex := 0 }

/-- Lines 133-200 and 316-319: the input handler up to `await node.pgPool.connect()`. -/
def onInput (cfg : Config) (msg : Msg) (hasDone : Bool) (random : Nat) (s0 : State) :
    State × List Effect :=
  let s := discover cfg s0
  if msg.tick then
    let s1 := { s with downstreamReady := true }
    match s1.getNextRows with
    | none => (s1, [])
    | some _ =>
      match callGetNextRows cfg s1 with
      | some r => r
      | none => (s1, [Effect.uncaught])
  else
    let i := s.invs.length
    let s1 := { s with invs := s.invs ++ [newInvocation cfg msg hasDone random] }
    let r2 := handleDone i false s1
    let s3 := updateStatus 1 false r2.1
    let s4 := { s3 with downstreamReady := true }
    if s4.pgPool.connect then
      ({ s4 with pendingConnects := s4.pendingConnects ++ [i] }, r2.2 ++ [Effect.connect i])
    else
      (s4, r2.2 ++ [Effect.nodeError noDatabase])

/-- Lines 202-207: the query text after the parameters are resolved. -/
def resolveParams (cfg : Config) (v : Invocation) : Except String String :=
  if v.msg.params ≠ [] then Except.ok v.query
  else match v.msg.queryParameters with
    | some qp => cfg.convert v.query qp
    | none => Except.ok v.query

/-- Line 200: `client` of invocation `i` receives the connection. -/
def acquire (i : Nat) (s : State) : State :=
  modifyInv i (fun v => { v with client := true })
    { s with pendingConnects := s.pendingConnects.erase i }

/-- Lines 206-213 and 268-272 for the query text `q`: `partsIndex = 0`, `delete
msg.complete`, the cursor is created and `getNextRows` is set; `rows` is what the cursor
will deliver. -/
def openCursor (i : Nat) (rows : List Row) (q : String) (s : State) : State :=
  { modifyInv i (fun v =>
      { v with query := q, partsIndex := 0, msg := { v.msg with complete := false } }) s with
    cursors := s.cursors ++ [{ rows := rows, closed := false }]
    cursor := some s.cursors.length
    getNextRows := some (Pull.split i) }

/-- Lines 206 and 274 for the query text `q`: `getNextRows` is set to the single-shot
closure. -/
def installSingle (i : Nat) (q : String) (s : State) : State :=
  { modifyInv i (fun v => { v with query := q }) s with getNextRows := some (Pull.single i) }

/-- Lines 200-315: the handler after `pool.connect()` has resolved for invocation `i`. -/
def onConnected (cfg : Config) (i : Nat) (rows : List Row) (s0 : State) :
    State × List Effect :=
  if i ∈ s0.pendingConnects then
    match resolveParams cfg (getInv i (acquire i s0)) with
    | Except.error e => handleError i (some e) (acquire i s0)
    | Except.ok q =>
      if cfg.split then
        match callGetNextRows cfg (openCursor i rows q (acquire i s0)) with
        | some r5 => (r5.1, Effect.cursorOpen i s0.cursors.length :: r5.2)
        | none =>
          ((handleError i (some typeError) (openCursor i rows q (acquire i s0))).1,
            Effect.cursorOpen i s0.cursors.length ::
              (handleError i (some typeError) (openCursor i rows q (acquire i s0))).2)
      else
        match callGetNextRows cfg (installSingle i q (acquire i s0)) with
        | some r4 => r4
        | none => handleError i (some typeError) (installSingle i q (acquire i s0))
  else (s0, [])

/-- Lines 313-315: `pool.connect()` has thrown for invocation `i`. -/
def onConnectFailed (i : Nat) (err : Option String) (s0 : State) : State × List Effect :=
  if i ∈ s0.pendingConnects then
    handleError i err { s0 with pendingConnects := s0.pendingConnects.erase i }
  else (s0, [])

/-- The rows a cursor delivers for the pending read `p`: the next `p.n` it holds. -/
def answer (s : State) (p : PendingRead) : List Row :=
  (((s.cursors[p.cursor]?).getD default).rows).take p.n

/-- The pending read number `k` is answered: it is no longer pending and its cursor has
moved past the rows delivered. -/
def advance (k : Nat) (p : PendingRead) (s : State) : State :=
  { s with
    pendingReads := s.pendingReads.eraseIdx k
    cursors := s.cursors.set p.cursor { ((s.cursors[p.cursor]?).getD default) with
      rows := (((s.cursors[p.cursor]?).getD default).rows).drop p.n } }

/-- The cursor answers the pending read number `k`: with an error, or with the next
`n` rows it holds. -/
def onReadDone (cfg : Config) (k : Nat) (err : Option String) (s0 : State) :
    State × List Effect :=
  match s0.pendingReads[k]? with
  | none => (s0, [])
  | some p =>
    match err with
    | some e =>
      cursorCallback cfg p.cb (some e) [] { s0 with pendingReads := s0.pendingReads.eraseIdx k }
    | none => cursorCallback cfg p.cb none (answer s0 p) (advance k p s0)

/-- Lines 276-308: the single-shot closure after `await client.query(query, params)`. -/
def onQueryDone (k : Nat) (res : Except (Option String) QueryResult) (s0 : State) :
    State × List Effect :=
  match s0.pendingQueries[k]? with
  | none => (s0, [])
  | some i =>
    let s := { s0 with pendingQueries := s0.pendingQueries.eraseIdx k }
    match res with
    | Except.error e => handleError i e s
    | Except.ok result =>
      let payload : Payload :=
        match result with
        | QueryResult.multi [] => Payload.undefined
        | QueryResult.multi (r :: rs) => Payload.rows (r ++ rs.foldr (fun x acc => x ++ acc) [])
        | QueryResult.single rows => Payload.rows rows
      let s1 := modifyInv i (fun v => { v with msg := { v.msg with payload := payload } }) s
      let r2 := handleDone i false s1
      let s3 := { r2.1 with downstreamReady := false }
      (s3, r2.2 ++ [Effect.send i Port.whole (getInv i s3).msg] ++ finishEffects i s3)

/-- Lines 100-120: the answer of `ffAPI.getDatabases` has arrived with `n` databases. -/
def onDatabases (n : Nat) (s : State) : State × List Effect :=
  if n > 0 then
    (updateStatus 0 false { s with pgPool := { connect := true, totalCount := 0 } }, [])
  else
    (s, [Effect.nodeWarn "No databases found in FlowFuse Tables for your team.",
      Effect.status { fill := Fill.red, shape := Shape.ring, text := "No Databases" }])

/-- One event. -/
def step (cfg : Config) (s : State) : Event → State × List Effect
  | Event.input msg hasDone random => onInput cfg msg hasDone random s
  | Event.connected i rows => onConnected cfg i rows s
  | Event.connectFailed i err => onConnectFailed i err s
  | Event.readDone k err => onReadDone cfg k err s
  | Event.queryDone k res => onQueryDone k res s
  | Event.statusTimer => if s.statusTimer then statusTimerCallback s else (s, [])
  | Event.databases n => onDatabases n s
  | Event.poolCount n => ({ s with pgPool := { s.pgPool with totalCount := n } }, [])

/-- A sequence of events; the calls made are collected in order. -/
def run (cfg : Config) (s : State) : List Event → State × List Effect
  | [] => (s, [])
  | ev :: evs =>
    ((run cfg (step cfg s ev).1 evs).1, (step cfg s ev).2 ++ (run cfg (step cfg s ev).1 evs).2)

/-- The messages passed to `send`, in order. -/
def sent : List Effect → List Msg
  | [] => []
  | Effect.send _ _ m :: es => m :: sent es
  | _ :: es => sent es

/-- The number of `cursor.read` calls. -/
def reads : List Effect → Nat
  | [] => 0
  | Effect.cursorRead _ _ _ :: es => reads es + 1
  | _ :: es => reads es

/-! ## Specification-side definitions and example inputs -/

/-- Spec side of the discovery: node `n` owns a wire with destination `toId`. -/
def wiredTo (toId : NodeId) (n : FlowNode) : Bool :=
  match n.wires with
  | none => false
  | some wires => wires.any fun wire => wire.any fun d => decide (toId = d)

/-- The nodes of `allNodes` in enumeration order (empty slots and a missing table give none). -/
def candidates (t : ToNode) : List FlowNode :=
  (t.allNodes.getD []).filterMap fun entry => entry.2

/-- A streaming node `q` with batches of three rows, wired from the tick consumer `a`. -/
def exampleConfig : Config :=
  { node :=
      { id := "q"
        allNodes := some [("a", some { id := "a", wires := some [["q"]], tickConsumer := true })] }
    query := "SELECT * FROM t"
    split := true
    rowsPerMsg := some 3
    enableBackPressure := false
    render := fun template _ => template
    convert := fun text _ => Except.ok text
    getNode := fun _ => true }

/-- The same node configured for one message per query. -/
def singleShotConfig : Config := { exampleConfig with split := false }

/-- The same node with strict back-pressure. -/
def backPressureConfig : Config := { exampleConfig with enableBackPressure := true }

/-- A node whose pool has been created. -/
def readyState : State := { pgPool := { connect := true, totalCount := 0 } }

/-- A node as the constructor leaves it: `pgPool` is `{ totalCount: 0 }`, without `connect`. -/
def noPoolState : State := {}

def queryEvent : Event := Event.input {} true 42

def tickEvent : Event := Event.input { tick := true } true 0

/-- Spec side of the discovery: `n` satisfies the filter and owns a wire to `t`. -/
def feeds (t : ToNode) (f : FlowNode → Bool) (n : FlowNode) : Prop :=
  f n = true ∧ ∃ wires, n.wires = some wires ∧ ∃ wire ∈ wires, t.id ∈ wire

/-- The number of cursors opened. -/
def opens : List Effect → Nat
  | [] => 0
  | Effect.cursorOpen _ _ :: es => opens es + 1
  | _ :: es => opens es

/-- The number of `client.release` calls of invocation `i`. -/
def releases (i : Nat) : List Effect → Nat
  | [] => 0
  | Effect.release j _ :: es => (if j = i then 1 else 0) + releases i es
  | _ :: es => releases i es

/-- The number of `pool.connect` calls. -/
def connects : List Effect → Nat
  | [] => 0
  | Effect.connect _ :: es => connects es + 1
  | _ :: es => connects es

/-- The arguments of the `done` calls of invocation `i`, in order. -/
def doneCalls (i : Nat) : List Effect → List (Option String)
  | [] => []
  | Effect.done j err :: es => if j = i then err :: doneCalls i es else doneCalls i es
  | _ :: es => doneCalls i es

/-- The texts passed to `node.error`. -/
def nodeErrors : List Effect → List String
  | [] => []
  | Effect.nodeError text :: es => text :: nodeErrors es
  | _ :: es => nodeErrors es

/-- The cursor objects after lines 155-158. -/
def cursorsAfterClose (s : State) : List CursorObj :=
  match s.cursor with
  | some c => s.cursors.set c { ((s.cursors[c]?).getD default) with closed := true }
  | none => s.cursors

/-- The reads still outstanding after lines 155-158. -/
def pendingAfterClose (s : State) : List PendingRead :=
  match s.cursor with
  | some c => s.pendingReads.filter fun p => p.cursor != c
  | none => s.pendingReads

/-- The calls made by lines 155-158. -/
def closeEffects (s : State) : List Effect :=
  match s.cursor with
  | some c => [Effect.cursorClose c]
  | none => []

/-- The record of an invocation after `handleError(err)`. -/
def aborted (err : Option String) (v : Invocation) : Invocation :=
  { v with
    client := false
    msg := { v.msg with
      payload := Payload.text ((match err with
        | some e => e
        | none => "Unknown error!") ++ " " ++ v.query)
      parts := some (Parts.mk v.partsId none none none true none) } }

/-- The calls by which `handleError(err)` reports the error. -/
def errorEffects (i : Nat) (err : Option String) (hasDone : Bool) : List Effect :=
  match err with
  | some e => if hasDone then [Effect.done i (some e)] else [Effect.nodeError e]
  | none => []

/-- Events that start nothing and answer nothing: ticks, the status timer, and changes
of the pool. -/
def idleEvent : Event → Bool
  | Event.input msg _ _ => msg.tick
  | Event.statusTimer => true
  | Event.databases _ => true
  | Event.poolCount _ => true
  | _ => false

/-- What an idle event leaves alone while nothing is held by `getNextRows`. -/
structure IdleFrame (s r : State) (effs : List Effect) : Prop where
  getNextRows : r.getNextRows = none
  cursor : r.cursor = s.cursor
  invs : r.invs = s.invs
  cursors : r.cursors = s.cursors
  nbQueue : r.nbQueue = s.nbQueue
  pendingConnects : r.pendingConnects = s.pendingConnects
  pendingReads : r.pendingReads = s.pendingReads
  pendingQueries : r.pendingQueries = s.pendingQueries
  reads : reads effs = 0
  opens : opens effs = 0
  connects : connects effs = 0
  sent : sent effs = []
  doneCalls : ∀ i, doneCalls i effs = []
  releases : ∀ i, releases i effs = 0

/-- The state after lines 242-249 for a batch that is not the last: the index is
advanced and readiness is set from `enableBackPressure`. -/
def afterBatch (cfg : Config) (i : Nat) (s : State) : State :=
  { s with
    invs := s.invs.set i { getInv i s with partsIndex := (getInv i s).partsIndex + 1 }
    downstreamReady := !cfg.enableBackPressure }

/-- The number of tick messages in a trace. -/
def ticks : List Event → Nat
  | [] => 0
  | Event.input msg _ _ :: evs => (if msg.tick then 1 else 0) + ticks evs
  | _ :: evs => ticks evs

/-- The state after lines 137-144 of a tick message: the upstream node is looked up and
downstream is ready. -/
def readied (cfg : Config) (s : State) : State :=
  { discover cfg s with downstreamReady := true }

/-- The node after a query message and a successful connect over seven rows: the first
read is pending. -/
def firstReadPending (cfg : Config) : State :=
  (run cfg readyState [queryEvent, Event.connected 0 [1, 2, 3, 4, 5, 6, 7]]).1

/-- The same run (without back-pressure) after two batches: the third read is pending. -/
def lastReadPending : State :=
  (run exampleConfig readyState [queryEvent, Event.connected 0 [1, 2, 3, 4, 5, 6, 7],
    Event.readDone 0 none, Event.readDone 0 none]).1

/-! ## One streaming invocation followed through a run -/

/-- The parameters of a streaming invocation that is followed through a run: the
configuration, the batch size `b`, the index `i` of the invocation record, the index `c`
of the cursor it opens, the rows `R` the cursor delivers, the record `v0` created for the
message, and `nbQueue` before the message, `n0`. -/
structure Setup where
  cfg : Config
  b : Nat
  i : Nat
  c : Nat
  R : List Row
  v0 : Invocation
  n0 : Int

/-- The standing assumptions on the parameters: a streaming node with batch size
`b >= 1`, and a record as the input handler creates it. -/
structure Setup.Valid (x : Setup) : Prop where
  split : x.cfg.split = true
  rowsPerMsg : x.cfg.rowsPerMsg = some x.b
  positive : 1 ≤ x.b
  hasDone : x.v0.hasDone = true
  client : x.v0.client = false

/-- The events that may follow the query message of the invocation: ticks, the successful
connect of the invocation (its cursor delivers `R`), successful answers to reads, status
timers and pool changes. No other query message, no failure. -/
def quietFor (i : Nat) (R : List Row) : Event → Bool
  | Event.input msg _ _ => msg.tick
  | Event.connected j rows => decide (j = i → rows = R)
  | Event.connectFailed _ _ => false
  | Event.readDone _ err => err.isNone
  | Event.queryDone _ _ => false
  | Event.statusTimer => true
  | Event.databases _ => true
  | Event.poolCount _ => true

/-- The record of the invocation while it streams, after `j` batches. -/
def runningRecord (x : Setup) (q : String) (j : Nat) : Invocation :=
  { x.v0 with
    client := true
    query := q
    partsIndex := j
    msg := { x.v0.msg with complete := false } }

/-- Spec side: batch number `k` of the invocation, rows `k * b` up to `(k + 1) * b` of `R`. -/
def batchAt (x : Setup) (k : Nat) : Msg :=
  batchMsg x.cfg { x.v0.msg with complete := false } x.v0.partsId k
    ((x.R.drop (k * x.b)).take x.b) (isComplete x.cfg ((x.R.drop (k * x.b)).take x.b))

/-- The invocation waits for `pool.connect()`. -/
structure Connecting (x : Setup) (s : State) (effs : List Effect) : Prop where
  pendingConnects : s.pendingConnects = [x.i]
  pendingReads : s.pendingReads = []
  pendingQueries : s.pendingQueries = []
  getNextRows : s.getNextRows = none
  cursor : s.cursor = none
  cursors : s.cursors.length = x.c
  inv : s.invs[x.i]? = some x.v0
  nbQueue : s.nbQueue = x.n0 + 1
  sent : sent effs = []
  doneCalls : doneCalls x.i effs = []
  releases : releases x.i effs = 0
  opens : opens effs = 0

/-- The invocation streams: `j` batches have been sent, none of them the last. -/
structure Running (x : Setup) (q : String) (j : Nat) (s : State) (effs : List Effect) :
    Prop where
  pendingConnects : s.pendingConnects = []
  pendingReads : ∀ p ∈ s.pendingReads, p = ⟨x.c, x.b, x.i⟩
  pendingQueries : s.pendingQueries = []
  getNextRows : s.getNextRows = some (Pull.split x.i)
  cursor : s.cursor = some x.c
  cursorObj : s.cursors[x.c]? = some { rows := x.R.drop (j * x.b), closed := false }
  inv : s.invs[x.i]? = some (runningRecord x q j)
  nbQueue : s.nbQueue = x.n0 + 1
  progress : j * x.b ≤ x.R.length
  sent : sent effs = (List.range j).map (batchAt x)
  doneCalls : doneCalls x.i effs = []
  releases : releases x.i effs = 0
  opens : opens effs = 1

/-- The invocation has sent its last batch and called `done()`. -/
structure Finished (x : Setup) (s : State) (effs : List Effect) : Prop where
  pendingConnects : s.pendingConnects = []
  pendingReads : s.pendingReads = []
  pendingQueries : s.pendingQueries = []
  getNextRows : s.getNextRows = none
  cursor : s.cursor = none
  client : (getInv x.i s).client = false
  nbQueue : s.nbQueue = x.n0
  sent : sent effs = (List.range (x.R.length / x.b + 1)).map (batchAt x)
  doneCalls : doneCalls x.i effs = [none]
  releases : releases x.i effs = 1
  opens : opens effs = 1

/-- The invocation has ended in `handleError` before it opened a cursor (the named
parameters could not be bound). -/
structure Aborted (x : Setup) (s : State) (effs : List Effect) : Prop where
  pendingConnects : s.pendingConnects = []
  pendingReads : s.pendingReads = []
  pendingQueries : s.pendingQueries = []
  getNextRows : s.getNextRows = none
  cursor : s.cursor = none
  client : (getInv x.i s).client = false
  nbQueue : s.nbQueue = x.n0
  sent : sent effs = []
  doneCalls : ∃ e, doneCalls x.i effs = [some e]
  releases : releases x.i effs = 1
  opens : opens effs = 0

/-- Where the invocation stands. -/
def Phase (x : Setup) (s : State) (effs : List Effect) : Prop :=
  Connecting x s effs ∨ (∃ q j, Running x q j s effs) ∨ Finished x s effs ∨ Aborted x s effs

/-- No connect and no query is outstanding, and every outstanding read is on the cursor
the node holds (so a new query message, which closes that cursor, leaves none). This
holds for a fresh node, after a finished invocation, and while a streaming invocation is
parked or has a read pending. -/
def Settled (s : State) : Prop :=
  s.pendingConnects = [] ∧ s.pendingQueries = [] ∧
    ∀ p ∈ s.pendingReads, s.cursor = some p.cursor

/-- The parameters of the invocation started by the message `msg` in state `s0`. -/
def setupOf (cfg : Config) (b : Nat) (R : List Row) (msg : Msg) (rnd : Nat) (s0 : State) :
    Setup :=
  { cfg := cfg, b := b, i := s0.invs.length, c := s0.cursors.length, R := R
    v0 := newInvocation cfg msg true rnd, n0 := s0.nbQueue }

/-- A run of the streaming node over seven rows in batches of three, to completion. -/
def sevenRowsRun : List Event :=
  [queryEvent, Event.connected 0 [1, 2, 3, 4, 5, 6, 7], Event.readDone 0 none,
    Event.readDone 0 none, Event.readDone 0 none]

/-- A run of the streaming node over six rows in batches of three, to completion. -/
def sixRowsRun : List Event :=
  [queryEvent, Event.connected 0 [1, 2, 3, 4, 5, 6], Event.readDone 0 none,
    Event.readDone 0 none, Event.readDone 0 none]

/-- With strict back-pressure: a first invocation over seven rows sends its first batch
and is parked awaiting a tick. -/
def parkedRun : List Event :=
  [queryEvent, Event.connected 0 [1, 2, 3, 4, 5, 6, 7], Event.readDone 0 none]

/-- A second query message arrives while the first invocation is parked; it connects,
its cursor delivers two rows, and three ticks follow. -/
def overlapRun : List Event :=
  parkedRun ++ [Event.input {} true 43, Event.connected 1 [8, 9], Event.readDone 0 none,
    tickEvent, tickEvent, tickEvent]

/-- The node with strict back-pressure after `parkedRun`: the first invocation holds the
cursor and `getNextRows` and awaits a tick. -/
def parkedState : State := (run backPressureConfig readyState parkedRun).1

/-- A schedule that drives a streaming invocation: `n` times, the oldest pending read is
answered and a tick arrives. -/
def rounds : Nat → List Event
  | 0 => []
  | n + 1 => Event.readDone 0 none :: tickEvent :: rounds n

/-- The number of `client.query` calls of invocation `i`. -/
def queries (i : Nat) : List Effect → Nat
  | [] => 0
  | Effect.clientQuery j :: es => (if j = i then 1 else 0) + queries i es
  | _ :: es => queries i es

/-- A single-shot query up to the point where `client.query` is in flight. -/
def inFlightRun : List Event := [queryEvent, Event.connected 0 []]

/-- The answers to the two `client.query` calls: both resolve with the same rows. -/
def bothResolve : List Event :=
  [Event.queryDone 0 (Except.ok (QueryResult.single [1, 2])),
    Event.queryDone 0 (Except.ok (QueryResult.single [1, 2]))]

/-- The answers to the two `client.query` calls: the first resolves, the second is rejected. -/
def secondRejected : List Event :=
  [Event.queryDone 0 (Except.ok (QueryResult.single [1, 2])),
    Event.queryDone 0 (Except.error (some "Error: closed"))]

/-- A streaming query up to the point where the first `cursor.read` is in flight. -/
def readInFlightRun : List Event := [queryEvent, Event.connected 0 [1, 2, 3, 4, 5, 6, 7]]

/-- A streaming node without `rowsPerMsg`, otherwise as `exampleConfig`. -/
def unsetConfig : Config := { exampleConfig with rowsPerMsg := none }

/-- On the node without `rowsPerMsg`: a query whose cursor delivers the rows `R`, and
`n` reads answered. -/
def unsetRun (R : List Row) (n : Nat) : List Event :=
  [queryEvent, Event.connected 0 R] ++ List.replicate n (Event.readDone 0 none)

/-- The message built from read number `k` of `unsetRun`: the payload is `rows[0]` of a
read of one row (undefined once `R` is exhausted), and the message is not marked complete. -/
def unsetBatch (R : List Row) (k : Nat) : Msg :=
  { payload :=
      match R[k]? with
      | some r => Payload.row r
      | none => Payload.undefined
    parts := some (Parts.mk 42 (some "array") (some k) none false none)
    complete := false }

/-- The record of the invocation of `unsetRun` after `j` batches. -/
def unsetRecord (j : Nat) : Invocation :=
  { msg := {}, hasDone := true, partsId := 42, query := "SELECT * FROM t", client := true,
    partsIndex := j }

/-- The invocation of `unsetRun` after `j` reads have been answered: it still holds its
connection, its cursor and `getNextRows`, and read number `j` is pending. -/
structure Unending (R : List Row) (j : Nat) (s : State) (effs : List Effect) : Prop where
  pendingReads : s.pendingReads = [⟨0, 1, 0⟩]
  getNextRows : s.getNextRows = some (Pull.split 0)
  cursor : s.cursor = some 0
  cursorObj : s.cursors[0]? = some { rows := R.drop j, closed := false }
  inv : s.invs[0]? = some (unsetRecord j)
  sent : sent effs = (List.range j).map (unsetBatch R)
  doneCalls : doneCalls 0 effs = []
  releases : releases 0 effs = 0
  reads : reads effs = j + 1

/-- A streaming node with `rowsPerMsg = 1`, otherwise as `exampleConfig`. -/
def oneRowConfig : Config := { exampleConfig with rowsPerMsg := some 1 }

/-! ## The DDL generator (src/nodes/utils/table-hints.js)

`generatePostgreSqlDdl` builds a `Map` of schemas, each with a `Map` of tables, from
the rows of five catalogue queries and prints it. A `Map` is modelled as the list of its
values in insertion order (the key of a schema is its `schemaName`, the key of a table its
`tableName`); the object returned by `Map.get` or `Array.find` is mutated in place, which
is `modifyFirst` on the list. The functions `pg.escapeIdentifier` and `pg.escapeLiteral`
belong to the `pg` library and are parameters. The `viewMap` of a schema is never read
and is left out. -/

/-- A row of `columnsQuery`. -/
structure ColumnRow where
  table_schema : String
  table_name : String
  column_name : String
  udt_name : String
  character_maximum_length : Option Nat := none
  is_nullable : String := "YES"
  column_default : Option String := none
  table_type : String := "BASE TABLE"

/-- A row of `pksQuery`. -/
structure PkRow where
  table_schema : String
  table_name : String
  column_name : String

/-- A row of `fksQuery`. -/
structure FkRow where
  from_schema : String
  from_table : String
  from_column : String
  to_schema : String
  to_table : String
  to_column : String

/-- A row of `indexesQuery`; `column_names` is `none` when it is not an array. -/
structure IndexRow where
  schema_name : String
  table_name : String
  index_name : String
  column_names : Option (List String)

/-- A row of `commentsQuery`. -/
structure CommentRow where
  schema_name : String
  table_name : String
  column_name : String
  column_comment : String

/-- The object `{ table, column }` of lines 187-190. -/
structure Reference where
  table : String
  column : String
deriving DecidableEq

/-- The column object of lines 141-147, with the fields steps 2 and 3 may add. -/
structure Col where
  columnName : String
  dataType : String
  isNullable : Bool
  defaultValue : Option String
  comment : String
  isPrimaryKey : Bool := false
  isForeignKey : Bool := false
  references : Option Reference := none
deriving DecidableEq

/-- An element of `table.foreignKeys` as the loop of lines 264-269 reads it. -/
structure ForeignKey where
  columnName : String
  references : Reference
deriving DecidableEq

/-- The index object of lines 201-204. -/
structure Index where
  indexName : String
  columnNames : Option (List String)
deriving DecidableEq

/-- The table object of lines 130-137. -/
structure Table where
  isView : Bool
  tableName : String
  columns : List Col := []
  primaryKeys : List String := []
  foreignKeys : List ForeignKey := []
  indexes : List Index := []
deriving DecidableEq

/-- The schema object of lines 121-125; `tableMap` in insertion order. -/
structure Schema where
  schemaName : String
  tableMap : List Table := []
deriving DecidableEq

/-- The functions `pg.escapeIdentifier` and `pg.escapeLiteral`. -/
structure Pg where
  escapeIdentifier : String → String
  escapeLiteral : String → String

/-- The four arrays of lines 211-214. -/
structure Ddl where
  ddlTC : List String := []
  ddlFK : List String := []
  ddlIdx : List String := []
  ddlViews : List String := []
deriving DecidableEq

/-- The first element that satisfies `p` is replaced by its image under `f`; nothing
happens when there is none. -/
def modifyFirst {α : Type} (p : α → Bool) (f : α → α) : List α → List α
  | [] => []
  | a :: as => if p a then f a :: as else a :: modifyFirst p f as

/-- The line terminators, which `.` of a regular expression does not match. -/
def isLineTerminator (c : Char) : Bool :=
  c = '\n' || c = '\r' || c = Char.ofNat 0x2028 || c = Char.ofNat 0x2029

/-- A match of `.*::regclass` at the start of the text. -/
def matchesRegclass : List Char → Bool
  | [] => false
  | c :: cs =>
    "::regclass".data.isPrefixOf (c :: cs) || (!isLineTerminator c && matchesRegclass cs)

/-- A match of `nextval(.*::regclass)` somewhere in the text; the parentheses of the
pattern are a group. -/
def matchesNextval : List Char → Bool
  | [] => false
  | c :: cs =>
    ("nextval".data.isPrefixOf (c :: cs) && matchesRegclass ((c :: cs).drop 7)) ||
      matchesNextval cs

/-- The call `/nextval(.*::regclass)/.test(col.defaultValue)`; `null` is tested as the
text `null`. -/
def nextvalTest (defaultValue : Option String) : Bool :=
  matchesNextval (defaultValue.getD "null").data

/-- Lines 140-156: the column object of a row of `columnsQuery`. -/
def columnOf (comments : List CommentRow) (row : ColumnRow) : Col :=
  let comment := comments.find? fun c =>
    decide (c.table_name = row.table_name) && decide (c.schema_name = row.table_schema) &&
      decide (c.column_name = row.column_name)
  let col : Col :=
    { columnName := row.column_name
      dataType := row.udt_name
      isNullable := decide (row.is_nullable = "YES")
      defaultValue := row.column_default
      comment :=
        match comment with
        | some c => c.column_comment
        | none => "" }
  if col.dataType = "varchar" ∧ row.character_maximum_length.getD 0 ≠ 0 then
    { col with
      dataType := col.dataType ++ "(" ++ toString (row.character_maximum_length.getD 0) ++ ")" }
  else if col.dataType = "int8" ∧ nextvalTest col.defaultValue = true then
    { col with dataType := "bigserial", defaultValue := some "" }
  else if col.dataType = "int4" ∧ nextvalTest col.defaultValue = true then
    { col with dataType := "serial4", defaultValue := some "" }
  else col

/-- Lines 130-137: the table object created for the first row of a table. -/
def newTable (row : ColumnRow) : Table :=
  { isView := decide (row.table_type = "VIEW"), tableName := row.table_name }

/-- Lines 128-157: the table of the row is created if it is missing and receives the column. -/
def addToSchema (comments : List CommentRow) (row : ColumnRow) (schema : Schema) : Schema :=
  { schema with
    tableMap :=
      modifyFirst (fun t => decide (t.tableName = row.table_name))
        (fun t => { t with columns := t.columns ++ [columnOf comments row] })
        (if schema.tableMap.any (fun t => decide (t.tableName = row.table_name)) then
          schema.tableMap
        else schema.tableMap ++ [newTable row]) }

/-- Lines 119-158, step 1 for one row: the schema of the row is created if it is missing. -/
def addColumn (comments : List CommentRow) (schemaMap : List Schema) (row : ColumnRow) :
    List Schema :=
  modifyFirst (fun s => decide (s.schemaName = row.table_schema)) (addToSchema comments row)
    (if schemaMap.any (fun s => decide (s.schemaName = row.table_schema)) then schemaMap
      else schemaMap ++ [{ schemaName := row.table_schema }])

/-- Lines 165-174: the table records the key and its first column of that name is marked. -/
def markPrimaryKey (row : PkRow) (table : Table) : Table :=
  { table with
    primaryKeys := table.primaryKeys ++ [row.column_name]
    columns :=
      modifyFirst (fun c => decide (c.columnName = row.column_name))
        (fun c => { c with isPrimaryKey := true }) table.columns }

/-- Lines 161-175, step 2 for one row; an unknown schema or table is skipped. -/
def addPrimaryKey (schemaMap : List Schema) (row : PkRow) : List Schema :=
  modifyFirst (fun s => decide (s.schemaName = row.table_schema))
    (fun s => { s with
      tableMap :=
        modifyFirst (fun t => decide (t.tableName = row.table_name)) (markPrimaryKey row)
          s.tableMap })
    schemaMap

/-- Lines 182-192: the first column named `from_column` receives `isForeignKey` and
`references`; the table itself, and its `foreignKeys`, are not touched. -/
def markForeignKey (row : FkRow) (table : Table) : Table :=
  { table with
    columns :=
      modifyFirst (fun c => decide (c.columnName = row.from_column))
        (fun c => { c with
          isForeignKey := true
          references := some (Reference.mk row.to_table row.to_column) })
        table.columns }

/-- Lines 178-193, step 3 for one row; an unknown schema or table is skipped. -/
def addForeignKey (schemaMap : List Schema) (row : FkRow) : List Schema :=
  modifyFirst (fun s => decide (s.schemaName = row.from_schema))
    (fun s => { s with
      tableMap :=
        modifyFirst (fun t => decide (t.tableName = row.from_table)) (markForeignKey row)
          s.tableMap })
    schemaMap

/-- Lines 196-206, step 4 for one row; an unknown schema or table is skipped. -/
def addIndex (schemaMap : List Schema) (row : IndexRow) : List Schema :=
  modifyFirst (fun s => decide (s.schemaName = row.schema_name))
    (fun s => { s with
      tableMap :=
        modifyFirst (fun t => decide (t.tableName = row.table_name))
          (fun t => { t with indexes := t.indexes ++ [Index.mk row.index_name row.column_names] })
          s.tableMap })
    schemaMap

/-- Lines 114-209: the array `schemas` after the four steps. -/
def schemas (columns : List ColumnRow) (pks : List PkRow) (fks : List FkRow)
    (indexes : List IndexRow) (comments : List CommentRow) : List Schema :=
  indexes.foldl addIndex
    (fks.foldl addForeignKey (pks.foldl addPrimaryKey (columns.foldl (addColumn comments) [])))

/-- Lines 226-233: the definition of a column inside `CREATE TABLE`. -/
def columnDef (pg : Pg) (col : Col) : String :=
  let base := pg.escapeIdentifier col.columnName ++ " " ++ col.dataType
  let notNull := if !col.isNullable || col.isPrimaryKey then base ++ " NOT NULL" else base
  match col.defaultValue with
  | some d => if d ≠ "" then notNull ++ " DEFAULT " ++ d else notNull
  | none => notNull

/-- Lines 239-244: a primary key that is already quoted is kept as it is. -/
def escapedPrimaryKey (pg : Pg) (pk : String) : String :=
  if pk ≠ "" ∧ pk.data.head? = some '"' ∧ pk.data.getLast? = some '"' then pk
  else pg.escapeIdentifier pk

/-- Lines 237-247: the primary key constraint, when the table has primary keys. -/
def pkDef (pg : Pg) (table : Table) : List String :=
  if table.primaryKeys.length > 0 then
    ["CONSTRAINT " ++ pg.escapeIdentifier (table.tableName ++ "_pkey") ++ " PRIMARY KEY (" ++
      String.intercalate "," (table.primaryKeys.map (escapedPrimaryKey pg)) ++ ")"]
  else []

/-- Lines 250-261: the note of a view, the `CREATE TABLE` statement and one `COMMENT ON
COLUMN` statement for every column with a comment. -/
def tableStatements (pg : Pg) (schemaName : String) (table : Table) : List String :=
  let tableNameFull := schemaName ++ "." ++ pg.escapeIdentifier table.tableName
  (if table.isView then
    ["-- NOTE: Below, " ++ tableNameFull ++
      " is a VIEW in the DB, it is shown as a regular table for context only."]
  else []) ++
  ["CREATE TABLE " ++ tableNameFull ++ " (\n\t" ++
    String.intercalate ",\n\t" (table.columns.map (columnDef pg) ++ pkDef pg table) ++ "\n);"] ++
  table.columns.filterMap fun c =>
    if c.comment ≠ "" then
      some ("COMMENT ON COLUMN " ++ tableNameFull ++ "." ++ pg.escapeIdentifier c.columnName ++
        " IS " ++ pg.escapeLiteral c.comment ++ ";")
    else none

/-- Lines 265-268: the statement pushed to `ddlFK` for an element of `table.foreignKeys`. -/
def fkStatement (pg : Pg) (schemaName : String) (table : Table) (fk : ForeignKey) : String :=
  "ALTER TABLE " ++ schemaName ++ "." ++ pg.escapeIdentifier table.tableName ++
    " ADD CONSTRAINT " ++
    pg.escapeIdentifier (table.tableName ++ "_" ++ fk.columnName ++ "_fkey") ++
    " FOREIGN KEY (" ++ pg.escapeIdentifier fk.columnName ++ ")" ++
    " REFERENCES " ++ schemaName ++ "." ++ pg.escapeIdentifier fk.references.table ++ "(" ++
    pg.escapeIdentifier fk.references.column ++ ");"

/-- Lines 273-276: the statement pushed to `ddlIdx` for an index with a name and a
non-empty array of columns. -/
def indexStatement (pg : Pg) (schemaName : String) (table : Table) (index : Index) :
    Option String :=
  match index.columnNames with
  | some names =>
    if index.indexName ≠ "" ∧ names.length > 0 then
      some ("CREATE INDEX " ++ pg.escapeIdentifier index.indexName ++ " ON " ++ schemaName ++
        "." ++ pg.escapeIdentifier table.tableName ++ " (" ++
        String.intercalate "," (names.map pg.escapeIdentifier) ++ ");")
    else none
  | none => none

/-- Lines 249-261: the statements of a table go to `ddlViews` for a view, to `ddlTC` otherwise. -/
def pushStatements (isView : Bool) (lines : List String) (d : Ddl) : Ddl :=
  if isView then { d with ddlViews := d.ddlViews ++ lines }
  else { d with ddlTC := d.ddlTC ++ lines }

/-- Lines 221-278, the body of `tables.forEach`. -/
def emitTable (pg : Pg) (schemaName : String) (d : Ddl) (table : Table) : Ddl :=
  let d1 := pushStatements table.isView (tableStatements pg schemaName table) d
  let d2 := { d1 with ddlFK := d1.ddlFK ++ table.foreignKeys.map (fkStatement pg schemaName table) }
  { d2 with ddlIdx := d2.ddlIdx ++ table.indexes.filterMap (indexStatement pg schemaName table) }

/-- Lines 217-279, the body of `schemas.forEach`. -/
def emitSchema (pg : Pg) (d : Ddl) (schema : Schema) : Ddl :=
  schema.tableMap.foldl (emitTable pg (pg.escapeIdentifier schema.schemaName))
    { d with ddlTC := d.ddlTC ++ ["-- PostgreSQL Schema: " ++ pg.escapeIdentifier schema.schemaName] }

/-- Lines 211-279: the four arrays after `schemas.forEach`. -/
def emit (pg : Pg) (schemaMap : List Schema) : Ddl :=
  schemaMap.foldl (emitSchema pg) {}

/-- Lines 113-281. -/
def generatePostgreSqlDdl (pg : Pg) (columns : List ColumnRow) (pks : List PkRow)
    (fks : List FkRow) (indexes : List IndexRow) (comments : List CommentRow) : String :=
  let d := emit pg (schemas columns pks fks indexes comments)
  String.intercalate "\n" (d.ddlTC ++ d.ddlViews ++ d.ddlFK ++ d.ddlIdx)

/-- The functions of the `pg` library: `escapeIdentifier` doubles every double quote and
wraps the text in double quotes; `escapeLiteral` doubles single quotes and backslashes,
wraps the text in single quotes and puts ` E` in front when there was a backslash. -/
def pgLib : Pg :=
  { escapeIdentifier := fun str =>
      String.mk ('"' :: (str.data.flatMap fun c => if c = '"' then ['"', '"'] else [c]) ++ ['"'])
    escapeLiteral := fun str =>
      String.mk ((if str.data.any (fun c => c = '\\') then [' ', 'E'] else []) ++
        '\'' :: (str.data.flatMap fun c => if c = '\'' ∨ c = '\\' then [c, c] else [c]) ++ ['\'']) }

/-- Two tables of schema `public`: `customers(id)` and `orders(customer_id)`. -/
def shopColumns : List ColumnRow :=
  [{ table_schema := "public", table_name := "customers", column_name := "id",
     udt_name := "int4", is_nullable := "NO" },
   { table_schema := "public", table_name := "orders", column_name := "customer_id",
     udt_name := "int4", is_nullable := "NO" }]

def shopPks : List PkRow :=
  [{ table_schema := "public", table_name := "customers", column_name := "id" }]

/-- The foreign key `orders.customer_id -> customers.id`. -/
def shopFks : List FkRow :=
  [{ from_schema := "public", from_table := "orders", from_column := "customer_id",
     to_schema := "public", to_table := "customers", to_column := "id" }]

def shopIndexes : List IndexRow :=
  [{ schema_name := "public", table_name := "orders", index_name := "orders_customer_idx",
     column_names := some ["customer_id"] }]

/-- The text returned for the shop tables. -/
def shopDdl : String :=
  "-- PostgreSQL Schema: \"public\"\n" ++
  "CREATE TABLE \"public\".\"customers\" (\n\t\"id\" int4 NOT NULL,\n\t" ++
  "CONSTRAINT \"customers_pkey\" PRIMARY KEY (\"id\")\n);\n" ++
  "CREATE TABLE \"public\".\"orders\" (\n\t\"customer_id\" int4 NOT NULL\n);\n" ++
  "CREATE INDEX \"orders_customer_idx\" ON \"public\".\"orders\" (\"customer_id\");"

/-- The text `pat` occurs in `text`. -/
def occursIn (pat : List Char) : List Char → Bool
  | [] => pat.isEmpty
  | c :: cs => pat.isPrefixOf (c :: cs) || occursIn pat cs

/-- No table of the map has an element in `foreignKeys`. -/
def NoForeignKeys (schemaMap : List Schema) : Prop :=
  ∀ s ∈ schemaMap, ∀ t ∈ s.tableMap, t.foreignKeys = []

/-! ## Answers that arrive after `cursor.close()`

Line 156 only calls `cursor.close()`; the callback handed to an earlier `cursor.read` is
still in the hands of the cursor, which may call it afterwards (it does so for a read
that is in flight). `Event.readDone` answers the reads of `pendingReads` only, so `run`
describes the runs without such an answer; `runLate` adds it as `LateEvent.stale`. -/

/-- An event of the node, or the answer to the read `p` given after the cursor of `p` was
closed. -/
inductive LateEvent where
  | ev (e : Event)
  | stale (p : PendingRead)

/-- The cursor of `p` has moved past the rows it delivers for `p`. -/
def deliver (p : PendingRead) (s : State) : State :=
  { s with
    cursors := s.cursors.set p.cursor { ((s.cursors[p.cursor]?).getD default) with
      rows := (((s.cursors[p.cursor]?).getD default).rows).drop p.n } }

/-- The closed cursor of `p` answers the read with the next `p.n` rows it holds:
`cursorCallback` of the invocation that issued the read runs on the present state of the
node. Nothing happens when the cursor is not closed. -/
def onStale (cfg : Config) (p : PendingRead) (s : State) : State × List Effect :=
  if ((s.cursors[p.cursor]?).getD default).closed then
    cursorCallback cfg p.cb none (answer s p) (deliver p s)
  else (s, [])

/-- One event, late answers included. -/
def stepLate (cfg : Config) (s : State) : LateEvent → State × List Effect
  | LateEvent.ev e => step cfg s e
  | LateEvent.stale p => onStale cfg p s

/-- A sequence of events, late answers included; the calls made are collected in order. -/
def runLate (cfg : Config) (s : State) : List LateEvent → State × List Effect
  | [] => (s, [])
  | ev :: evs =>
    ((runLate cfg (stepLate cfg s ev).1 evs).1,
      (stepLate cfg s ev).2 ++ (runLate cfg (stepLate cfg s ev).1 evs).2)

/-- The events `quietFor` allows; a late answer is not among them. -/
def lateQuietFor (i : Nat) (R : List Row) : LateEvent → Bool
  | LateEvent.ev e => quietFor i R e
  | LateEvent.stale _ => false

/-- The events of a trace that are not late answers. -/
def ordinary : List LateEvent → List Event
  | [] => []
  | LateEvent.ev e :: l => e :: ordinary l
  | LateEvent.stale _ :: l => ordinary l

/-- Without back-pressure: a second query message arrives while the first read of the
first invocation is in flight. -/
def overlapStart : List LateEvent :=
  [LateEvent.ev queryEvent, LateEvent.ev (Event.connected 0 [1, 2, 3, 4, 5, 6, 7]),
    LateEvent.ev (Event.input {} true 43)]

/-- The second invocation connects, its cursor delivers two rows, and two ticks follow. -/
def secondRuns : List LateEvent :=
  [LateEvent.ev (Event.connected 1 [8, 9]), LateEvent.ev (Event.readDone 0 none),
    LateEvent.ev tickEvent, LateEvent.ev tickEvent]

/-- The read of the first invocation that was in flight is answered while the second
invocation is connecting. -/
def lateAnswerRun : List LateEvent :=
  overlapStart ++ LateEvent.stale ⟨0, 3, 0⟩ :: secondRuns

/-- The read of the first invocation that was in flight is never answered. -/
def noAnswerRun : List LateEvent := overlapStart ++ secondRuns

/-- The read of the first invocation that was in flight is answered after the second
invocation has connected and issued its first read. -/
def answerAfterConnectRun : List LateEvent :=
  overlapStart ++ [LateEvent.ev (Event.connected 1 [8, 9]), LateEvent.stale ⟨0, 3, 0⟩]

/-- Parts id, index and `complete` of the messages sent. -/
def summary (effs : List Effect) : List (Option Nat × Option Nat × Bool) :=
  (sent effs).map fun m => (m.parts.map Parts.id, m.parts.bind Parts.index, m.complete)

/-! # Theorems -/

/-! ## findInputNodeId -/

theorem wire_findSome (toId : NodeId) (c : Bool) (a : NodeId) (wire : List NodeId) :
    (wire.findSome? fun d => if toId = d ∧ c = true then some a else none) =
      if (c && wire.any fun d => decide (toId = d)) = true then some a else none := by
  induction wire with
  | nil => simp
  | cons d ds ih =>
    rw [List.findSome?_cons, List.any_cons, ih]
    cases c <;> by_cases hd : toId = d <;> simp [hd]

theorem wires_findSome (toId : NodeId) (c : Bool) (a : NodeId) (wires : List (List NodeId)) :
    (wires.findSome? fun wire =>
        wire.findSome? fun d => if toId = d ∧ c = true then some a else none) =
      if (c && wires.any fun wire => wire.any fun d => decide (toId = d)) = true
      then some a else none := by
  induction wires with
  | nil => simp
  | cons w ws ih =>
    rw [List.findSome?_cons, List.any_cons, ih, wire_findSome]
    cases c
    · simp
    · cases hw : (w.any fun d => decide (toId = d))
      · simp
      · simp

theorem scan_eq_find (toId : NodeId) (f : FlowNode → Bool)
    (allNodes : List (String × Option FlowNode)) :
    (allNodes.findSome? fun entry =>
      match entry.2 with
      | none => none
      | some fromNode =>
        match fromNode.wires with
        | none => none
        | some wires =>
          wires.findSome? fun wire =>
            wire.findSome? fun toNodeId =>
              if toId = toNodeId ∧ f fromNode = true then some fromNode.id else none) =
      ((allNodes.filterMap fun entry => entry.2).find? fun n => f n && wiredTo toId n).map
        fun n => n.id := by
  induction allNodes with
  | nil => rfl
  | cons e es ih =>
    obtain ⟨key, slot⟩ := e
    cases slot with
    | none =>
      rw [List.findSome?_cons, List.filterMap_cons]
      exact ih
    | some n =>
      rw [List.findSome?_cons, List.filterMap_cons]
      simp only [List.find?_cons]
      cases hw : n.wires with
      | none =>
        have h0 : (f n && wiredTo toId n) = false := by simp [wiredTo, hw]
        rw [h0]
        exact ih
      | some wires =>
        simp only [wires_findSome] at ih ⊢
        have h0 : wiredTo toId n = wires.any fun wire => wire.any fun d => decide (toId = d) := by
          simp [wiredTo, hw]
        rw [← h0]
        cases hq : (f n && wiredTo toId n)
        · simp only [Bool.false_eq_true, if_false]
          exact ih
        · simp

theorem findInputNodeId_eq_find (t : ToNode) (f : FlowNode → Bool) :
    findInputNodeId t (some f) =
      ((candidates t).find? fun n => f n && wiredTo t.id n).map fun n => n.id := by
  unfold findInputNodeId candidates
  cases hn : t.allNodes with
  | none => rfl
  | some allNodes => exact scan_eq_find t.id f allNodes

theorem wiredTo_iff (toId : NodeId) (n : FlowNode) :
    wiredTo toId n = true ↔ ∃ wires, n.wires = some wires ∧ ∃ wire ∈ wires, toId ∈ wire := by
  unfold wiredTo
  cases hw : n.wires with
  | none => simp
  | some wires => simp

theorem find_map_eq_some_iff {α β : Type} (p : α → Bool) (g : α → β) (l : List α) (b : β) :
    (l.find? p).map g = some b ↔
      ∃ before x after, l = before ++ x :: after ∧ g x = b ∧ p x = true ∧
        ∀ y ∈ before, ¬ p y = true := by
  constructor
  · intro h
    cases hf : l.find? p with
    | none => simp [hf] at h
    | some x =>
      rw [hf] at h
      obtain ⟨hx, before, after, hl, hb⟩ := List.find?_eq_some.mp hf
      refine ⟨before, x, after, hl, by simpa using h, hx, ?_⟩
      intro y hy
      simpa using hb y hy
  · rintro ⟨before, x, after, hl, hg, hx, hb⟩
    have : l.find? p = some x := by
      rw [List.find?_eq_some]
      exact ⟨hx, before, after, hl, fun y hy => by simpa using hb y hy⟩
    simp [this, hg]

/-- C8: `findInputNodeId(t, filter)` returns the id of the first node, in the enumeration
order of `allNodes`, that satisfies the filter and owns a wire with a destination equal to
`t.id`; it returns false exactly when no node of `allNodes` does both, which includes a
missing flow or global table. The filter of the input handler is `tickConsumer`. -/
theorem findInputNodeId_first_match (t : ToNode) (f : FlowNode → Bool) :
    findInputNodeId t (some f) =
        ((candidates t).find? fun n => f n && wiredTo t.id n).map (fun n => n.id) ∧
    (∀ i, findInputNodeId t (some f) = some i ↔
        ∃ before n after, candidates t = before ++ n :: after ∧ n.id = i ∧ feeds t f n ∧
          ∀ m ∈ before, ¬ feeds t f m) ∧
    (findInputNodeId t (some f) = none ↔ ∀ n ∈ candidates t, ¬ feeds t f n) ∧
    findInputNodeId { id := t.id, allNodes := none } (some f) = none ∧
    (∀ n, tickConsumerFilter n = n.tickConsumer) := by
  have hfeeds : ∀ n, (f n && wiredTo t.id n) = true ↔ feeds t f n := by
    intro n
    simp only [Bool.and_eq_true, wiredTo_iff, feeds]
  refine ⟨findInputNodeId_eq_find t f, ?_, ?_, rfl, fun _ => rfl⟩
  · intro i
    rw [findInputNodeId_eq_find, find_map_eq_some_iff]
    constructor
    · rintro ⟨before, n, after, hl, hi, hn, hb⟩
      exact ⟨before, n, after, hl, hi, (hfeeds n).mp hn, fun m hm h => hb m hm ((hfeeds m).mpr h)⟩
    · rintro ⟨before, n, after, hl, hi, hn, hb⟩
      exact ⟨before, n, after, hl, hi, (hfeeds n).mpr hn, fun m hm h => hb m hm ((hfeeds m).mp h)⟩
  · rw [findInputNodeId_eq_find, Option.map_eq_none', List.find?_eq_none]
    constructor
    · intro h n hn hf
      exact h n hn ((hfeeds n).mpr hf)
    · intro h n hn hf
      exact h n hn ((hfeeds n).mp hf)

/-- C7: the status emitted by the timer callback of `updateStatus` is red exactly when
the error flag is set, yellow exactly when `nbQueue > totalCount` without error, blue when
`nbQueue <= 0` and green when `0 < nbQueue <= totalCount` without error; the shape is a ring
for red and yellow and a dot for green and blue; the text is "Queue: " followed by `nbQueue`
and by " Error!" when the flag is set; afterwards the flag and the timer are cleared. -/
theorem updateStatus_emission (s : State) :
    (statusTimerCallback s).2 =
        [Effect.status (statusOf s.nbQueue s.hasError s.pgPool.totalCount)] ∧
    ((statusOf s.nbQueue s.hasError s.pgPool.totalCount).fill = Fill.red ↔ s.hasError = true) ∧
    ((statusOf s.nbQueue s.hasError s.pgPool.totalCount).fill = Fill.yellow ↔
        (s.nbQueue > (s.pgPool.totalCount : Int) ∧ s.hasError = false)) ∧
    ((statusOf s.nbQueue s.hasError s.pgPool.totalCount).fill = Fill.blue ↔
        (s.nbQueue ≤ 0 ∧ s.hasError = false)) ∧
    ((statusOf s.nbQueue s.hasError s.pgPool.totalCount).fill = Fill.green ↔
        (0 < s.nbQueue ∧ s.nbQueue ≤ (s.pgPool.totalCount : Int) ∧ s.hasError = false)) ∧
    ((statusOf s.nbQueue s.hasError s.pgPool.totalCount).shape = Shape.ring ↔
        ((statusOf s.nbQueue s.hasError s.pgPool.totalCount).fill = Fill.red ∨
         (statusOf s.nbQueue s.hasError s.pgPool.totalCount).fill = Fill.yellow)) ∧
    ((statusOf s.nbQueue s.hasError s.pgPool.totalCount).shape = Shape.dot ↔
        ((statusOf s.nbQueue s.hasError s.pgPool.totalCount).fill = Fill.green ∨
         (statusOf s.nbQueue s.hasError s.pgPool.totalCount).fill = Fill.blue)) ∧
    (statusOf s.nbQueue s.hasError s.pgPool.totalCount).text =
        "Queue: " ++ toString s.nbQueue ++ (if s.hasError = true then " Error!" else "") ∧
    (statusTimerCallback s).1.hasError = false ∧
    (statusTimerCallback s).1.statusTimer = false ∧
    (statusTimerCallback s).1.nbQueue = s.nbQueue := by
  refine ⟨rfl, ?_, ?_, ?_, ?_, ?_, ?_, rfl, rfl, rfl, rfl⟩ <;>
  · generalize s.pgPool.totalCount = tc
    generalize s.nbQueue = q
    cases s.hasError <;> simp only [statusOf] <;>
    by_cases h1 : q ≤ 0 <;> by_cases h2 : q ≤ (tc : Int) <;> simp [h1, h2] <;> omega

/-- C3, where the code departs from it: on an invocation that holds a connection (here
the single-shot invocation right after `connect`, `nbQueue = 1`), `handleDone(false)`
followed by `handleDone(true)` releases the connection once but lowers `nbQueue` by two;
the same happens in the run where a tick re-issues the query, the first query resolves
and the second is rejected. -/
theorem handleDone_twice_lowers_queue_twice :
    (run singleShotConfig readyState [queryEvent, Event.connected 0 []]).1.nbQueue = 1 ∧
    (getInv 0 (run singleShotConfig readyState [queryEvent, Event.connected 0 []]).1).client
      = true ∧
    (handleDone 0 true (handleDone 0 false
      (run singleShotConfig readyState [queryEvent, Event.connected 0 []]).1).1).1.nbQueue
      = -1 ∧
    releases 0 ((handleDone 0 false
        (run singleShotConfig readyState [queryEvent, Event.connected 0 []]).1).2 ++
      (handleDone 0 true (handleDone 0 false
        (run singleShotConfig readyState [queryEvent, Event.connected 0 []]).1).1).2) = 1 ∧
    (run singleShotConfig readyState
      [queryEvent, Event.connected 0 [], tickEvent,
        Event.queryDone 0 (Except.ok (QueryResult.single [1, 2])),
        Event.queryDone 0 (Except.error (some "Error: closed"))]).1.nbQueue = -1 := by
  decide

/-- C9, where the code departs from it: on a node without a pool a query message opens
no connection and no cursor, sends nothing and reports the error, but `nbQueue` has been
raised by one and stays raised (0 before the message, 1 after it, and `done` is not
called). -/
theorem no_pool_leaves_queue_raised :
    noPoolState.nbQueue = 0 ∧
    (step exampleConfig noPoolState queryEvent).1.nbQueue = 1 ∧
    connects (step exampleConfig noPoolState queryEvent).2 = 0 ∧
    opens (step exampleConfig noPoolState queryEvent).2 = 0 ∧
    sent (step exampleConfig noPoolState queryEvent).2 = [] ∧
    nodeErrors (step exampleConfig noPoolState queryEvent).2 = [noDatabase] ∧
    doneCalls 0 (step exampleConfig noPoolState queryEvent).2 = [] ∧
    (step exampleConfig noPoolState queryEvent).1.pendingConnects = [] ∧
    (run exampleConfig noPoolState [queryEvent, Event.statusTimer, tickEvent]).1.nbQueue = 1 := by
  decide

/-! ## Counting calls in a list of effects -/

theorem sent_append (a b : List Effect) : sent (a ++ b) = sent a ++ sent b := by
  induction a with
  | nil => rfl
  | cons x xs ih => cases x <;> simp [sent, ih]

theorem reads_append (a b : List Effect) : reads (a ++ b) = reads a + reads b := by
  induction a with
  | nil => simp [reads]
  | cons x xs ih => cases x <;> simp [reads, ih]; omega

theorem opens_append (a b : List Effect) : opens (a ++ b) = opens a + opens b := by
  induction a with
  | nil => simp [opens]
  | cons x xs ih => cases x <;> simp [opens, ih]; omega

theorem connects_append (a b : List Effect) : connects (a ++ b) = connects a + connects b := by
  induction a with
  | nil => simp [connects]
  | cons x xs ih => cases x <;> simp [connects, ih]; omega

theorem releases_append (i : Nat) (a b : List Effect) :
    releases i (a ++ b) = releases i a + releases i b := by
  induction a with
  | nil => simp [releases]
  | cons x xs ih => cases x <;> simp [releases, ih]; omega

theorem doneCalls_append (i : Nat) (a b : List Effect) :
    doneCalls i (a ++ b) = doneCalls i a ++ doneCalls i b := by
  induction a with
  | nil => rfl
  | cons x xs ih =>
    cases x <;> simp [doneCalls, ih]
    split <;> simp

theorem nodeErrors_append (a b : List Effect) :
    nodeErrors (a ++ b) = nodeErrors a ++ nodeErrors b := by
  induction a with
  | nil => rfl
  | cons x xs ih => cases x <;> simp [nodeErrors, ih]

/-! ## Normal forms of the closures -/

theorem closeHeld_eq (s : State) :
    closeHeld s =
      ({ s with
          cursor := none
          cursors := cursorsAfterClose s
          pendingReads := pendingAfterClose s },
        closeEffects s) := by
  unfold closeHeld cursorsAfterClose pendingAfterClose closeEffects closeCursor
  cases s with
  | mk a b c cur e f g h i j k l m n =>
    cases cur <;> rfl

theorem set_same {α : Type} (l : List α) (i : Nat) (v : α) (h : l[i]? = some v) :
    l.set i v = l := by
  apply List.ext_getElem?
  intro j
  rw [List.getElem?_set]
  split
  · next hij =>
    subst hij
    split
    · exact h.symm
    · next hlt => exact (List.getElem?_eq_none (Nat.le_of_not_lt hlt)).symm
  · rfl

theorem set_unheld (l : List Invocation) (i : Nat) (h : (l[i]?.getD default).client = false) :
    l.set i { (l[i]?.getD default) with client := false } = l := by
  cases hl : l[i]? with
  | none =>
    apply List.set_eq_of_length_le
    exact List.getElem?_eq_none_iff.mp hl
  | some v =>
    rw [hl] at h
    simp only [Option.getD_some] at h ⊢
    apply set_same
    rw [hl, ← h]

theorem releaseHeld_eq (i : Nat) (e : Bool) (s : State) :
    releaseHeld i e s =
      ({ s with
          invs := s.invs.set i { getInv i s with client := false }
          nbQueue := s.nbQueue + (if (getInv i s).client = true ∨ e = true then -1 else 0)
          hasError := s.hasError || e
          statusTimer := s.statusTimer || (getInv i s).client || e },
        if (getInv i s).client = true then [Effect.release i e] else []) := by
  unfold releaseHeld
  cases hcl : (getInv i s).client
  · have hs : s.invs.set i { getInv i s with client := false } = s.invs := set_unheld s.invs i hcl
    rw [hs]
    cases e <;> cases s <;> simp [updateStatus]
  · simp [updateStatus, modifyInv]

theorem handleDone_eq (i : Nat) (e : Bool) (s : State) :
    handleDone i e s =
      ({ s with
          cursor := none
          getNextRows := none
          cursors := cursorsAfterClose s
          pendingReads := pendingAfterClose s
          invs := s.invs.set i { getInv i s with client := false }
          nbQueue := s.nbQueue + (if (getInv i s).client = true ∨ e = true then -1 else 0)
          hasError := s.hasError || e
          statusTimer := s.statusTimer || (getInv i s).client || e },
        closeEffects s ++ (if (getInv i s).client = true then [Effect.release i e] else [])) := by
  unfold handleDone
  simp only [closeHeld_eq, releaseHeld_eq]
  rfl

theorem handleError_eq (i : Nat) (err : Option String) (s : State) :
    handleError i err s =
      ({ s with
          cursor := none
          getNextRows := none
          downstreamReady := false
          cursors := cursorsAfterClose s
          pendingReads := pendingAfterClose s
          invs := s.invs.set i (aborted err (getInv i s))
          nbQueue := s.nbQueue + -1
          hasError := true
          statusTimer := true },
        closeEffects s ++ (if (getInv i s).client = true then [Effect.release i true] else []) ++
          errorEffects i err (getInv i s).hasDone) := by
  unfold handleError
  simp only [handleDone_eq, modifyInv, getInv, errorEffects, aborted]
  by_cases hi : i < s.invs.length
  · simp [List.getElem?_set_self hi, List.set_set]
  · have hle := Nat.le_of_not_lt hi
    simp [List.set_eq_of_length_le hle]

/-! ## The input handler -/

@[simp] theorem discover_downstreamReady (cfg : Config) (s : State) :
    (discover cfg s).downstreamReady = s.downstreamReady := by
  unfold discover; split <;> rfl

@[simp] theorem discover_cursor (cfg : Config) (s : State) :
    (discover cfg s).cursor = s.cursor := by
  unfold discover; split <;> rfl

@[simp] theorem discover_getNextRows (cfg : Config) (s : State) :
    (discover cfg s).getNextRows = s.getNextRows := by
  unfold discover; split <;> rfl

@[simp] theorem discover_nbQueue (cfg : Config) (s : State) :
    (discover cfg s).nbQueue = s.nbQueue := by
  unfold discover; split <;> rfl

@[simp] theorem discover_hasError (cfg : Config) (s : State) :
    (discover cfg s).hasError = s.hasError := by
  unfold discover; split <;> rfl

@[simp] theorem discover_statusTimer (cfg : Config) (s : State) :
    (discover cfg s).statusTimer = s.statusTimer := by
  unfold discover; split <;> rfl

@[simp] theorem discover_pgPool (cfg : Config) (s : State) :
    (discover cfg s).pgPool = s.pgPool := by
  unfold discover; split <;> rfl

@[simp] theorem discover_invs (cfg : Config) (s : State) :
    (discover cfg s).invs = s.invs := by
  unfold discover; split <;> rfl

@[simp] theorem discover_cursors (cfg : Config) (s : State) :
    (discover cfg s).cursors = s.cursors := by
  unfold discover; split <;> rfl

@[simp] theorem discover_pendingConnects (cfg : Config) (s : State) :
    (discover cfg s).pendingConnects = s.pendingConnects := by
  unfold discover; split <;> rfl

@[simp] theorem discover_pendingReads (cfg : Config) (s : State) :
    (discover cfg s).pendingReads = s.pendingReads := by
  unfold discover; split <;> rfl

@[simp] theorem discover_pendingQueries (cfg : Config) (s : State) :
    (discover cfg s).pendingQueries = s.pendingQueries := by
  unfold discover; split <;> rfl

theorem cursorsAfterClose_discover (cfg : Config) (s : State) :
    cursorsAfterClose (discover cfg s) = cursorsAfterClose s := by
  simp [cursorsAfterClose]

theorem pendingAfterClose_discover (cfg : Config) (s : State) :
    pendingAfterClose (discover cfg s) = pendingAfterClose s := by
  simp [pendingAfterClose]

theorem closeEffects_discover (cfg : Config) (s : State) :
    closeEffects (discover cfg s) = closeEffects s := by
  simp [closeEffects]

theorem getInv_length_append (l : List Invocation) (v : Invocation) :
    ((l ++ [v])[l.length]?).getD default = v := by
  simp

theorem set_length_append (l : List Invocation) (v w : Invocation) :
    (l ++ [v]).set l.length w = l ++ [w] := by
  simp [List.set_append]

/-- The record created for a query message. -/
theorem onInput_query (cfg : Config) (msg : Msg) (hd : Bool) (rnd : Nat) (s : State)
    (ht : msg.tick = false) :
    onInput cfg msg hd rnd s =
      if s.pgPool.connect = true then
        ({ discover cfg s with
            cursor := none
            getNextRows := none
            downstreamReady := true
            cursors := cursorsAfterClose s
            pendingReads := pendingAfterClose s
            invs := s.invs ++ [newInvocation cfg msg hd rnd]
            nbQueue := s.nbQueue + 1
            hasError := s.hasError
            statusTimer := true
            pendingConnects := s.pendingConnects ++ [s.invs.length] },
          closeEffects s ++ [Effect.connect s.invs.length])
      else
        ({ discover cfg s with
            cursor := none
            getNextRows := none
            downstreamReady := true
            cursors := cursorsAfterClose s
            pendingReads := pendingAfterClose s
            invs := s.invs ++ [newInvocation cfg msg hd rnd]
            nbQueue := s.nbQueue + 1
            hasError := s.hasError
            statusTimer := true },
          closeEffects s ++ [Effect.nodeError noDatabase]) := by
  unfold onInput
  simp only [ht, handleDone_eq, updateStatus, getInv, discover_invs, discover_pgPool,
    discover_nbQueue, discover_hasError, discover_statusTimer, discover_pendingConnects,
    getInv_length_append, set_length_append, cursorsAfterClose, pendingAfterClose, closeEffects,
    discover_cursor, discover_cursors, discover_pendingReads, newInvocation]
  simp

theorem run_append (cfg : Config) (s : State) (a b : List Event) :
    run cfg s (a ++ b) =
      ((run cfg (run cfg s a).1 b).1, (run cfg s a).2 ++ (run cfg (run cfg s a).1 b).2) := by
  induction a generalizing s with
  | nil => simp [run]
  | cons ev evs ih => simp [run, ih, List.append_assoc]

theorem idle_step (cfg : Config) (s : State) (ev : Event) (hev : idleEvent ev = true)
    (hg : s.getNextRows = none) : IdleFrame s (step cfg s ev).1 (step cfg s ev).2 := by
  cases ev with
  | input msg hd rnd =>
    have ht : msg.tick = true := hev
    have h : step cfg s (Event.input msg hd rnd) =
        ({ discover cfg s with downstreamReady := true }, []) := by
      simp [step, onInput, ht, hg]
    rw [h]
    constructor <;> simp [hg, reads, opens, connects, sent, doneCalls, releases]
  | statusTimer =>
    simp only [step]
    split
    · constructor <;>
        simp [statusTimerCallback, hg, reads, opens, connects, sent, doneCalls, releases]
    · constructor <;> simp [hg, reads, opens, connects, sent, doneCalls, releases]
  | databases n =>
    simp only [step, onDatabases]
    split
    · constructor <;> simp [updateStatus, hg, reads, opens, connects, sent, doneCalls, releases]
    · constructor <;> simp [hg, reads, opens, connects, sent, doneCalls, releases]
  | poolCount n =>
    simp only [step]
    constructor <;> simp [hg, reads, opens, connects, sent, doneCalls, releases]
  | connected i rows => simp [idleEvent] at hev
  | connectFailed i err => simp [idleEvent] at hev
  | readDone k err => simp [idleEvent] at hev
  | queryDone k res => simp [idleEvent] at hev

theorem idle_run (cfg : Config) (s : State) (evs : List Event)
    (hev : ∀ ev ∈ evs, idleEvent ev = true) (hg : s.getNextRows = none) :
    IdleFrame s (run cfg s evs).1 (run cfg s evs).2 := by
  induction evs generalizing s with
  | nil => constructor <;> simp [run, hg, reads, opens, connects, sent, doneCalls, releases]
  | cons ev evs ih =>
    have h1 := idle_step cfg s ev (hev ev (List.mem_cons_self _ _)) hg
    have h2 := ih (step cfg s ev).1 (fun x hx => hev x (List.mem_cons_of_mem _ hx)) h1.getNextRows
    simp only [run]
    constructor
    · exact h2.getNextRows
    · rw [h2.cursor, h1.cursor]
    · rw [h2.invs, h1.invs]
    · rw [h2.cursors, h1.cursors]
    · rw [h2.nbQueue, h1.nbQueue]
    · rw [h2.pendingConnects, h1.pendingConnects]
    · rw [h2.pendingReads, h1.pendingReads]
    · rw [h2.pendingQueries, h1.pendingQueries]
    · rw [reads_append, h1.reads, h2.reads]
    · rw [opens_append, h1.opens, h2.opens]
    · rw [connects_append, h1.connects, h2.connects]
    · rw [sent_append, h1.sent, h2.sent]; rfl
    · intro i; rw [doneCalls_append, h1.doneCalls, h2.doneCalls]; rfl
    · intro i; rw [releases_append, h1.releases, h2.releases]

theorem step_connectFailed (cfg : Config) (s : State) (i : Nat) (err : Option String) :
    step cfg s (Event.connectFailed i err) = onConnectFailed i err s := rfl

theorem step_connected (cfg : Config) (s : State) (i : Nat) (rows : List Row) :
    step cfg s (Event.connected i rows) = onConnected cfg i rows s := rfl

theorem step_readDone (cfg : Config) (s : State) (k : Nat) (err : Option String) :
    step cfg s (Event.readDone k err) = onReadDone cfg k err s := rfl

theorem step_input (cfg : Config) (s : State) (msg : Msg) (hd : Bool) (rnd : Nat) :
    step cfg s (Event.input msg hd rnd) = onInput cfg msg hd rnd s := rfl

theorem run_single (cfg : Config) (s : State) (ev : Event) :
    run cfg s [ev] = ((step cfg s ev).1, (step cfg s ev).2) := by
  simp [run]

theorem run_bracket (cfg : Config) (s : State) (first last : Event) (mid : List Event) :
    run cfg s (first :: (mid ++ [last])) =
      ((step cfg (run cfg (step cfg s first).1 mid).1 last).1,
        (step cfg s first).2 ++ ((run cfg (step cfg s first).1 mid).2 ++
          (step cfg (run cfg (step cfg s first).1 mid).1 last).2)) := by
  simp only [run, run_append, run_single, List.append_nil]

/-- The state and the calls after a query message on a node with a pool. -/
theorem step_query (cfg : Config) (msg : Msg) (hd : Bool) (rnd : Nat) (s : State)
    (ht : msg.tick = false) (hpool : s.pgPool.connect = true) :
    step cfg s (Event.input msg hd rnd) =
      ({ discover cfg s with
          cursor := none
          getNextRows := none
          downstreamReady := true
          cursors := cursorsAfterClose s
          pendingReads := pendingAfterClose s
          invs := s.invs ++ [newInvocation cfg msg hd rnd]
          nbQueue := s.nbQueue + 1
          hasError := s.hasError
          statusTimer := true
          pendingConnects := s.pendingConnects ++ [s.invs.length] },
        closeEffects s ++ [Effect.connect s.invs.length]) := by
  simp only [step]
  rw [onInput_query cfg msg hd rnd s ht, if_pos hpool]

theorem closeEffects_counts (s : State) :
    reads (closeEffects s) = 0 ∧ opens (closeEffects s) = 0 ∧ sent (closeEffects s) = [] ∧
    connects (closeEffects s) = 0 ∧
    (∀ i, doneCalls i (closeEffects s) = []) ∧ (∀ i, releases i (closeEffects s) = 0) := by
  unfold closeEffects
  cases s.cursor <;> simp [reads, opens, sent, connects, doneCalls, releases]

/-- C4: when `pool.connect()` throws for a query message (ticks, status timers and pool
changes may arrive in between), no cursor is opened and no read is issued, `nbQueue` is
raised by one at the start and is back at its value afterwards, the message object of the
invocation ends with `parts = { id, abort: true }` and the payload "error text, blank,
query text", and the error is passed to `done`. -/
theorem connect_failure_aborts (cfg : Config) (s : State) (msg : Msg) (rnd : Nat) (e : String)
    (mid : List Event) (hpool : s.pgPool.connect = true) (htick : msg.tick = false)
    (hmid : ∀ ev ∈ mid, idleEvent ev = true) :
    (step cfg s (Event.input msg true rnd)).1.nbQueue = s.nbQueue + 1 ∧
    (run cfg s (Event.input msg true rnd :: mid)).1.nbQueue = s.nbQueue + 1 ∧
    (run cfg s (Event.input msg true rnd ::
      (mid ++ [Event.connectFailed s.invs.length (some e)]))).1.nbQueue = s.nbQueue ∧
    opens (run cfg s (Event.input msg true rnd ::
      (mid ++ [Event.connectFailed s.invs.length (some e)]))).2 = 0 ∧
    reads (run cfg s (Event.input msg true rnd ::
      (mid ++ [Event.connectFailed s.invs.length (some e)]))).2 = 0 ∧
    sent (run cfg s (Event.input msg true rnd ::
      (mid ++ [Event.connectFailed s.invs.length (some e)]))).2 = [] ∧
    doneCalls s.invs.length (run cfg s (Event.input msg true rnd ::
      (mid ++ [Event.connectFailed s.invs.length (some e)]))).2 = [some e] ∧
    (getInv s.invs.length (run cfg s (Event.input msg true rnd ::
      (mid ++ [Event.connectFailed s.invs.length (some e)]))).1).msg.parts =
        some (Parts.mk rnd none none none true none) ∧
    (getInv s.invs.length (run cfg s (Event.input msg true rnd ::
      (mid ++ [Event.connectFailed s.invs.length (some e)]))).1).msg.payload =
        Payload.text (e ++ " " ++ queryText cfg msg) ∧
    (run cfg s (Event.input msg true rnd ::
      (mid ++ [Event.connectFailed s.invs.length (some e)]))).1.cursor = none ∧
    (run cfg s (Event.input msg true rnd ::
      (mid ++ [Event.connectFailed s.invs.length (some e)]))).1.getNextRows = none := by
  have h1 := step_query cfg msg true rnd s htick hpool
  have hc := closeEffects_counts s
  have hg1 : (step cfg s (Event.input msg true rnd)).1.getNextRows = none := by rw [h1]
  have hf := idle_run cfg (step cfg s (Event.input msg true rnd)).1 mid hmid hg1
  have hrun : run cfg s (Event.input msg true rnd :: mid) =
      ((run cfg (step cfg s (Event.input msg true rnd)).1 mid).1,
        (step cfg s (Event.input msg true rnd)).2 ++
          (run cfg (step cfg s (Event.input msg true rnd)).1 mid).2) := rfl
  rw [run_bracket, hrun]
  generalize run cfg (step cfg s (Event.input msg true rnd)).1 mid = r2 at hf ⊢
  obtain ⟨s2, e2⟩ := r2
  have hpend : s.invs.length ∈ s2.pendingConnects := by
    rw [hf.pendingConnects, h1]; simp
  have hcur : s2.cursor = none := by rw [hf.cursor, h1]
  have hinv : getInv s.invs.length s2 = newInvocation cfg msg true rnd := by
    unfold getInv
    rw [hf.invs, h1]
    simp
  have hlen : s.invs.length < s2.invs.length := by
    rw [hf.invs, h1]; simp
  have hq2 : s2.nbQueue = s.nbQueue + 1 := by rw [hf.nbQueue, h1]
  simp only [getInv] at hinv
  simp only [step_connectFailed, onConnectFailed, if_pos hpend, handleError_eq]
  simp only [getInv, hinv, hcur, closeEffects, newInvocation, errorEffects,
    List.getElem?_set_self hlen, Option.getD_some, aborted]
  rw [h1]
  simp only [sent_append, reads_append, opens_append, doneCalls_append, hc.1, hc.2.1, hc.2.2.1,
    hc.2.2.2.2.1, hf.sent, hf.reads, hf.opens, hf.doneCalls, hq2]
  simp [sent, reads, opens, doneCalls]

/-- C4 at a concrete input: the streaming node, a query message, a tick and a status
timer while connecting, then `connect()` throws. -/
theorem connect_failure_aborts_witness :
    (run exampleConfig readyState [queryEvent, tickEvent, Event.statusTimer,
      Event.connectFailed 0 (some "Error: refused")]).1.nbQueue = 0 ∧
    doneCalls 0 (run exampleConfig readyState [queryEvent, tickEvent, Event.statusTimer,
      Event.connectFailed 0 (some "Error: refused")]).2 = [some "Error: refused"] ∧
    (getInv 0 (run exampleConfig readyState [queryEvent, tickEvent, Event.statusTimer,
      Event.connectFailed 0 (some "Error: refused")]).1).msg.payload =
        Payload.text "Error: refused SELECT * FROM t" :=
  have h := connect_failure_aborts exampleConfig readyState {} 42 "Error: refused"
    [tickEvent, Event.statusTimer] (by decide) (by decide) (by decide)
  ⟨h.2.2.1, h.2.2.2.2.2.2.1, h.2.2.2.2.2.2.2.2.1⟩

theorem errorEffects_counts (i : Nat) (err : Option String) (hd : Bool) :
    reads (errorEffects i err hd) = 0 ∧ opens (errorEffects i err hd) = 0 ∧
    sent (errorEffects i err hd) = [] := by
  unfold errorEffects
  cases err <;> cases hd <;> simp [reads, opens, sent]

/-- After `handleError` nothing is held by `getNextRows`, readiness is false, and the
call itself reads nothing and sends nothing. -/
theorem handleError_quiet (i : Nat) (err : Option String) (s : State) :
    (handleError i err s).1.getNextRows = none ∧
    (handleError i err s).1.cursor = none ∧
    (handleError i err s).1.downstreamReady = false ∧
    reads (handleError i err s).2 = 0 ∧
    sent (handleError i err s).2 = [] := by
  rw [handleError_eq]
  have hc := closeEffects_counts s
  have he := errorEffects_counts i err (getInv i s).hasDone
  refine ⟨rfl, rfl, rfl, ?_, ?_⟩
  · simp only [reads_append, hc.1, he.1]
    split <;> simp [reads]
  · simp only [sent_append, hc.2.2.1, he.2.2]
    split <;> simp [sent]

/-- C5: when a cursor read of a streaming invocation is answered with an error,
`cursorCallback` runs `handleError`: that step issues no `cursor.read` and sends no batch,
it leaves `getNextRows` cleared and downstream readiness false, and every later sequence
of tick events (status timers and pool changes included) issues no read and sends no
batch either. -/
theorem no_read_after_error (cfg : Config) (s : State) (k : Nat) (p : PendingRead) (e : String)
    (later : List Event) (hp : s.pendingReads[k]? = some p)
    (hlater : ∀ ev ∈ later, idleEvent ev = true) :
    step cfg s (Event.readDone k (some e)) =
      handleError p.cb (some e) { s with pendingReads := s.pendingReads.eraseIdx k } ∧
    reads (step cfg s (Event.readDone k (some e))).2 = 0 ∧
    sent (step cfg s (Event.readDone k (some e))).2 = [] ∧
    (step cfg s (Event.readDone k (some e))).1.getNextRows = none ∧
    (step cfg s (Event.readDone k (some e))).1.cursor = none ∧
    (step cfg s (Event.readDone k (some e))).1.downstreamReady = false ∧
    reads (run cfg (step cfg s (Event.readDone k (some e))).1 later).2 = 0 ∧
    sent (run cfg (step cfg s (Event.readDone k (some e))).1 later).2 = [] ∧
    (run cfg (step cfg s (Event.readDone k (some e))).1 later).1.getNextRows = none ∧
    (run cfg (step cfg s (Event.readDone k (some e))).1 later).1.cursor = none := by
  have h0 : step cfg s (Event.readDone k (some e)) =
      handleError p.cb (some e) { s with pendingReads := s.pendingReads.eraseIdx k } := by
    simp only [step_readDone, onReadDone, hp, cursorCallback]
  have hq := handleError_quiet p.cb (some e) { s with pendingReads := s.pendingReads.eraseIdx k }
  rw [← h0] at hq
  have hf := idle_run cfg (step cfg s (Event.readDone k (some e))).1 later hlater hq.1
  exact ⟨h0, hq.2.2.2.1, hq.2.2.2.2, hq.1, hq.2.1, hq.2.2.1, hf.reads, hf.sent, hf.getNextRows,
    by rw [hf.cursor, hq.2.1]⟩

/-- C5 at a concrete input: the second read of a streaming invocation fails, three
ticks follow. -/
theorem no_read_after_error_witness :
    reads (run exampleConfig
      (step exampleConfig (run exampleConfig readyState
        [queryEvent, Event.connected 0 [1, 2, 3, 4, 5, 6, 7], Event.readDone 0 none]).1
        (Event.readDone 0 (some "Error: lost"))).1 [tickEvent, tickEvent, tickEvent]).2 = 0 ∧
    sent (run exampleConfig
      (step exampleConfig (run exampleConfig readyState
        [queryEvent, Event.connected 0 [1, 2, 3, 4, 5, 6, 7], Event.readDone 0 none]).1
        (Event.readDone 0 (some "Error: lost"))).1 [tickEvent, tickEvent, tickEvent]).2 = [] :=
  have h := no_read_after_error exampleConfig (run exampleConfig readyState
    [queryEvent, Event.connected 0 [1, 2, 3, 4, 5, 6, 7], Event.readDone 0 none]).1 0
    ⟨0, 3, 0⟩ "Error: lost" [tickEvent, tickEvent, tickEvent] (by decide) (by decide)
  ⟨h.2.2.2.2.2.2.1, h.2.2.2.2.2.2.2.1⟩

/-! ## cursorCallback and getNextRows -/

theorem cursorCallback_complete (cfg : Config) (i : Nat) (rows : List Row) (s : State)
    (hc : isComplete cfg rows = true) :
    cursorCallback cfg i none rows s =
      ({ s with
          cursor := none
          getNextRows := none
          downstreamReady := !cfg.enableBackPressure
          cursors := cursorsAfterClose s
          pendingReads := pendingAfterClose s
          invs := s.invs.set i { getInv i s with
            client := false, partsIndex := (getInv i s).partsIndex + 1 }
          nbQueue := s.nbQueue + (if (getInv i s).client = true then -1 else 0)
          hasError := s.hasError
          statusTimer := s.statusTimer || (getInv i s).client },
        closeEffects s ++ (if (getInv i s).client = true then [Effect.release i false] else []) ++
          [Effect.send i Port.second
            (batchMsg cfg (getInv i s).msg (getInv i s).partsId (getInv i s).partsIndex rows true)]
          ++ (match s.tickUpstreamNode with
            | some u => [Effect.tickUpstream u]
            | none => []) ++
          (if (getInv i s).hasDone = true then [Effect.done i none] else [])) := by
  unfold cursorCallback
  simp only [hc, if_true, handleDone_eq, modifyInv, finishEffects]
  by_cases hi : i < s.invs.length
  · simp [getInv, List.getElem?_set_self hi, List.set_set, batchMsg]
  · have hle := Nat.le_of_not_lt hi
    simp [getInv, List.set_eq_of_length_le hle, batchMsg]

theorem cursorCallback_more (cfg : Config) (i : Nat) (rows : List Row) (s : State)
    (hc : isComplete cfg rows = false) :
    cursorCallback cfg i none rows s =
      match callGetNextRows cfg (afterBatch cfg i s) with
      | some r4 =>
        (r4.1, Effect.send i (if (getInv i s).msg.complete = true then Port.second else Port.first)
          (batchMsg cfg (getInv i s).msg (getInv i s).partsId (getInv i s).partsIndex rows false)
            :: r4.2)
      | none =>
        (afterBatch cfg i s,
          [Effect.send i (if (getInv i s).msg.complete = true then Port.second else Port.first)
            (batchMsg cfg (getInv i s).msg (getInv i s).partsId (getInv i s).partsIndex rows false),
           Effect.uncaught]) := by
  unfold cursorCallback
  simp only [hc, Bool.false_eq_true, if_false, modifyInv, afterBatch, List.nil_append, batchMsg,
    List.singleton_append]

/-- What a call of `getNextRows()` can do: at most one read, none unless downstream is
ready, and readiness is left as it was unless the call ends in `handleError`. -/
theorem callGetNextRows_reads (cfg : Config) (s : State) (r : State × List Effect)
    (h : callGetNextRows cfg s = some r) :
    reads r.2 ≤ 1 ∧ opens r.2 = 0 ∧ (s.downstreamReady = false → reads r.2 = 0) ∧
    (s.downstreamReady = false → r.1.downstreamReady = false) ∧
    (0 < reads r.2 → r.1.downstreamReady = true) ∧
    (∀ j, s.getNextRows = some (Pull.single j) → reads r.2 = 0) := by
  unfold callGetNextRows at h
  cases hg : s.getNextRows with
  | none => simp [hg] at h
  | some pull =>
    cases pull with
    | split j =>
      simp only [hg] at h
      cases hr : s.downstreamReady with
      | false =>
        simp only [hr, Bool.false_eq_true, if_false, Option.some.injEq] at h
        subst h
        simp [reads, opens, hr]
      | true =>
        simp only [hr, if_true] at h
        cases hcur : s.cursor with
        | none => simp [hcur] at h
        | some c =>
          simp only [hcur, Option.some.injEq] at h
          subst h
          simp [reads, opens, hr]
    | single j =>
      simp only [hg] at h
      split at h
      · simp only [Option.some.injEq] at h
        subst h
        simp [reads, opens]
      · simp only [Option.some.injEq] at h
        subst h
        have hq := handleError_quiet j (some typeError) s
        have h2 : opens (handleError j (some typeError) s).2 = 0 := by
          rw [handleError_eq]
          have hc := closeEffects_counts s
          have he := errorEffects_counts j (some typeError) (getInv j s).hasDone
          simp only [opens_append, hc.2.1, he.2.1]
          split <;> simp [opens]
        refine ⟨by rw [hq.2.2.2.1]; exact Nat.zero_le _, h2, fun _ => hq.2.2.2.1,
          fun _ => hq.2.2.1, ?_, fun _ _ => hq.2.2.2.1⟩
        rw [hq.2.2.2.1]
        intro h0
        exact absurd h0 (Nat.lt_irrefl 0)

theorem handleDone_counts (i : Nat) (e : Bool) (s : State) :
    reads (handleDone i e s).2 = 0 ∧ opens (handleDone i e s).2 = 0 ∧
    sent (handleDone i e s).2 = [] := by
  rw [handleDone_eq]
  have hc := closeEffects_counts s
  simp only [reads_append, opens_append, sent_append, hc.1, hc.2.1, hc.2.2.1]
  split <;> simp [reads, opens, sent]

theorem finishEffects_counts (i : Nat) (s : State) :
    reads (finishEffects i s) = 0 ∧ opens (finishEffects i s) = 0 ∧
    sent (finishEffects i s) = [] := by
  unfold finishEffects
  cases s.tickUpstreamNode <;> cases (getInv i s).hasDone <;> simp [reads, opens, sent]

theorem onInput_tick (cfg : Config) (msg : Msg) (hd : Bool) (rnd : Nat) (s : State)
    (ht : msg.tick = true) :
    onInput cfg msg hd rnd s =
      match s.getNextRows with
      | none => (readied cfg s, [])
      | some _ =>
        match callGetNextRows cfg (readied cfg s) with
        | some r => r
        | none => (readied cfg s, [Effect.uncaught]) := by
  unfold onInput readied
  simp only [ht, if_true, discover_getNextRows]

theorem handleError_opens (i : Nat) (err : Option String) (s : State) :
    opens (handleError i err s).2 = 0 := by
  rw [handleError_eq]
  have hc := closeEffects_counts s
  have he := errorEffects_counts i err (getInv i s).hasDone
  simp only [opens_append, hc.2.1, he.2.1]
  split <;> simp [opens]

theorem cursorCallback_reads (cfg : Config) (i : Nat) (err : Option String) (rows : List Row)
    (s : State) :
    opens (cursorCallback cfg i err rows s).2 = 0 ∧
    (0 < reads (cursorCallback cfg i err rows s).2 →
      (cursorCallback cfg i err rows s).1.downstreamReady = true) ∧
    (cfg.enableBackPressure = true →
      reads (cursorCallback cfg i err rows s).2 = 0 ∧
      (cursorCallback cfg i err rows s).1.downstreamReady = false) := by
  cases err with
  | some e =>
    have hq := handleError_quiet i (some e) s
    have ho := handleError_opens i (some e) s
    simp only [cursorCallback]
    refine ⟨ho, ?_, fun _ => ⟨hq.2.2.2.1, hq.2.2.1⟩⟩
    rw [hq.2.2.2.1]
    intro h0
    exact absurd h0 (Nat.lt_irrefl 0)
  | none =>
    cases hc : isComplete cfg rows with
    | true =>
      rw [cursorCallback_complete cfg i rows s hc]
      have hcl := closeEffects_counts s
      have hr : ∀ b : Bool, reads (if (getInv i s).client = true then [Effect.release i b] else [])
          = 0 ∧ opens (if (getInv i s).client = true then [Effect.release i b] else []) = 0 := by
        intro b; split <;> simp [reads, opens]
      have ht : reads (match s.tickUpstreamNode with
            | some u => [Effect.tickUpstream u]
            | none => []) = 0 ∧ opens (match s.tickUpstreamNode with
            | some u => [Effect.tickUpstream u]
            | none => []) = 0 := by
        cases s.tickUpstreamNode <;> simp [reads, opens]
      have hd : reads (if (getInv i s).hasDone = true then [Effect.done i none] else []) = 0 ∧
          opens (if (getInv i s).hasDone = true then [Effect.done i none] else []) = 0 := by
        split <;> simp [reads, opens]
      have hreads : reads (closeEffects s ++
          (if (getInv i s).client = true then [Effect.release i false] else []) ++
          [Effect.send i Port.second
            (batchMsg cfg (getInv i s).msg (getInv i s).partsId (getInv i s).partsIndex rows true)]
          ++ (match s.tickUpstreamNode with
            | some u => [Effect.tickUpstream u]
            | none => []) ++
          (if (getInv i s).hasDone = true then [Effect.done i none] else [])) = 0 := by
        simp only [reads_append, hcl.1, (hr false).1, ht.1, hd.1, reads]
      refine ⟨?_, ?_, ?_⟩
      · simp only [opens_append, hcl.2.1, (hr false).2, ht.2, hd.2, opens]
      · simp only [hreads]
        intro h0
        exact absurd h0 (Nat.lt_irrefl 0)
      · intro hbp
        exact ⟨hreads, by simp [hbp]⟩
    | false =>
      rw [cursorCallback_more cfg i rows s hc]
      cases hcall : callGetNextRows cfg (afterBatch cfg i s) with
      | none =>
        simp only [reads, opens]
        refine ⟨trivial, ?_, fun hbp => ⟨trivial, by simp [afterBatch, hbp]⟩⟩
        intro h0
        exact absurd h0 (Nat.lt_irrefl 0)
      | some r4 =>
        have h4 := callGetNextRows_reads cfg (afterBatch cfg i s) r4 hcall
        simp only [reads, opens]
        refine ⟨h4.2.1, h4.2.2.2.2.1, fun hbp => ?_⟩
        have hready : (afterBatch cfg i s).downstreamReady = false := by simp [afterBatch, hbp]
        exact ⟨h4.2.2.1 hready, h4.2.2.2.1 hready⟩

/-- Every event: a read is issued only in a step that ends with downstream ready; with
strict back-pressure a step issues at most as many reads as it opens cursors, plus one
if it is a tick. -/
theorem step_reads (cfg : Config) (s : State) (ev : Event) :
    (0 < reads (step cfg s ev).2 → (step cfg s ev).1.downstreamReady = true) ∧
    (cfg.enableBackPressure = true →
      reads (step cfg s ev).2 ≤ opens (step cfg s ev).2 + ticks [ev]) := by
  have hzero : ∀ (r : State × List Effect), reads r.2 = 0 →
      (0 < reads r.2 → r.1.downstreamReady = true) ∧
      (cfg.enableBackPressure = true → reads r.2 ≤ opens r.2 + ticks [ev]) := by
    intro r h0
    rw [h0]
    exact ⟨fun h => absurd h (Nat.lt_irrefl 0), fun _ => Nat.zero_le _⟩
  cases ev with
  | input msg hd rnd =>
    cases ht : msg.tick with
    | false =>
      apply hzero
      rw [step_input, onInput_query cfg msg hd rnd s ht]
      have hc := closeEffects_counts s
      split <;> simp [reads_append, hc.1, reads]
    | true =>
      rw [step_input, onInput_tick cfg msg hd rnd s ht]
      cases hg : s.getNextRows with
      | none => exact hzero _ rfl
      | some pull =>
        cases hcall : callGetNextRows cfg (readied cfg s) with
        | none => exact hzero _ rfl
        | some r =>
          have h4 := callGetNextRows_reads cfg _ r hcall
          refine ⟨h4.2.2.2.2.1, fun _ => ?_⟩
          have h5 := h4.1
          simp only [ticks, ht, if_true]
          omega
  | connected i rows =>
    simp only [step_connected, onConnected]
    split
    · split
      · next e he =>
        apply hzero
        exact (handleError_quiet _ _ _).2.2.2.1
      · next q hq =>
        split
        · split
          · next r5 hcall =>
            have h4 := callGetNextRows_reads cfg _ r5 hcall
            have h5 := h4.1
            refine ⟨h4.2.2.2.2.1, fun _ => ?_⟩
            show reads r5.2 ≤ opens r5.2 + 1 + 0
            omega
          · apply hzero
            exact (handleError_quiet _ _ _).2.2.2.1
        · split
          · next r4 hcall =>
            apply hzero
            exact (callGetNextRows_reads cfg _ r4 hcall).2.2.2.2.2 i rfl
          · apply hzero
            exact (handleError_quiet _ _ _).2.2.2.1
    · apply hzero
      rfl
  | connectFailed i err =>
    apply hzero
    simp only [step_connectFailed, onConnectFailed]
    split
    · exact (handleError_quiet _ _ _).2.2.2.1
    · rfl
  | readDone k err =>
    simp only [step_readDone, onReadDone]
    split
    · apply hzero
      rfl
    · next p hp =>
      cases err with
      | some e =>
        have h := cursorCallback_reads cfg p.cb (some e) []
          { s with pendingReads := s.pendingReads.eraseIdx k }
        exact ⟨h.2.1, fun hbp => by rw [(h.2.2 hbp).1]; exact Nat.zero_le _⟩
      | none =>
        simp only []
        exact ⟨(cursorCallback_reads cfg _ _ _ _).2.1,
          fun hbp => by rw [((cursorCallback_reads cfg _ _ _ _).2.2 hbp).1]; exact Nat.zero_le _⟩
  | queryDone k res =>
    apply hzero
    simp only [step, onQueryDone]
    split
    · rfl
    · split
      · exact (handleError_quiet _ _ _).2.2.2.1
      · simp only [reads_append, (handleDone_counts _ _ _).1, (finishEffects_counts _ _).1, reads]
  | statusTimer =>
    apply hzero
    simp only [step]
    split <;> rfl
  | databases n =>
    apply hzero
    simp only [step, onDatabases]
    split <;> rfl
  | poolCount n =>
    apply hzero
    rfl

theorem ticks_cons (ev : Event) (evs : List Event) : ticks (ev :: evs) = ticks [ev] + ticks evs := by
  cases ev <;> simp [ticks]

theorem run_reads_bound (cfg : Config) (hbp : cfg.enableBackPressure = true) (s : State)
    (tr : List Event) : reads (run cfg s tr).2 ≤ opens (run cfg s tr).2 + ticks tr := by
  induction tr generalizing s with
  | nil => simp [run, reads]
  | cons ev evs ih =>
    have h1 := (step_reads cfg s ev).2 hbp
    have h2 := ih (step cfg s ev).1
    simp only [run, reads_append, opens_append]
    rw [ticks_cons]
    omega

theorem callGetNextRows_sent (cfg : Config) (s : State) (r : State × List Effect)
    (h : callGetNextRows cfg s = some r) : sent r.2 = [] := by
  unfold callGetNextRows at h
  cases hg : s.getNextRows with
  | none => simp [hg] at h
  | some pull =>
    cases pull with
    | split j =>
      simp only [hg] at h
      split at h
      · split at h
        · simp at h
        · simp only [Option.some.injEq] at h
          subst h
          rfl
      · simp only [Option.some.injEq] at h
        subst h
        rfl
    | single j =>
      simp only [hg] at h
      split at h
      · simp only [Option.some.injEq] at h
        subst h
        rfl
      · simp only [Option.some.injEq] at h
        subst h
        exact (handleError_quiet j (some typeError) s).2.2.2.2

/-! ## One streaming invocation followed through a run -/

theorem rowsPerRead_eq (x : Setup) (hx : x.Valid) : rowsPerRead x.cfg = x.b := by
  unfold rowsPerRead
  rw [hx.rowsPerMsg]
  have := hx.positive
  simp only
  split
  · omega
  · rfl

theorem isComplete_eq (x : Setup) (hx : x.Valid) (rows : List Row) :
    isComplete x.cfg rows = decide (rows.length < x.b) := by
  unfold isComplete
  rw [hx.rowsPerMsg]

theorem getInv_of_getElem (s : State) (i : Nat) (v : Invocation) (h : s.invs[i]? = some v) :
    getInv i s = v := by
  simp [getInv, h]

theorem callGetNextRows_split (cfg : Config) (s : State) (i c : Nat)
    (hg : s.getNextRows = some (Pull.split i)) (hc : s.cursor = some c) :
    callGetNextRows cfg s =
      some (if s.downstreamReady = true then
        ({ s with pendingReads := s.pendingReads ++ [⟨c, rowsPerRead cfg, i⟩] },
          [Effect.cursorRead c (rowsPerRead cfg) i])
        else (s, [])) := by
  unfold callGetNextRows
  simp only [hg, hc]
  split <;> rfl

theorem running_pull (x : Setup) (hx : x.Valid) (q : String) (j : Nat) (s : State)
    (effs : List Effect) (h : Running x q j s effs) :
    ∃ r4, callGetNextRows x.cfg s = some r4 ∧ Running x q j r4.1 (effs ++ r4.2) ∧
      (s.downstreamReady = true → r4.1.pendingReads ≠ []) := by
  rw [callGetNextRows_split x.cfg s x.i x.c h.getNextRows h.cursor]
  refine ⟨_, rfl, ?_, ?_⟩
  · cases hr : s.downstreamReady with
    | false =>
      simp only [Bool.false_eq_true, if_false, List.append_nil]
      exact h
    | true =>
      simp only [if_true]
      exact {
        pendingConnects := h.pendingConnects
        pendingReads := by
          intro p hp
          simp only [List.mem_append, List.mem_singleton] at hp
          rcases hp with hp | hp
          · exact h.pendingReads p hp
          · rw [hp, rowsPerRead_eq x hx]
        pendingQueries := h.pendingQueries
        getNextRows := h.getNextRows
        cursor := h.cursor
        cursorObj := h.cursorObj
        inv := h.inv
        nbQueue := h.nbQueue
        progress := h.progress
        sent := by rw [sent_append, h.sent]; simp [sent]
        doneCalls := by rw [doneCalls_append, h.doneCalls]; simp [doneCalls]
        releases := by rw [releases_append, h.releases]; simp [releases]
        opens := by rw [opens_append, h.opens]; simp [opens] }
  · intro hr
    simp [hr]

theorem Running.transfer {x : Setup} {q : String} {j : Nat} {s : State} {effs : List Effect}
    (h : Running x q j s effs) (s2 : State)
    (h1 : s2.pendingConnects = s.pendingConnects) (h2 : s2.pendingReads = s.pendingReads)
    (h3 : s2.pendingQueries = s.pendingQueries) (h4 : s2.getNextRows = s.getNextRows)
    (h5 : s2.cursor = s.cursor) (h6 : s2.cursors = s.cursors) (h7 : s2.invs = s.invs)
    (h8 : s2.nbQueue = s.nbQueue) : Running x q j s2 effs :=
  { pendingConnects := by rw [h1]; exact h.pendingConnects
    pendingReads := by rw [h2]; exact h.pendingReads
    pendingQueries := by rw [h3]; exact h.pendingQueries
    getNextRows := by rw [h4]; exact h.getNextRows
    cursor := by rw [h5]; exact h.cursor
    cursorObj := by rw [h6]; exact h.cursorObj
    inv := by rw [h7]; exact h.inv
    nbQueue := by rw [h8]; exact h.nbQueue
    progress := h.progress
    sent := h.sent
    doneCalls := h.doneCalls
    releases := h.releases
    opens := h.opens }

theorem running_tick (x : Setup) (hx : x.Valid) (q : String) (j : Nat) (s : State)
    (effs : List Effect) (h : Running x q j s effs) (msg : Msg) (hd : Bool) (rnd : Nat)
    (ht : msg.tick = true) :
    Running x q j (step x.cfg s (Event.input msg hd rnd)).1
      (effs ++ (step x.cfg s (Event.input msg hd rnd)).2) ∧
    (step x.cfg s (Event.input msg hd rnd)).1.pendingReads ≠ [] := by
  rw [step_input, onInput_tick x.cfg msg hd rnd s ht, h.getNextRows]
  have h2 : Running x q j (readied x.cfg s) effs :=
    h.transfer (readied x.cfg s) (by simp [readied]) (by simp [readied]) (by simp [readied])
      (by simp [readied]) (by simp [readied]) (by simp [readied]) (by simp [readied])
      (by simp [readied])
  obtain ⟨r4, hcall, hrun, hne⟩ := running_pull x hx q j (readied x.cfg s) effs h2
  simp only [hcall]
  exact ⟨hrun, hne rfl⟩

theorem running_passive (x : Setup) (q : String) (j : Nat) (s : State)
    (effs : List Effect) (h : Running x q j s effs) (ev : Event)
    (hev : ev = Event.statusTimer ∨ (∃ n, ev = Event.databases n) ∨
      (∃ n, ev = Event.poolCount n) ∨ (∃ i rows, ev = Event.connected i rows)) :
    Running x q j (step x.cfg s ev).1 (effs ++ (step x.cfg s ev).2) ∧
    (step x.cfg s ev).1.pendingReads = s.pendingReads := by
  have hsame : ∀ (r : State × List Effect), r.1.pendingConnects = s.pendingConnects →
      r.1.pendingReads = s.pendingReads → r.1.pendingQueries = s.pendingQueries →
      r.1.getNextRows = s.getNextRows → r.1.cursor = s.cursor → r.1.cursors = s.cursors →
      r.1.invs = s.invs → r.1.nbQueue = s.nbQueue →
      sent r.2 = [] → (doneCalls x.i r.2 = []) → releases x.i r.2 = 0 → opens r.2 = 0 →
      Running x q j r.1 (effs ++ r.2) ∧ r.1.pendingReads = s.pendingReads := by
    intro r h1 h2 h3 h4 h5 h6 h7 h8 h9 h10 h11 h12
    have h0 := h.transfer r.1 h1 h2 h3 h4 h5 h6 h7 h8
    exact ⟨{ h0 with
      sent := by rw [sent_append, h9, List.append_nil]; exact h.sent
      doneCalls := by rw [doneCalls_append, h10, List.append_nil]; exact h.doneCalls
      releases := by rw [releases_append, h11, Nat.add_zero]; exact h.releases
      opens := by rw [opens_append, h12, Nat.add_zero]; exact h.opens }, h2⟩
  rcases hev with rfl | ⟨n, rfl⟩ | ⟨n, rfl⟩ | ⟨i, rows, rfl⟩
  · have h0 : step x.cfg s Event.statusTimer =
        if s.statusTimer = true then statusTimerCallback s else (s, []) := rfl
    rw [h0]
    split
    · exact hsame (statusTimerCallback s) rfl rfl rfl rfl rfl rfl rfl rfl rfl rfl rfl rfl
    · exact hsame (s, []) rfl rfl rfl rfl rfl rfl rfl rfl rfl rfl rfl rfl
  · have h0 : step x.cfg s (Event.databases n) = onDatabases n s := rfl
    rw [h0]
    unfold onDatabases
    split
    · exact hsame (updateStatus 0 false { s with pgPool := { connect := true, totalCount := 0 } },
        []) rfl rfl rfl rfl rfl rfl rfl (by simp [updateStatus]) rfl rfl rfl rfl
    · exact hsame (s, _) rfl rfl rfl rfl rfl rfl rfl rfl rfl rfl rfl rfl
  · exact hsame ({ s with pgPool := { s.pgPool with totalCount := n } }, [])
      rfl rfl rfl rfl rfl rfl rfl rfl rfl rfl rfl rfl
  · have hn : i ∉ s.pendingConnects := by rw [h.pendingConnects]; simp
    rw [step_connected]
    unfold onConnected
    rw [if_neg hn]
    exact hsame (s, []) rfl rfl rfl rfl rfl rfl rfl rfl rfl rfl rfl rfl

theorem running_answer (x : Setup) (q : String) (j : Nat) (s : State) (effs : List Effect)
    (h : Running x q j s effs) (k : Nat) (p : PendingRead) (hp : s.pendingReads[k]? = some p) :
    p = ⟨x.c, x.b, x.i⟩ ∧ answer s p = (x.R.drop (j * x.b)).take x.b ∧
    getInv x.i (advance k p s) = runningRecord x q j ∧
    step x.cfg s (Event.readDone k none) =
      cursorCallback x.cfg x.i none ((x.R.drop (j * x.b)).take x.b)
        (advance k ⟨x.c, x.b, x.i⟩ s) := by
  have hp1 : p = ⟨x.c, x.b, x.i⟩ := h.pendingReads p (List.getElem?_mem hp)
  subst hp1
  have ha : answer s ⟨x.c, x.b, x.i⟩ = (x.R.drop (j * x.b)).take x.b := by
    simp [answer, h.cursorObj]
  refine ⟨rfl, ha, getInv_of_getElem _ _ _ h.inv, ?_⟩
  simp only [step_readDone, onReadDone, hp, ha]

theorem length_chunk (R : List Row) (j b : Nat) :
    ((R.drop (j * b)).take b).length = min b (R.length - j * b) := by
  simp [List.length_take, List.length_drop]

theorem running_more (x : Setup) (hx : x.Valid) (q : String) (j : Nat) (s : State)
    (effs : List Effect) (h : Running x q j s effs) (k : Nat) (p : PendingRead)
    (hp : s.pendingReads[k]? = some p) (hmore : (j + 1) * x.b ≤ x.R.length) :
    Running x q (j + 1) (step x.cfg s (Event.readDone k none)).1
      (effs ++ (step x.cfg s (Event.readDone k none)).2) ∧
    (x.cfg.enableBackPressure = false →
      (step x.cfg s (Event.readDone k none)).1.pendingReads ≠ []) := by
  obtain ⟨hp1, ha, hinv, hstep⟩ := running_answer x q j s effs h k p hp
  subst hp1
  have hlen := length_chunk x.R j x.b
  have hc : isComplete x.cfg ((x.R.drop (j * x.b)).take x.b) = false := by
    rw [isComplete_eq x hx, hlen]
    have : (j + 1) * x.b = j * x.b + x.b := Nat.succ_mul j x.b
    simp only [decide_eq_false_iff_not, Nat.not_lt]
    omega
  rw [hstep, cursorCallback_more x.cfg x.i _ _ hc, hinv]
  have hilt : x.i < s.invs.length := by
    have := h.inv
    exact (List.getElem?_eq_some_iff.mp this).1
  have hclt : x.c < s.cursors.length := (List.getElem?_eq_some_iff.mp h.cursorObj).1
  have h3 : Running x q (j + 1) (afterBatch x.cfg x.i (advance k ⟨x.c, x.b, x.i⟩ s))
      (effs ++ [Effect.send x.i
        (if (runningRecord x q j).msg.complete = true then Port.second else Port.first)
        (batchMsg x.cfg (runningRecord x q j).msg (runningRecord x q j).partsId
          (runningRecord x q j).partsIndex ((x.R.drop (j * x.b)).take x.b) false)]) :=
    { pendingConnects := h.pendingConnects
      pendingReads := by
        intro p2 hp2
        exact h.pendingReads p2 ((List.eraseIdx_sublist _ _).subset hp2)
      pendingQueries := h.pendingQueries
      getNextRows := h.getNextRows
      cursor := h.cursor
      cursorObj := by
        simp only [afterBatch, advance, h.cursorObj, Option.getD_some,
          List.getElem?_set_self hclt, List.drop_drop]
        rw [Nat.succ_mul]
      inv := by
        have hilt2 : x.i < (advance k ⟨x.c, x.b, x.i⟩ s).invs.length := hilt
        simp only [afterBatch, hinv, List.getElem?_set_self hilt2]
        rfl
      nbQueue := h.nbQueue
      progress := hmore
      sent := by
        rw [sent_append, h.sent, List.range_succ, List.map_append]
        simp only [sent, List.map_cons, List.map_nil, batchAt, hc]
        rfl
      doneCalls := by rw [doneCalls_append, h.doneCalls]; simp [doneCalls]
      releases := by rw [releases_append, h.releases]; simp [releases]
      opens := by rw [opens_append, h.opens]; simp [opens] }
  obtain ⟨r4, hcall, hrun, hne⟩ := running_pull x hx q (j + 1) _ _ h3
  simp only [hcall]
  refine ⟨?_, fun hbp => hne (by simp [afterBatch, hbp])⟩
  have happ : ∀ (e : Effect) (l : List Effect), effs ++ e :: l = (effs ++ [e]) ++ l := by
    intro e l; simp
  rw [happ]
  exact hrun

theorem running_last (x : Setup) (hx : x.Valid) (q : String) (j : Nat) (s : State)
    (effs : List Effect) (h : Running x q j s effs) (k : Nat) (p : PendingRead)
    (hp : s.pendingReads[k]? = some p) (hlast : x.R.length < (j + 1) * x.b) :
    Finished x (step x.cfg s (Event.readDone k none)).1
      (effs ++ (step x.cfg s (Event.readDone k none)).2) := by
  obtain ⟨hp1, ha, hinv, hstep⟩ := running_answer x q j s effs h k p hp
  subst hp1
  have hlen := length_chunk x.R j x.b
  have hsucc : (j + 1) * x.b = j * x.b + x.b := Nat.succ_mul j x.b
  have hc : isComplete x.cfg ((x.R.drop (j * x.b)).take x.b) = true := by
    rw [isComplete_eq x hx, hlen]
    have := h.progress
    simp only [decide_eq_true_eq]
    omega
  have hj : x.R.length / x.b = j := Nat.div_eq_of_lt_le h.progress hlast
  have hilt : x.i < (advance k ⟨x.c, x.b, x.i⟩ s).invs.length :=
    (List.getElem?_eq_some_iff.mp h.inv).1
  have hcur : (advance k ⟨x.c, x.b, x.i⟩ s).cursor = some x.c := h.cursor
  have hce : closeEffects (advance k ⟨x.c, x.b, x.i⟩ s) = [Effect.cursorClose x.c] := by
    simp only [closeEffects, hcur]
  have hcl : (runningRecord x q j).client = true := rfl
  have hhd : (runningRecord x q j).hasDone = true := hx.hasDone
  rw [hstep, cursorCallback_complete x.cfg x.i _ _ hc, hinv, hce]
  simp only [hcl, hhd, if_true]
  have hT : ∀ o : Option NodeId,
      sent (match o with
        | some u => [Effect.tickUpstream u]
        | none => []) = [] ∧
      doneCalls x.i (match o with
        | some u => [Effect.tickUpstream u]
        | none => []) = [] ∧
      releases x.i (match o with
        | some u => [Effect.tickUpstream u]
        | none => []) = 0 ∧
      opens (match o with
        | some u => [Effect.tickUpstream u]
        | none => []) = 0 := by
    intro o
    cases o <;> simp [sent, doneCalls, releases, opens]
  generalize (advance k ⟨x.c, x.b, x.i⟩ s).tickUpstreamNode = o
  have hT := hT o
  generalize (match o with
    | some u => [Effect.tickUpstream u]
    | none => []) = T at hT ⊢
  exact {
    pendingConnects := h.pendingConnects
    pendingReads := by
      simp only [pendingAfterClose, hcur, List.filter_eq_nil_iff]
      intro p2 hp2
      have := h.pendingReads p2 (List.mem_of_mem_eraseIdx hp2)
      simp [this]
    pendingQueries := h.pendingQueries
    getNextRows := rfl
    cursor := rfl
    client := by
      simp only [getInv, List.getElem?_set_self hilt]
      rfl
    nbQueue := by
      show s.nbQueue + -1 = x.n0
      rw [h.nbQueue]
      omega
    sent := by
      have hs : ∀ m : Msg, sent ([Effect.cursorClose x.c] ++ [Effect.release x.i false] ++
          [Effect.send x.i Port.second m] ++ T ++ [Effect.done x.i none]) = [m] := by
        intro m
        rw [sent_append, sent_append, sent_append, sent_append, hT.1]
        rfl
      rw [sent_append, h.sent, hs, hj, List.range_succ, List.map_append]
      simp only [List.map_cons, List.map_nil, batchAt, hc]
      rfl
    doneCalls := by
      simp [doneCalls_append, h.doneCalls, hT.2.1, doneCalls]
    releases := by
      simp [releases_append, h.releases, hT.2.2.1, releases]
    opens := by
      simp [opens_append, h.opens, hT.2.2.2, opens] }

theorem resolveParams_congr (cfg : Config) (v w : Invocation) (hm : w.msg = v.msg)
    (hq : w.query = v.query) : resolveParams cfg w = resolveParams cfg v := by
  unfold resolveParams
  rw [hm, hq]

theorem connecting_connected (x : Setup) (hx : x.Valid) (s : State) (effs : List Effect)
    (h : Connecting x s effs) :
    (∃ q, resolveParams x.cfg x.v0 = Except.ok q ∧
      Running x q 0 (step x.cfg s (Event.connected x.i x.R)).1
        (effs ++ (step x.cfg s (Event.connected x.i x.R)).2) ∧
      (s.downstreamReady = true →
        (step x.cfg s (Event.connected x.i x.R)).1.pendingReads ≠ [])) ∨
    ((∃ e, resolveParams x.cfg x.v0 = Except.error e) ∧
      Aborted x (step x.cfg s (Event.connected x.i x.R)).1
        (effs ++ (step x.cfg s (Event.connected x.i x.R)).2)) := by
  have hilt : x.i < s.invs.length := (List.getElem?_eq_some_iff.mp h.inv).1
  have hmem : x.i ∈ s.pendingConnects := by rw [h.pendingConnects]; simp
  have hacq : getInv x.i (acquire x.i s) = { x.v0 with client := true } := by
    simp only [acquire, modifyInv, getInv, List.getElem?_set_self hilt, h.inv, Option.getD_some]
  have hres : resolveParams x.cfg (getInv x.i (acquire x.i s)) = resolveParams x.cfg x.v0 := by
    rw [hacq]
    exact resolveParams_congr x.cfg x.v0 _ rfl rfl
  have hpc : (acquire x.i s).pendingConnects = [] := by
    simp [acquire, modifyInv, h.pendingConnects]
  rw [step_connected]
  unfold onConnected
  rw [if_pos hmem, hres]
  cases hr : resolveParams x.cfg x.v0 with
  | error e =>
    right
    refine ⟨⟨e, rfl⟩, ?_⟩
    simp only []
    rw [handleError_eq, hacq]
    have hcur : (acquire x.i s).cursor = none := h.cursor
    have hce : closeEffects (acquire x.i s) = [] := by simp only [closeEffects, hcur]
    have hil2 : x.i < (acquire x.i s).invs.length := by
      simp only [acquire, modifyInv, List.length_set]
      exact hilt
    rw [hce]
    simp only [if_true, errorEffects, hx.hasDone]
    exact {
      pendingConnects := hpc
      pendingReads := by
        simp only [pendingAfterClose, hcur]
        exact h.pendingReads
      pendingQueries := h.pendingQueries
      getNextRows := rfl
      cursor := rfl
      client := by
        simp only [getInv, List.getElem?_set_self hil2]
        rfl
      nbQueue := by
        show s.nbQueue + -1 = x.n0
        rw [h.nbQueue]
        omega
      sent := by simp [sent_append, h.sent, sent]
      doneCalls := ⟨e, by simp [doneCalls_append, h.doneCalls, doneCalls]⟩
      releases := by simp [releases_append, h.releases, releases]
      opens := by simp [opens_append, h.opens, opens] }
  | ok q =>
    left
    refine ⟨q, rfl, ?_⟩
    simp only [hx.split, if_true]
    have h0 : Running x q 0 (openCursor x.i x.R q (acquire x.i s))
        (effs ++ [Effect.cursorOpen x.i s.cursors.length]) :=
      { pendingConnects := hpc
        pendingReads := by
          intro p hp
          have : (openCursor x.i x.R q (acquire x.i s)).pendingReads = [] := h.pendingReads
          rw [this] at hp
          cases hp
        pendingQueries := h.pendingQueries
        getNextRows := rfl
        cursor := by
          show some (acquire x.i s).cursors.length = some x.c
          exact congrArg some h.cursors
        cursorObj := by
          show ((acquire x.i s).cursors ++ [_])[x.c]? = _
          have : (acquire x.i s).cursors.length = x.c := h.cursors
          rw [← this]
          simp
        inv := by
          have hil2 : x.i < (acquire x.i s).invs.length := by
            simp only [acquire, modifyInv, List.length_set]
            exact hilt
          simp only [openCursor, modifyInv, hacq, List.getElem?_set_self hil2]
          rfl
        nbQueue := h.nbQueue
        progress := by simp
        sent := by simp [sent_append, h.sent, sent]
        doneCalls := by simp [doneCalls_append, h.doneCalls, doneCalls]
        releases := by simp [releases_append, h.releases, releases]
        opens := by simp [opens_append, h.opens, opens] }
    obtain ⟨r5, hcall, hrun, hne⟩ := running_pull x hx q 0 _ _ h0
    simp only [hcall]
    have happ : ∀ (e : Effect) (l : List Effect), effs ++ e :: l = (effs ++ [e]) ++ l := by
      intro e l; simp
    rw [happ]
    exact ⟨hrun, fun hready => hne hready⟩

theorem idleFrame_refl (s : State) (hg : s.getNextRows = none) : IdleFrame s s [] :=
  { getNextRows := hg, cursor := rfl, invs := rfl, cursors := rfl, nbQueue := rfl
    pendingConnects := rfl, pendingReads := rfl, pendingQueries := rfl
    reads := rfl, opens := rfl, connects := rfl, sent := rfl
    doneCalls := fun _ => rfl, releases := fun _ => rfl }

/-- While nothing is held by `getNextRows` and no read and no connect of the invocation
is outstanding, an event that is neither a query message nor a failure changes none of
the variables the invocation depends on. -/
theorem stopped_step (cfg : Config) (i : Nat) (R : List Row) (s : State) (ev : Event)
    (hev : quietFor i R ev = true) (hg : s.getNextRows = none)
    (hpc : s.pendingConnects = []) (hpr : s.pendingReads = []) :
    IdleFrame s (step cfg s ev).1 (step cfg s ev).2 := by
  cases ev with
  | input msg hd rnd => exact idle_step cfg s _ hev hg
  | statusTimer => exact idle_step cfg s _ rfl hg
  | databases n => exact idle_step cfg s _ rfl hg
  | poolCount n => exact idle_step cfg s _ rfl hg
  | connected j rows =>
    have hn : j ∉ s.pendingConnects := by rw [hpc]; simp
    rw [step_connected]
    unfold onConnected
    rw [if_neg hn]
    exact idleFrame_refl s hg
  | readDone k err =>
    rw [step_readDone]
    unfold onReadDone
    rw [hpr]
    exact idleFrame_refl s hg
  | connectFailed j err => simp [quietFor] at hev
  | queryDone k res => simp [quietFor] at hev

theorem connecting_frame (x : Setup) (s r : State) (effs e : List Effect)
    (h : Connecting x s effs) (f : IdleFrame s r e) : Connecting x r (effs ++ e) :=
  { pendingConnects := by rw [f.pendingConnects]; exact h.pendingConnects
    pendingReads := by rw [f.pendingReads]; exact h.pendingReads
    pendingQueries := by rw [f.pendingQueries]; exact h.pendingQueries
    getNextRows := f.getNextRows
    cursor := by rw [f.cursor]; exact h.cursor
    cursors := by rw [f.cursors]; exact h.cursors
    inv := by rw [f.invs]; exact h.inv
    nbQueue := by rw [f.nbQueue]; exact h.nbQueue
    sent := by rw [sent_append, f.sent, List.append_nil]; exact h.sent
    doneCalls := by rw [doneCalls_append, f.doneCalls, List.append_nil]; exact h.doneCalls
    releases := by rw [releases_append, f.releases, Nat.add_zero]; exact h.releases
    opens := by rw [opens_append, f.opens, Nat.add_zero]; exact h.opens }

theorem finished_frame (x : Setup) (s r : State) (effs e : List Effect)
    (h : Finished x s effs) (f : IdleFrame s r e) : Finished x r (effs ++ e) :=
  { pendingConnects := by rw [f.pendingConnects]; exact h.pendingConnects
    pendingReads := by rw [f.pendingReads]; exact h.pendingReads
    pendingQueries := by rw [f.pendingQueries]; exact h.pendingQueries
    getNextRows := f.getNextRows
    cursor := by rw [f.cursor]; exact h.cursor
    client := by unfold getInv; rw [f.invs]; exact h.client
    nbQueue := by rw [f.nbQueue]; exact h.nbQueue
    sent := by rw [sent_append, f.sent, List.append_nil]; exact h.sent
    doneCalls := by rw [doneCalls_append, f.doneCalls, List.append_nil]; exact h.doneCalls
    releases := by rw [releases_append, f.releases, Nat.add_zero]; exact h.releases
    opens := by rw [opens_append, f.opens, Nat.add_zero]; exact h.opens }

theorem aborted_frame (x : Setup) (s r : State) (effs e : List Effect)
    (h : Aborted x s effs) (f : IdleFrame s r e) : Aborted x r (effs ++ e) :=
  { pendingConnects := by rw [f.pendingConnects]; exact h.pendingConnects
    pendingReads := by rw [f.pendingReads]; exact h.pendingReads
    pendingQueries := by rw [f.pendingQueries]; exact h.pendingQueries
    getNextRows := f.getNextRows
    cursor := by rw [f.cursor]; exact h.cursor
    client := by unfold getInv; rw [f.invs]; exact h.client
    nbQueue := by rw [f.nbQueue]; exact h.nbQueue
    sent := by rw [sent_append, f.sent, List.append_nil]; exact h.sent
    doneCalls := by
      obtain ⟨err, hd⟩ := h.doneCalls
      exact ⟨err, by rw [doneCalls_append, f.doneCalls, List.append_nil]; exact hd⟩
    releases := by rw [releases_append, f.releases, Nat.add_zero]; exact h.releases
    opens := by rw [opens_append, f.opens, Nat.add_zero]; exact h.opens }

/-- One event of the run keeps the invocation in one of its phases. -/
theorem phase_step (x : Setup) (hx : x.Valid) (s : State) (effs : List Effect) (ev : Event)
    (h : Phase x s effs) (hev : quietFor x.i x.R ev = true) :
    Phase x (step x.cfg s ev).1 (effs ++ (step x.cfg s ev).2) := by
  rcases h with hc | ⟨q, j, hr⟩ | hf | ha
  · -- connecting
    by_cases hconn : ev = Event.connected x.i x.R
    · subst hconn
      rcases connecting_connected x hx s effs hc with ⟨q, _, hrun, _⟩ | ⟨_, hab⟩
      · exact Or.inr (Or.inl ⟨q, 0, hrun⟩)
      · exact Or.inr (Or.inr (Or.inr hab))
    · have hframe : IdleFrame s (step x.cfg s ev).1 (step x.cfg s ev).2 := by
        cases ev with
        | input msg hd rnd => exact idle_step x.cfg s _ hev hc.getNextRows
        | statusTimer => exact idle_step x.cfg s _ rfl hc.getNextRows
        | databases n => exact idle_step x.cfg s _ rfl hc.getNextRows
        | poolCount n => exact idle_step x.cfg s _ rfl hc.getNextRows
        | connected j rows =>
          have hji : j ≠ x.i := by
            intro hji
            subst hji
            have : rows = x.R := by simpa [quietFor] using hev
            subst this
            exact hconn rfl
          have hn : j ∉ s.pendingConnects := by rw [hc.pendingConnects]; simpa using hji
          rw [step_connected]
          unfold onConnected
          rw [if_neg hn]
          exact idleFrame_refl s hc.getNextRows
        | readDone k err =>
          rw [step_readDone]
          unfold onReadDone
          rw [hc.pendingReads]
          exact idleFrame_refl s hc.getNextRows
        | connectFailed j err => simp [quietFor] at hev
        | queryDone k res => simp [quietFor] at hev
      exact Or.inl (connecting_frame x s _ effs _ hc hframe)
  · -- running
    have hrun : ∀ (q2 : String) (j2 : Nat) (r : State) (e : List Effect),
        Running x q2 j2 r e → Phase x r e := fun q2 j2 r e h2 => Or.inr (Or.inl ⟨q2, j2, h2⟩)
    cases ev with
    | input msg hd rnd =>
      exact hrun q j _ _ (running_tick x hx q j s effs hr msg hd rnd hev).1
    | statusTimer => exact hrun q j _ _ (running_passive x q j s effs hr _ (Or.inl rfl)).1
    | databases n =>
      exact hrun q j _ _ (running_passive x q j s effs hr _ (Or.inr (Or.inl ⟨n, rfl⟩))).1
    | poolCount n =>
      exact hrun q j _ _
        (running_passive x q j s effs hr _ (Or.inr (Or.inr (Or.inl ⟨n, rfl⟩)))).1
    | connected i rows =>
      exact hrun q j _ _
        (running_passive x q j s effs hr _ (Or.inr (Or.inr (Or.inr ⟨i, rows, rfl⟩)))).1
    | readDone k err =>
      cases err with
      | some e => simp [quietFor] at hev
      | none =>
        cases hp : s.pendingReads[k]? with
        | none =>
          have h0 : step x.cfg s (Event.readDone k none) = (s, []) := by
            simp only [step_readDone, onReadDone, hp]
          rw [h0, List.append_nil]
          exact hrun q j _ _ hr
        | some p =>
          by_cases hmore : (j + 1) * x.b ≤ x.R.length
          · exact hrun q (j + 1) _ _ (running_more x hx q j s effs hr k p hp hmore).1
          · exact Or.inr (Or.inr (Or.inl
              (running_last x hx q j s effs hr k p hp (Nat.lt_of_not_le hmore))))
    | connectFailed j err => simp [quietFor] at hev
    | queryDone k res => simp [quietFor] at hev
  · exact Or.inr (Or.inr (Or.inl (finished_frame x s _ effs _ hf
      (stopped_step x.cfg x.i x.R s ev hev hf.getNextRows hf.pendingConnects hf.pendingReads))))
  · exact Or.inr (Or.inr (Or.inr (aborted_frame x s _ effs _ ha
      (stopped_step x.cfg x.i x.R s ev hev ha.getNextRows ha.pendingConnects ha.pendingReads))))

theorem phase_run (x : Setup) (hx : x.Valid) (evs : List Event) (s : State)
    (effs : List Effect) (h : Phase x s effs) (hev : ∀ ev ∈ evs, quietFor x.i x.R ev = true) :
    Phase x (run x.cfg s evs).1 (effs ++ (run x.cfg s evs).2) := by
  induction evs generalizing s effs with
  | nil => simpa [run] using h
  | cons ev evs ih =>
    have h1 := phase_step x hx s effs ev h (hev ev (List.mem_cons_self _ _))
    have h2 := ih (step x.cfg s ev).1 (effs ++ (step x.cfg s ev).2) h1
      (fun e he => hev e (List.mem_cons_of_mem _ he))
    simp only [run]
    rw [← List.append_assoc]
    exact h2

theorem setupOf_valid (cfg : Config) (b : Nat) (R : List Row) (msg : Msg) (rnd : Nat)
    (s0 : State) (hsplit : cfg.split = true) (hb : cfg.rowsPerMsg = some b) (hb1 : 1 ≤ b) :
    (setupOf cfg b R msg rnd s0).Valid :=
  { split := hsplit, rowsPerMsg := hb, positive := hb1, hasDone := rfl, client := rfl }

theorem length_cursorsAfterClose (s : State) :
    (cursorsAfterClose s).length = s.cursors.length := by
  unfold cursorsAfterClose
  cases s.cursor <;> simp

theorem pendingAfterClose_settled (s : State) (h : Settled s) : pendingAfterClose s = [] := by
  unfold pendingAfterClose
  cases hc : s.cursor with
  | none =>
    simp only
    cases hp : s.pendingReads with
    | nil => rfl
    | cons p ps =>
      have := h.2.2 p (by rw [hp]; exact List.mem_cons_self _ _)
      rw [hc] at this
      cases this
  | some c =>
    simp only [List.filter_eq_nil_iff]
    intro p hp
    have := h.2.2 p hp
    rw [hc] at this
    have hpc : p.cursor = c := (Option.some.inj this).symm
    simp [hpc]

/-- The query message puts the invocation in its connecting phase. -/
theorem start_connecting (cfg : Config) (b : Nat) (R : List Row) (msg : Msg) (rnd : Nat)
    (s0 : State) (hpool : s0.pgPool.connect = true) (htick : msg.tick = false)
    (hs : Settled s0) :
    Connecting (setupOf cfg b R msg rnd s0) (step cfg s0 (Event.input msg true rnd)).1
      (step cfg s0 (Event.input msg true rnd)).2 := by
  rw [step_query cfg msg true rnd s0 htick hpool]
  have hc := closeEffects_counts s0
  exact {
    pendingConnects := by
      show s0.pendingConnects ++ [s0.invs.length] = [s0.invs.length]
      rw [hs.1]
      rfl
    pendingReads := pendingAfterClose_settled s0 hs
    pendingQueries := by
      show (discover cfg s0).pendingQueries = []
      rw [discover_pendingQueries]
      exact hs.2.1
    getNextRows := rfl
    cursor := rfl
    cursors := length_cursorsAfterClose s0
    inv := by
      show (s0.invs ++ [newInvocation cfg msg true rnd])[s0.invs.length]? = _
      simp [setupOf]
    nbQueue := rfl
    sent := by rw [sent_append, hc.2.2.1]; rfl
    doneCalls := by rw [doneCalls_append, hc.2.2.2.2.1]; rfl
    releases := by rw [releases_append, hc.2.2.2.2.2]; rfl
    opens := by rw [opens_append, hc.2.1]; rfl }

/-- A streaming invocation started in a settled state stays in one of its phases as long
as only ticks, its connect, answers to reads, status timers and pool changes arrive. -/
theorem single_run_phase (cfg : Config) (b : Nat) (R : List Row) (msg : Msg) (rnd : Nat)
    (s0 : State) (rest : List Event) (hsplit : cfg.split = true)
    (hb : cfg.rowsPerMsg = some b) (hb1 : 1 ≤ b) (hpool : s0.pgPool.connect = true)
    (htick : msg.tick = false) (hs : Settled s0)
    (hrest : ∀ ev ∈ rest, quietFor s0.invs.length R ev = true) :
    Phase (setupOf cfg b R msg rnd s0) (run cfg s0 (Event.input msg true rnd :: rest)).1
      (run cfg s0 (Event.input msg true rnd :: rest)).2 := by
  have h0 := start_connecting cfg b R msg rnd s0 hpool htick hs
  have hx := setupOf_valid cfg b R msg rnd s0 hsplit hb hb1
  exact phase_run (setupOf cfg b R msg rnd s0) hx rest _ _ (Or.inl h0) hrest

/-! ## The batches of one invocation -/

theorem batchAt_spec (x : Setup) (hx : x.Valid) (k : Nat) (hk : k ≤ x.R.length / x.b) :
    (batchAt x k).parts = some (Parts.mk x.v0.partsId (some "array") (some k)
      (if k = x.R.length / x.b then some (k + 1) else none) false x.v0.msg.parts) ∧
    (batchAt x k).complete = decide (k = x.R.length / x.b) ∧
    ((x.R.drop (k * x.b)).take x.b).length =
      (if k = x.R.length / x.b then x.R.length % x.b else x.b) ∧
    (batchAt x k).payload =
      (if 1 < x.b then Payload.rows ((x.R.drop (k * x.b)).take x.b)
       else match ((x.R.drop (k * x.b)).take x.b).head? with
        | some r => Payload.row r
        | none => Payload.undefined) := by
  have hb := hx.positive
  have hlen := length_chunk x.R k x.b
  have hdm := Nat.div_add_mod x.R.length x.b
  have hmod := Nat.mod_lt x.R.length hb
  have hkq : k * x.b ≤ (x.R.length / x.b) * x.b := Nat.mul_le_mul_right _ hk
  have hcomm : x.b * (x.R.length / x.b) = (x.R.length / x.b) * x.b := Nat.mul_comm _ _
  by_cases hq : k = x.R.length / x.b
  · have hc : isComplete x.cfg ((x.R.drop (k * x.b)).take x.b) = true := by
      rw [isComplete_eq x hx, hlen, hq]
      simp only [decide_eq_true_eq]
      omega
    refine ⟨?_, ?_, ?_, ?_⟩
    · simp only [batchAt, batchMsg, hc, if_true, if_pos hq]
    · have h1 : (batchAt x k).complete = true := by
        simp only [batchAt, batchMsg, hc, if_true]
      rw [h1]
      simp [hq]
    · rw [hlen, if_pos hq, hq]
      omega
    · simp only [batchAt, batchMsg, rowsPerRead_eq x hx]
  · have hlt : k < x.R.length / x.b := Nat.lt_of_le_of_ne hk hq
    have hsucc : (k + 1) * x.b ≤ (x.R.length / x.b) * x.b := Nat.mul_le_mul_right _ hlt
    have hs2 : (k + 1) * x.b = k * x.b + x.b := Nat.succ_mul k x.b
    have hc : isComplete x.cfg ((x.R.drop (k * x.b)).take x.b) = false := by
      rw [isComplete_eq x hx, hlen]
      simp only [decide_eq_false_iff_not, Nat.not_lt]
      omega
    refine ⟨?_, ?_, ?_, ?_⟩
    · simp only [batchAt, batchMsg, hc, if_neg hq, Bool.false_eq_true, if_false]
    · have h1 : (batchAt x k).complete = false := by
        simp only [batchAt, batchMsg, hc, Bool.false_eq_true, if_false]
      rw [h1]
      simp [hq]
    · rw [hlen, if_neg hq]
      omega
    · simp only [batchAt, batchMsg, rowsPerRead_eq x hx]

theorem doneCalls_finished (x : Setup) (s : State) (effs : List Effect) (h : Phase x s effs)
    (hdone : none ∈ doneCalls x.i effs) : Finished x s effs := by
  rcases h with hc | ⟨q, j, hr⟩ | hf | ha
  · rw [hc.doneCalls] at hdone
    cases hdone
  · rw [hr.doneCalls] at hdone
    cases hdone
  · exact hf
  · obtain ⟨e, he⟩ := ha.doneCalls
    rw [he] at hdone
    simp at hdone

/-- What has been sent at any moment of the run is an initial part of the batches. -/
theorem phase_sent_prefix (x : Setup) (hx : x.Valid) (s : State) (effs : List Effect)
    (h : Phase x s effs) :
    ∃ n, n ≤ x.R.length / x.b + 1 ∧ sent effs = (List.range n).map (batchAt x) := by
  rcases h with hc | ⟨q, j, hr⟩ | hf | ha
  · exact ⟨0, Nat.zero_le _, by rw [hc.sent]; rfl⟩
  · refine ⟨j, ?_, hr.sent⟩
    have h1 := hr.progress
    have : j ≤ x.R.length / x.b := (Nat.le_div_iff_mul_le hx.positive).mpr h1
    omega
  · exact ⟨_, Nat.le_refl _, hf.sent⟩
  · exact ⟨0, Nat.zero_le _, by rw [ha.sent]; rfl⟩

/-! ## Enough ticks bring the invocation to its end -/

theorem quietFor_rounds (i : Nat) (R : List Row) (n : Nat) :
    ∀ ev ∈ rounds n, quietFor i R ev = true := by
  induction n with
  | zero => intro ev hev; cases hev
  | succ n ih =>
    intro ev hev
    simp only [rounds, List.mem_cons] at hev
    rcases hev with rfl | rfl | hev
    · rfl
    · rfl
    · exact ih ev hev

theorem finished_run (x : Setup) (hx : x.Valid) (evs : List Event) (s : State)
    (effs : List Effect) (h : Finished x s effs)
    (hev : ∀ ev ∈ evs, quietFor x.i x.R ev = true) :
    Finished x (run x.cfg s evs).1 (effs ++ (run x.cfg s evs).2) := by
  have hph := phase_run x hx evs s effs (Or.inr (Or.inr (Or.inl h))) hev
  apply doneCalls_finished x _ _ hph
  rw [doneCalls_append, h.doneCalls]
  simp

theorem rounds_finish (x : Setup) (hx : x.Valid) (q : String) (n : Nat) :
    ∀ (j : Nat) (s : State) (effs : List Effect), Running x q j s effs →
      s.pendingReads ≠ [] → x.R.length / x.b + 1 ≤ j + n →
      Finished x (run x.cfg s (rounds n)).1 (effs ++ (run x.cfg s (rounds n)).2) := by
  induction n with
  | zero =>
    intro j s effs h _ hn
    have h1 : j ≤ x.R.length / x.b := (Nat.le_div_iff_mul_le hx.positive).mpr h.progress
    omega
  | succ n ih =>
    intro j s effs h hne hn
    obtain ⟨p, hp⟩ : ∃ p, s.pendingReads[0]? = some p := by
      cases hl : s.pendingReads with
      | nil => exact absurd hl hne
      | cons p ps => exact ⟨p, by simp⟩
    have hrun : run x.cfg s (rounds (n + 1)) =
        ((run x.cfg (step x.cfg (step x.cfg s (Event.readDone 0 none)).1 tickEvent).1
            (rounds n)).1,
          (step x.cfg s (Event.readDone 0 none)).2 ++
            ((step x.cfg (step x.cfg s (Event.readDone 0 none)).1 tickEvent).2 ++
              (run x.cfg (step x.cfg (step x.cfg s (Event.readDone 0 none)).1 tickEvent).1
                (rounds n)).2)) := rfl
    rw [hrun]
    simp only [← List.append_assoc]
    by_cases hmore : (j + 1) * x.b ≤ x.R.length
    · have h1 := (running_more x hx q j s effs h 0 p hp hmore).1
      have h2 := running_tick x hx q (j + 1) _ _ h1 { tick := true } true 0 rfl
      exact ih (j + 1) _ _ h2.1 h2.2 (by omega)
    · have h1 := running_last x hx q j s effs h 0 p hp (Nat.lt_of_not_le hmore)
      have h2 := finished_frame x _ _ _ _ h1
        (stopped_step x.cfg x.i x.R _ tickEvent rfl h1.getNextRows h1.pendingConnects
          h1.pendingReads)
      exact finished_run x hx (rounds n) _ _ h2 (quietFor_rounds x.i x.R n)

/-- A streaming invocation started in a settled state, whose parameters can be bound,
whose connect succeeds at once, and which then receives at least `R / b + 1` rounds of
"read answered, tick", reaches its end: the phase is `Finished`. -/
theorem rounds_complete (cfg : Config) (b : Nat) (R : List Row) (msg : Msg) (rnd : Nat)
    (s0 : State) (n : Nat) (q : String) (hsplit : cfg.split = true)
    (hb : cfg.rowsPerMsg = some b) (hb1 : 1 ≤ b) (hpool : s0.pgPool.connect = true)
    (htick : msg.tick = false) (hs : Settled s0)
    (hq : resolveParams cfg (newInvocation cfg msg true rnd) = Except.ok q)
    (hn : R.length / b + 1 ≤ n) :
    Finished (setupOf cfg b R msg rnd s0)
      (run cfg s0 (Event.input msg true rnd :: Event.connected s0.invs.length R :: rounds n)).1
      (run cfg s0 (Event.input msg true rnd :: Event.connected s0.invs.length R :: rounds n)).2
      := by
  have h0 := start_connecting cfg b R msg rnd s0 hpool htick hs
  have hx := setupOf_valid cfg b R msg rnd s0 hsplit hb hb1
  have hready : (step cfg s0 (Event.input msg true rnd)).1.downstreamReady = true := by
    rw [step_query cfg msg true rnd s0 htick hpool]
  have hrun : run cfg s0 (Event.input msg true rnd :: Event.connected s0.invs.length R ::
        rounds n) =
      ((run cfg (step cfg (step cfg s0 (Event.input msg true rnd)).1
          (Event.connected s0.invs.length R)).1 (rounds n)).1,
        (step cfg s0 (Event.input msg true rnd)).2 ++
          ((step cfg (step cfg s0 (Event.input msg true rnd)).1
              (Event.connected s0.invs.length R)).2 ++
            (run cfg (step cfg (step cfg s0 (Event.input msg true rnd)).1
              (Event.connected s0.invs.length R)).1 (rounds n)).2)) := rfl
  rw [hrun]
  simp only [← List.append_assoc]
  rcases connecting_connected (setupOf cfg b R msg rnd s0) hx _ _ h0 with
    ⟨q2, _, hr, hne⟩ | ⟨⟨e, he⟩, _⟩
  · exact rounds_finish (setupOf cfg b R msg rnd s0) hx q2 n 0 _ _ hr (hne hready)
      (by simpa using hn)
  · have : resolveParams cfg (newInvocation cfg msg true rnd) = Except.error e := he
    rw [hq] at this
    cases this

theorem getElem?_batches (x : Setup) (n j : Nat) (hj : j < n) :
    ((List.range n).map (batchAt x))[j]? = some (batchAt x j) := by
  simp [List.getElem?_map, List.getElem?_range hj]

/-- The messages of a finished invocation, read off its phase. -/
theorem finished_batches (x : Setup) (hx : x.Valid) (s : State) (effs : List Effect)
    (h : Finished x s effs) :
    (sent effs).length = x.R.length / x.b + 1 ∧
    ∀ j, j ≤ x.R.length / x.b → ∃ m, (sent effs)[j]? = some m ∧
      m.parts = some (Parts.mk x.v0.partsId (some "array") (some j)
        (if j = x.R.length / x.b then some (j + 1) else none) false x.v0.msg.parts) ∧
      m.complete = decide (j = x.R.length / x.b) ∧
      m.payload =
        (if 1 < x.b then Payload.rows ((x.R.drop (j * x.b)).take x.b)
         else match ((x.R.drop (j * x.b)).take x.b).head? with
          | some r => Payload.row r
          | none => Payload.undefined) ∧
      ((x.R.drop (j * x.b)).take x.b).length =
        (if j = x.R.length / x.b then x.R.length % x.b else x.b) := by
  rw [h.sent]
  refine ⟨by simp, ?_⟩
  intro j hj
  have hs := batchAt_spec x hx j hj
  exact ⟨batchAt x j, getElem?_batches x _ j (Nat.lt_succ_of_le hj), hs.1, hs.2.1, hs.2.2.2,
    hs.2.2.1⟩

/-- C1: a streaming invocation (`split` set, `rowsPerMsg = b >= 1`) started in a settled
state and followed by ticks, its connect, answers to its reads, status timers and pool
changes only, whose `done()` has been called: the messages sent are `k + 1` batches, batch
`j` carries `parts = { id, type: "array", index: j }` with the id of the invocation, the
last one alone is complete, and it alone carries `count`, which is `k + 1`. -/
theorem streaming_parts_sequence (cfg : Config) (b : Nat) (R : List Row) (msg : Msg)
    (rnd : Nat) (s0 : State) (rest : List Event) (hsplit : cfg.split = true)
    (hb : cfg.rowsPerMsg = some b) (hb1 : 1 ≤ b) (hpool : s0.pgPool.connect = true)
    (htick : msg.tick = false) (hs : Settled s0)
    (hrest : ∀ ev ∈ rest, quietFor s0.invs.length R ev = true)
    (hdone : none ∈ doneCalls s0.invs.length
      (run cfg s0 (Event.input msg true rnd :: rest)).2) :
    ∃ k, (sent (run cfg s0 (Event.input msg true rnd :: rest)).2).length = k + 1 ∧
      ∀ j, j ≤ k → ∃ m,
        (sent (run cfg s0 (Event.input msg true rnd :: rest)).2)[j]? = some m ∧
        m.parts = some (Parts.mk rnd (some "array") (some j)
          (if j = k then some (k + 1) else none) false msg.parts) ∧
        m.complete = decide (j = k) := by
  have hph := single_run_phase cfg b R msg rnd s0 rest hsplit hb hb1 hpool htick hs hrest
  have hx := setupOf_valid cfg b R msg rnd s0 hsplit hb hb1
  have hf := doneCalls_finished _ _ _ hph hdone
  obtain ⟨hlen, hall⟩ := finished_batches _ hx _ _ hf
  refine ⟨R.length / b, hlen, ?_⟩
  intro j hj
  obtain ⟨m, hm, hparts, hcomplete, _, _⟩ := hall j hj
  refine ⟨m, hm, ?_, hcomplete⟩
  rw [hparts]
  show some (Parts.mk rnd (some "array") (some j)
    (if j = R.length / b then some (j + 1) else none) false msg.parts) = _
  by_cases hjk : j = R.length / b
  · rw [if_pos hjk, if_pos hjk, hjk]
  · rw [if_neg hjk, if_neg hjk]

theorem settled_readyState : Settled readyState :=
  ⟨rfl, rfl, fun p hp => by cases hp⟩

/-- C1 at a concrete input: seven rows in batches of three. -/
theorem streaming_parts_sequence_witness :
    ∃ k, (sent (run exampleConfig readyState sevenRowsRun).2).length = k + 1 ∧
      ∀ j, j ≤ k → ∃ m,
        (sent (run exampleConfig readyState sevenRowsRun).2)[j]? = some m ∧
        m.parts = some (Parts.mk 42 (some "array") (some j)
          (if j = k then some (k + 1) else none) false none) ∧
        m.complete = decide (j = k) :=
  streaming_parts_sequence exampleConfig 3 [1, 2, 3, 4, 5, 6, 7] {} 42 readyState
    [Event.connected 0 [1, 2, 3, 4, 5, 6, 7], Event.readDone 0 none, Event.readDone 0 none,
      Event.readDone 0 none]
    rfl rfl (by decide) rfl rfl settled_readyState (by decide) (by decide)

theorem ceil_div_of_remainder (n b : Nat) (hb : 1 ≤ b) (hr : n % b ≠ 0) :
    (n + b - 1) / b = n / b + 1 := by
  have hdm := Nat.div_add_mod n b
  have hmod := Nat.mod_lt n hb
  have hcomm : b * (n / b) = (n / b) * b := Nat.mul_comm _ _
  have h1 : (n / b + 1) * b = (n / b) * b + b := Nat.succ_mul _ _
  have h2 : (n / b + 1 + 1) * b = (n / b + 1) * b + b := Nat.succ_mul _ _
  apply Nat.div_eq_of_lt_le
  · omega
  · omega

/-- C2, amended: a streaming invocation over a cursor holding `R` rows, batch size
`b >= 1`, no error, whose `done()` has been called, has sent `R / b + 1` batches (rounded
down): batch `j` holds rows `j * b` up to `(j + 1) * b`, every batch but the last has `b`
rows, the last has the `R mod b` remaining ones and is the complete one. This is
`ceil(R / b)` when `b` does not divide `R`, and one empty complete batch when `R = 0`.
Such runs exist for every `R` and `b`: when the parameters can be bound, the connect
followed by `R / b + 1` or more rounds of "read answered, tick" ends with `done()`. -/
theorem streaming_batch_count (cfg : Config) (b : Nat) (R : List Row) (msg : Msg)
    (rnd : Nat) (s0 : State) (rest : List Event) (hsplit : cfg.split = true)
    (hb : cfg.rowsPerMsg = some b) (hb1 : 1 ≤ b) (hpool : s0.pgPool.connect = true)
    (htick : msg.tick = false) (hs : Settled s0)
    (hrest : ∀ ev ∈ rest, quietFor s0.invs.length R ev = true)
    (hdone : none ∈ doneCalls s0.invs.length
      (run cfg s0 (Event.input msg true rnd :: rest)).2) :
    (sent (run cfg s0 (Event.input msg true rnd :: rest)).2).length = R.length / b + 1 ∧
    (R.length % b ≠ 0 →
      (sent (run cfg s0 (Event.input msg true rnd :: rest)).2).length =
        (R.length + b - 1) / b) ∧
    (R = [] → (sent (run cfg s0 (Event.input msg true rnd :: rest)).2).length = 1) ∧
    (∀ j, j ≤ R.length / b → ∃ m,
      (sent (run cfg s0 (Event.input msg true rnd :: rest)).2)[j]? = some m ∧
      m.complete = decide (j = R.length / b) ∧
      m.payload =
        (if 1 < b then Payload.rows ((R.drop (j * b)).take b)
         else match ((R.drop (j * b)).take b).head? with
          | some r => Payload.row r
          | none => Payload.undefined) ∧
      ((R.drop (j * b)).take b).length = (if j = R.length / b then R.length % b else b)) ∧
    (∀ n q, resolveParams cfg (newInvocation cfg msg true rnd) = Except.ok q →
      R.length / b + 1 ≤ n →
      doneCalls s0.invs.length (run cfg s0 (Event.input msg true rnd ::
        Event.connected s0.invs.length R :: rounds n)).2 = [none] ∧
      (sent (run cfg s0 (Event.input msg true rnd ::
        Event.connected s0.invs.length R :: rounds n)).2).length = R.length / b + 1) := by
  have hph := single_run_phase cfg b R msg rnd s0 rest hsplit hb hb1 hpool htick hs hrest
  have hx := setupOf_valid cfg b R msg rnd s0 hsplit hb hb1
  have hf := doneCalls_finished _ _ _ hph hdone
  obtain ⟨hlen, hall⟩ := finished_batches _ hx _ _ hf
  have hlen2 : (sent (run cfg s0 (Event.input msg true rnd :: rest)).2).length =
      R.length / b + 1 := hlen
  refine ⟨hlen2, ?_, ?_, ?_, ?_⟩
  rotate_right
  · intro n q hq hn
    have hfin := rounds_complete cfg b R msg rnd s0 n q hsplit hb hb1 hpool htick hs hq hn
    exact ⟨hfin.doneCalls, (finished_batches _ hx _ _ hfin).1⟩
  · intro hr
    rw [hlen2, ceil_div_of_remainder R.length b hb1 hr]
  · intro hR
    rw [hlen2, hR]
    simp
  · intro j hj
    obtain ⟨m, hm, _, hcomplete, hpayload, hrows⟩ := hall j hj
    exact ⟨m, hm, hcomplete, hpayload, hrows⟩

/-- C2 at the input of the scenario: seven rows, batches of three, no back-pressure: three
batches, with the rows 1-3, 4-6 and 7, the third one complete with `count = 3`. -/
theorem streaming_batch_count_witness :
    (sent (run exampleConfig readyState sevenRowsRun).2) =
      [{ payload := Payload.rows [1, 2, 3]
         parts := some (Parts.mk 42 (some "array") (some 0) none false none) },
       { payload := Payload.rows [4, 5, 6]
         parts := some (Parts.mk 42 (some "array") (some 1) none false none) },
       { payload := Payload.rows [7]
         parts := some (Parts.mk 42 (some "array") (some 2) (some 3) false none)
         complete := true }] ∧
    (sent (run exampleConfig readyState sevenRowsRun).2).length = 7 / 3 + 1 ∧
    (sent (run exampleConfig readyState sevenRowsRun).2).length = (7 + 3 - 1) / 3 :=
  have h := streaming_batch_count exampleConfig 3 [1, 2, 3, 4, 5, 6, 7] {} 42 readyState
    [Event.connected 0 [1, 2, 3, 4, 5, 6, 7], Event.readDone 0 none, Event.readDone 0 none,
      Event.readDone 0 none]
    rfl rfl (by decide) rfl rfl settled_readyState (by decide) (by decide)
  ⟨by decide, h.1, h.2.1 (by decide)⟩

/-- C2 as stated fails when `b` divides `R`: six rows in batches of three finish with
three batches (3, 3 and 0 rows), not with `ceil(6 / 3) = 2`. -/
theorem exact_multiple_sends_extra_batch :
    doneCalls 0 (run exampleConfig readyState sixRowsRun).2 = [none] ∧
    (sent (run exampleConfig readyState sixRowsRun).2).map (fun m => m.payload) =
      [Payload.rows [1, 2, 3], Payload.rows [4, 5, 6], Payload.rows []] ∧
    (sent (run exampleConfig readyState sixRowsRun).2).length = 3 ∧
    (6 + 3 - 1) / 3 = 2 ∧
    (sent (run exampleConfig readyState sixRowsRun).2).length ≠ (6 + 3 - 1) / 3 := by
  decide

theorem phase_opens (x : Setup) (s : State) (effs : List Effect) (h : Phase x s effs) :
    opens effs ≤ 1 := by
  rcases h with hc | ⟨q, j, hr⟩ | hf | ha
  · rw [hc.opens]; exact Nat.zero_le _
  · rw [hr.opens]
  · rw [hf.opens]
  · rw [ha.opens]; exact Nat.zero_le _

/-- With strict back-pressure one invocation issues at most one read more than it has
received ticks. -/
theorem single_run_reads_bound (cfg : Config) (b : Nat) (R : List Row) (msg : Msg) (rnd : Nat)
    (s0 : State) (rest : List Event) (hbp : cfg.enableBackPressure = true)
    (hsplit : cfg.split = true) (hb : cfg.rowsPerMsg = some b) (hb1 : 1 ≤ b)
    (hpool : s0.pgPool.connect = true) (htick : msg.tick = false) (hs : Settled s0)
    (hrest : ∀ ev ∈ rest, quietFor s0.invs.length R ev = true) :
    reads (run cfg s0 (Event.input msg true rnd :: rest)).2 ≤ 1 + ticks rest := by
  have hph := single_run_phase cfg b R msg rnd s0 rest hsplit hb hb1 hpool htick hs hrest
  have h1 := phase_opens _ _ _ hph
  have h2 := run_reads_bound cfg hbp s0 (Event.input msg true rnd :: rest)
  have h3 : ticks (Event.input msg true rnd :: rest) = ticks rest := by
    simp [ticks, htick]
  rw [h3] at h2
  omega

/-- C6: a `cursor.read` is issued only in a step that leaves downstream readiness true.
With `enableBackPressure` a batch that is not the last leaves readiness false and is
followed by no read, and over any run the reads issued are at most the cursors opened
plus the ticks received; for one invocation started in a settled state that is at most
one plus the ticks received. Without it such a batch leaves readiness true and the next
read is issued in the same step. In both settings the last batch is followed by
`{ tick: true }` to the upstream node, if there is one, and by `done()`. -/
theorem backpressure_pacing (cfg : Config) (s : State) (k : Nat) (p : PendingRead)
    (hp : s.pendingReads[k]? = some p) :
    (∀ (s1 : State) (ev : Event),
      0 < reads (step cfg s1 ev).2 → (step cfg s1 ev).1.downstreamReady = true) ∧
    (cfg.enableBackPressure = true →
      ∀ (s1 : State) (tr : List Event),
        reads (run cfg s1 tr).2 ≤ opens (run cfg s1 tr).2 + ticks tr) ∧
    (cfg.enableBackPressure = true →
      ∀ (b : Nat) (R : List Row) (msg : Msg) (rnd : Nat) (s0 : State) (rest : List Event),
        cfg.split = true → cfg.rowsPerMsg = some b → 1 ≤ b → s0.pgPool.connect = true →
        msg.tick = false → Settled s0 →
        (∀ ev ∈ rest, quietFor s0.invs.length R ev = true) →
        reads (run cfg s0 (Event.input msg true rnd :: rest)).2 ≤ 1 + ticks rest) ∧
    (cfg.enableBackPressure = true → isComplete cfg (answer s p) = false →
      (step cfg s (Event.readDone k none)).1.downstreamReady = false ∧
      reads (step cfg s (Event.readDone k none)).2 = 0 ∧
      sent (step cfg s (Event.readDone k none)).2 =
        [batchMsg cfg (getInv p.cb s).msg (getInv p.cb s).partsId (getInv p.cb s).partsIndex
          (answer s p) false]) ∧
    (cfg.enableBackPressure = false → isComplete cfg (answer s p) = false →
      ∀ j c, s.getNextRows = some (Pull.split j) → s.cursor = some c →
        (step cfg s (Event.readDone k none)).1.downstreamReady = true ∧
        (step cfg s (Event.readDone k none)).2 =
          [Effect.send p.cb (if (getInv p.cb s).msg.complete = true then Port.second
              else Port.first)
            (batchMsg cfg (getInv p.cb s).msg (getInv p.cb s).partsId
              (getInv p.cb s).partsIndex (answer s p) false),
           Effect.cursorRead c (rowsPerRead cfg) j]) ∧
    (isComplete cfg (answer s p) = true → (getInv p.cb s).hasDone = true →
      (step cfg s (Event.readDone k none)).2 =
        closeEffects s ++
          (if (getInv p.cb s).client = true then [Effect.release p.cb false] else []) ++
          [Effect.send p.cb Port.second
            (batchMsg cfg (getInv p.cb s).msg (getInv p.cb s).partsId
              (getInv p.cb s).partsIndex (answer s p) true)] ++
          (match s.tickUpstreamNode with
            | some u => [Effect.tickUpstream u]
            | none => []) ++
          [Effect.done p.cb none]) := by
  have hstep : step cfg s (Event.readDone k none) =
      cursorCallback cfg p.cb none (answer s p) (advance k p s) := by
    simp only [step_readDone, onReadDone, hp]
  have hinv : getInv p.cb (advance k p s) = getInv p.cb s := rfl
  refine ⟨fun s1 ev => (step_reads cfg s1 ev).1, fun hbp s1 tr => run_reads_bound cfg hbp s1 tr,
    fun hbp b R msg rnd s0 rest hsplit hb hb1 hpool htick hs hrest =>
      single_run_reads_bound cfg b R msg rnd s0 rest hbp hsplit hb hb1 hpool htick hs hrest,
    ?_, ?_, ?_⟩
  · intro hbp hc
    rw [hstep]
    have h := (cursorCallback_reads cfg p.cb none (answer s p) (advance k p s)).2.2 hbp
    refine ⟨h.2, h.1, ?_⟩
    rw [cursorCallback_more cfg p.cb (answer s p) (advance k p s) hc, hinv]
    cases hcall : callGetNextRows cfg (afterBatch cfg p.cb (advance k p s)) with
    | none => rfl
    | some r4 =>
      have h4 := callGetNextRows_sent cfg _ r4 hcall
      show _ :: sent r4.2 = _
      rw [h4]
  · intro hbp hc j c hg hcur
    rw [hstep, cursorCallback_more cfg p.cb (answer s p) (advance k p s) hc, hinv]
    have hcall : callGetNextRows cfg (afterBatch cfg p.cb (advance k p s)) =
        some ({ afterBatch cfg p.cb (advance k p s) with
            pendingReads := (afterBatch cfg p.cb (advance k p s)).pendingReads ++
              [⟨c, rowsPerRead cfg, j⟩] },
          [Effect.cursorRead c (rowsPerRead cfg) j]) := by
      unfold callGetNextRows
      have h1 : (afterBatch cfg p.cb (advance k p s)).getNextRows = some (Pull.split j) := hg
      have h2 : (afterBatch cfg p.cb (advance k p s)).cursor = some c := hcur
      have h3 : (afterBatch cfg p.cb (advance k p s)).downstreamReady = true := by
        simp [afterBatch, hbp]
      simp only [h1, h2, h3, if_true]
    rw [hcall]
    exact ⟨by simp [afterBatch, hbp], rfl⟩
  · intro hc hd
    rw [hstep, cursorCallback_complete cfg p.cb (answer s p) (advance k p s) hc, hinv]
    have h1 : closeEffects (advance k p s) = closeEffects s := rfl
    have h2 : (advance k p s).tickUpstreamNode = s.tickUpstreamNode := rfl
    simp only [h1, h2, hd, if_true]

/-- C6 at concrete inputs: seven rows in batches of three. With back-pressure the first
batch leaves readiness false and no read follows, and a run with two ticks issues three
reads; without it the first batch is followed by the next read at once; the last batch is
followed by the tick to node `a` and by `done()`. -/
theorem backpressure_pacing_witness :
    (step backPressureConfig (firstReadPending backPressureConfig)
      (Event.readDone 0 none)).1.downstreamReady = false ∧
    reads (step backPressureConfig (firstReadPending backPressureConfig)
      (Event.readDone 0 none)).2 = 0 ∧
    reads (run backPressureConfig readyState
      [queryEvent, Event.connected 0 [1, 2, 3, 4, 5, 6, 7], Event.readDone 0 none, tickEvent,
        Event.readDone 0 none, tickEvent, Event.readDone 0 none]).2 ≤ 1 + 2 ∧
    (step exampleConfig (firstReadPending exampleConfig) (Event.readDone 0 none)).2 =
      [Effect.send 0 Port.first
        { payload := Payload.rows [1, 2, 3]
          parts := some (Parts.mk 42 (some "array") (some 0) none false none) },
       Effect.cursorRead 0 3 0] ∧
    (step exampleConfig lastReadPending (Event.readDone 0 none)).2 =
      [Effect.cursorClose 0, Effect.release 0 false,
       Effect.send 0 Port.second
        { payload := Payload.rows [7]
          parts := some (Parts.mk 42 (some "array") (some 2) (some 3) false none)
          complete := true },
       Effect.tickUpstream "a", Effect.done 0 none] :=
  have hB := backpressure_pacing backPressureConfig (firstReadPending backPressureConfig) 0
    ⟨0, 3, 0⟩ (by decide)
  have hN := backpressure_pacing exampleConfig (firstReadPending exampleConfig) 0
    ⟨0, 3, 0⟩ (by decide)
  have hF := backpressure_pacing exampleConfig lastReadPending 0 ⟨0, 3, 0⟩ (by decide)
  ⟨(hB.2.2.2.1 rfl (by decide)).1, (hB.2.2.2.1 rfl (by decide)).2.1,
    hB.2.2.1 rfl 3 [1, 2, 3, 4, 5, 6, 7] {} 42 readyState
      [Event.connected 0 [1, 2, 3, 4, 5, 6, 7], Event.readDone 0 none, tickEvent,
        Event.readDone 0 none, tickEvent, Event.readDone 0 none]
      rfl rfl (by decide) rfl rfl settled_readyState (by decide),
    (hN.2.2.2.2.1 rfl (by decide) 0 0 (by decide) (by decide)).2,
    hF.2.2.2.2.2 (by decide) (by decide)⟩

/-! ## Ticks while a query is in flight -/

/-- C11, where the code departs from it: the tick path calls `getNextRows()` whenever a
closure is held. On a single-shot invocation whose `client.query` is in flight (one call
pending, readiness already true) a tick calls `client.query` again; when both calls resolve
the invocation has run the query twice, sent two messages and called `done` twice, and when
the second is rejected `done` is still called twice. Without the tick the same invocation
runs the query once, sends one message and calls `done` once. On a streaming invocation
that is not paused (readiness true, a read in flight) a tick issues a second read. -/
theorem tick_reissues_inflight_query :
    (run singleShotConfig readyState inFlightRun).1.pendingQueries = [0] ∧
    (run singleShotConfig readyState inFlightRun).1.downstreamReady = true ∧
    queries 0 (run singleShotConfig readyState inFlightRun).2 = 1 ∧
    (step singleShotConfig (run singleShotConfig readyState inFlightRun).1 tickEvent).2
      = [Effect.clientQuery 0] ∧
    (step singleShotConfig (run singleShotConfig readyState inFlightRun).1
      tickEvent).1.pendingQueries = [0, 0] ∧
    queries 0 (run singleShotConfig readyState
      (inFlightRun ++ tickEvent :: bothResolve)).2 = 2 ∧
    (sent (run singleShotConfig readyState
      (inFlightRun ++ tickEvent :: bothResolve)).2).length = 2 ∧
    doneCalls 0 (run singleShotConfig readyState
      (inFlightRun ++ tickEvent :: bothResolve)).2 = [none, none] ∧
    doneCalls 0 (run singleShotConfig readyState
      (inFlightRun ++ tickEvent :: secondRejected)).2 = [none, some "Error: closed"] ∧
    queries 0 (run singleShotConfig readyState
      (inFlightRun ++ [Event.queryDone 0 (Except.ok (QueryResult.single [1, 2]))])).2 = 1 ∧
    (sent (run singleShotConfig readyState
      (inFlightRun ++ [Event.queryDone 0 (Except.ok (QueryResult.single [1, 2]))])).2).length
      = 1 ∧
    doneCalls 0 (run singleShotConfig readyState
      (inFlightRun ++ [Event.queryDone 0 (Except.ok (QueryResult.single [1, 2]))])).2
      = [none] ∧
    (run exampleConfig readyState readInFlightRun).1.downstreamReady = true ∧
    (run exampleConfig readyState readInFlightRun).1.pendingReads.length = 1 ∧
    reads (step exampleConfig (run exampleConfig readyState readInFlightRun).1 tickEvent).2
      = 1 := by
  decide

/-! ## A streaming node without `rowsPerMsg` -/

theorem unending_start (R : List Row) :
    Unending R 0 (run unsetConfig readyState [queryEvent, Event.connected 0 R]).1
      (run unsetConfig readyState [queryEvent, Event.connected 0 R]).2 :=
  { pendingReads := rfl
    getNextRows := rfl
    cursor := rfl
    cursorObj := rfl
    inv := rfl
    sent := rfl
    doneCalls := rfl
    releases := rfl
    reads := rfl }

theorem head?_chunk (R : List Row) (j : Nat) : ((R.drop j).take 1).head? = R[j]? := by
  simp [List.head?_take, List.head?_drop]

theorem unending_step (R : List Row) (j : Nat) (s : State) (effs : List Effect)
    (h : Unending R j s effs) :
    Unending R (j + 1) (step unsetConfig s (Event.readDone 0 none)).1
      (effs ++ (step unsetConfig s (Event.readDone 0 none)).2) := by
  have hilt : 0 < s.invs.length := (List.getElem?_eq_some_iff.mp h.inv).1
  have hclt : 0 < s.cursors.length := (List.getElem?_eq_some_iff.mp h.cursorObj).1
  have hc : ∀ rows, isComplete unsetConfig rows = false := fun _ => rfl
  have hstep : step unsetConfig s (Event.readDone 0 none) =
      cursorCallback unsetConfig 0 none ((R.drop j).take 1) (advance 0 ⟨0, 1, 0⟩ s) := by
    simp only [step_readDone, onReadDone, h.pendingReads, List.getElem?_cons_zero, answer,
      h.cursorObj, Option.getD_some]
  have hinv : getInv 0 (advance 0 ⟨0, 1, 0⟩ s) = unsetRecord j :=
    getInv_of_getElem _ 0 _ h.inv
  have hcall := callGetNextRows_split unsetConfig
    (afterBatch unsetConfig 0 (advance 0 ⟨0, 1, 0⟩ s)) 0 0 h.getNextRows h.cursor
  rw [hstep, cursorCallback_more unsetConfig 0 _ _ (hc _), hinv, hcall]
  have hr : (afterBatch unsetConfig 0 (advance 0 ⟨0, 1, 0⟩ s)).downstreamReady = true := rfl
  simp only [hr, if_true]
  exact
    { pendingReads := by simp [afterBatch, advance, h.pendingReads]; rfl
      getNextRows := h.getNextRows
      cursor := h.cursor
      cursorObj := by
        simp only [afterBatch, advance, h.cursorObj, Option.getD_some,
          List.getElem?_set_self hclt, List.drop_drop]
      inv := by
        have hilt2 : 0 < (advance 0 ⟨0, 1, 0⟩ s).invs.length := hilt
        simp only [afterBatch, hinv, List.getElem?_set_self hilt2]
        rfl
      sent := by
        rw [sent_append, h.sent, List.range_succ, List.map_append]
        have hb : batchMsg unsetConfig (unsetRecord j).msg (unsetRecord j).partsId
            (unsetRecord j).partsIndex ((R.drop j).take 1) false = unsetBatch R j := by
          unfold batchMsg unsetBatch
          rw [head?_chunk]
          rfl
        simp [sent, hb]
      doneCalls := by rw [doneCalls_append, h.doneCalls]; simp [doneCalls]
      releases := by rw [releases_append, h.releases]; simp [releases]
      reads := by rw [reads_append, h.reads]; simp [reads] }


theorem unending_run (R : List Row) (n : Nat) :
    Unending R n (run unsetConfig readyState (unsetRun R n)).1
      (run unsetConfig readyState (unsetRun R n)).2 := by
  induction n with
  | zero => exact unending_start R
  | succ n ih =>
    have hsplit : unsetRun R (n + 1) = unsetRun R n ++ [Event.readDone 0 none] := by
      simp only [unsetRun, List.replicate_succ', List.append_assoc]
    rw [hsplit, run_append, run_single]
    exact unending_step R n _ _ ih

/-- C12, where the code departs from it: `complete` is computed from `node.rowsPerMsg`
itself (line 219) while `cursor.read` and the payload use `node.rowsPerMsg || 1` (lines 224
and 270). On a node without `rowsPerMsg` every read asks for one row, yet no batch is ever
complete: for every row list `R` and every number `n` of answered reads the node has sent
`n` messages, none marked complete (those after the rows are exhausted come from reads of
0 rows and carry an undefined payload), has not called `done` or released the connection,
and has issued read number `n + 1`. The payload of a non-empty read is the single row. With
`rowsPerMsg = 1` the same run over one row ends at the second read. -/
theorem unset_rowsPerMsg_never_completes (R : List Row) (n : Nat) :
    rowsPerRead unsetConfig = 1 ∧
    isComplete unsetConfig [] = false ∧
    sent (run unsetConfig readyState (unsetRun R n)).2 = (List.range n).map (unsetBatch R) ∧
    (∀ m ∈ sent (run unsetConfig readyState (unsetRun R n)).2, m.complete = false) ∧
    (∀ k, R.length ≤ k → (unsetBatch R k).payload = Payload.undefined) ∧
    (∀ k r, R[k]? = some r → (unsetBatch R k).payload = Payload.row r) ∧
    doneCalls 0 (run unsetConfig readyState (unsetRun R n)).2 = [] ∧
    releases 0 (run unsetConfig readyState (unsetRun R n)).2 = 0 ∧
    reads (run unsetConfig readyState (unsetRun R n)).2 = n + 1 ∧
    (run unsetConfig readyState (unsetRun R n)).1.pendingReads = [⟨0, 1, 0⟩] ∧
    (run unsetConfig readyState (unsetRun R n)).1.getNextRows = some (Pull.split 0) ∧
    (sent (run oneRowConfig readyState (unsetRun [7] 2)).2).map (fun m => m.complete)
      = [false, true] ∧
    doneCalls 0 (run oneRowConfig readyState (unsetRun [7] 2)).2 = [none] ∧
    (run oneRowConfig readyState (unsetRun [7] 2)).1.pendingReads = [] := by
  have h := unending_run R n
  refine ⟨rfl, rfl, h.sent, ?_, ?_, ?_, h.doneCalls, h.releases, h.reads, h.pendingReads,
    h.getNextRows, by decide, by decide, by decide⟩
  · intro m hm
    rw [h.sent] at hm
    obtain ⟨k, _, rfl⟩ := List.mem_map.mp hm
    rfl
  · intro k hk
    simp [unsetBatch, List.getElem?_eq_none hk]
  · intro k r hk
    simp [unsetBatch, hk]

/-! ## The DDL generator -/

theorem modifyFirst_forall {α : Type} (P : α → Prop) (p : α → Bool) (f : α → α) (l : List α)
    (hl : ∀ a ∈ l, P a) (hf : ∀ a, P a → P (f a)) : ∀ a ∈ modifyFirst p f l, P a := by
  induction l with
  | nil => intro a ha; cases ha
  | cons x xs ih =>
    intro a ha
    unfold modifyFirst at ha
    split at ha
    · rcases List.mem_cons.mp ha with h | h
      · rw [h]; exact hf x (hl x (List.mem_cons_self x xs))
      · exact hl a (List.mem_cons_of_mem x h)
    · rcases List.mem_cons.mp ha with h | h
      · rw [h]; exact hl x (List.mem_cons_self x xs)
      · exact ih (fun b hb => hl b (List.mem_cons_of_mem x hb)) a h

theorem foldl_invariant {α β : Type} (P : α → Prop) (f : α → β → α)
    (hf : ∀ a b, P a → P (f a b)) (l : List β) (a : α) (ha : P a) : P (l.foldl f a) := by
  induction l generalizing a with
  | nil => exact ha
  | cons b bs ih => exact ih (f a b) (hf a b ha)

/-- A step that changes the tables of one schema by mutating one table, leaving its
`foreignKeys` as it is, keeps `NoForeignKeys`. -/
theorem noForeignKeys_modify (schemaMap : List Schema) (ps : Schema → Bool) (pt : Table → Bool)
    (g : Table → Table) (hg : ∀ t, (g t).foreignKeys = t.foreignKeys)
    (h : NoForeignKeys schemaMap) :
    NoForeignKeys (modifyFirst ps
      (fun s => { s with tableMap := modifyFirst pt g s.tableMap }) schemaMap) := by
  refine modifyFirst_forall (fun (s : Schema) => ∀ t ∈ s.tableMap, t.foreignKeys = []) ps _
    schemaMap h ?_
  intro s hs
  exact modifyFirst_forall (fun (t : Table) => t.foreignKeys = []) pt g s.tableMap hs
    (fun t ht => by
      show (g t).foreignKeys = []
      rw [hg t]
      exact ht)

theorem noForeignKeys_addColumn (comments : List CommentRow) (schemaMap : List Schema)
    (row : ColumnRow) (h : NoForeignKeys schemaMap) :
    NoForeignKeys (addColumn comments schemaMap row) := by
  unfold addColumn
  refine modifyFirst_forall (fun (s : Schema) => ∀ t ∈ s.tableMap, t.foreignKeys = [])
    _ _ _ ?_ ?_
  · intro s hs
    split at hs
    · exact h s hs
    · rcases List.mem_append.mp hs with h1 | h1
      · exact h s h1
      · rw [List.mem_singleton.mp h1]
        intro t ht
        cases ht
  · intro s hs
    unfold addToSchema
    refine modifyFirst_forall (fun (t : Table) => t.foreignKeys = []) _ _ _ ?_
      (fun t ht => ht)
    intro t ht
    split at ht
    · exact hs t ht
    · rcases List.mem_append.mp ht with h1 | h1
      · exact hs t h1
      · rw [List.mem_singleton.mp h1]
        rfl

theorem noForeignKeys_schemas (columns : List ColumnRow) (pks : List PkRow) (fks : List FkRow)
    (indexes : List IndexRow) (comments : List CommentRow) :
    NoForeignKeys (schemas columns pks fks indexes comments) := by
  unfold schemas
  apply foldl_invariant NoForeignKeys addIndex
    (fun m row hm => noForeignKeys_modify m _ _ _ (fun _ => rfl) hm)
  apply foldl_invariant NoForeignKeys addForeignKey
    (fun m row hm => noForeignKeys_modify m _ _ (markForeignKey row) (fun _ => rfl) hm)
  apply foldl_invariant NoForeignKeys addPrimaryKey
    (fun m row hm => noForeignKeys_modify m _ _ (markPrimaryKey row) (fun _ => rfl) hm)
  apply foldl_invariant NoForeignKeys (addColumn comments)
    (fun m row hm => noForeignKeys_addColumn comments m row hm)
  intro s hs
  cases hs

theorem pushStatements_ddlFK (isView : Bool) (lines : List String) (d : Ddl) :
    (pushStatements isView lines d).ddlFK = d.ddlFK := by
  unfold pushStatements
  split <;> rfl

theorem emitTable_ddlFK (pg : Pg) (schemaName : String) (d : Ddl) (table : Table)
    (h : table.foreignKeys = []) : (emitTable pg schemaName d table).ddlFK = d.ddlFK := by
  simp [emitTable, h, pushStatements_ddlFK]

theorem emitTables_ddlFK (pg : Pg) (schemaName : String) (tables : List Table) (d : Ddl)
    (h : ∀ t ∈ tables, t.foreignKeys = []) :
    (tables.foldl (emitTable pg schemaName) d).ddlFK = d.ddlFK := by
  induction tables generalizing d with
  | nil => rfl
  | cons t ts ih =>
    rw [List.foldl_cons, ih _ (fun u hu => h u (List.mem_cons_of_mem t hu)),
      emitTable_ddlFK pg schemaName d t (h t (List.mem_cons_self t ts))]

theorem emitSchemas_ddlFK (pg : Pg) (schemaMap : List Schema) (d : Ddl)
    (h : NoForeignKeys schemaMap) : (schemaMap.foldl (emitSchema pg) d).ddlFK = d.ddlFK := by
  induction schemaMap generalizing d with
  | nil => rfl
  | cons s ss ih =>
    rw [List.foldl_cons, ih _ (fun u hu => h u (List.mem_cons_of_mem s hu))]
    unfold emitSchema
    rw [emitTables_ddlFK pg _ s.tableMap _ (h s (List.mem_cons_self s ss))]

set_option maxRecDepth 20000 in
theorem shop_ddl :
    generatePostgreSqlDdl pgLib shopColumns shopPks shopFks shopIndexes [] = shopDdl := by
  decide

set_option maxRecDepth 20000 in
theorem shop_ddl_statements :
    occursIn "ALTER TABLE".data shopDdl.data = false ∧
    occursIn "CREATE TABLE".data shopDdl.data = true ∧
    occursIn "CREATE INDEX".data shopDdl.data = true := by
  decide

/-- C13, where the code departs from it: step 3 records a foreign key on the column
object (`isForeignKey`, `references`), but the statements are generated from
`table.foreignKeys`, which is created empty and never added to. For every input the array
`ddlFK` is empty and the text returned is made of `ddlTC`, `ddlViews` and `ddlIdx` alone. For
the shop tables, whose foreign key row names the column `orders.customer_id` of the columns
input, the key is recorded on the column and the text returned has `CREATE TABLE` and
`CREATE INDEX` statements but no `ALTER TABLE` statement. -/
theorem foreign_key_statements_never_emitted (pg : Pg) (columns : List ColumnRow)
    (pks : List PkRow) (fks : List FkRow) (indexes : List IndexRow)
    (comments : List CommentRow) :
    (emit pg (schemas columns pks fks indexes comments)).ddlFK = [] ∧
    generatePostgreSqlDdl pg columns pks fks indexes comments =
      String.intercalate "\n"
        ((emit pg (schemas columns pks fks indexes comments)).ddlTC ++
          (emit pg (schemas columns pks fks indexes comments)).ddlViews ++
          (emit pg (schemas columns pks fks indexes comments)).ddlIdx) ∧
    (schemas shopColumns shopPks shopFks shopIndexes []).map
        (fun s => s.tableMap.map fun t => t.columns.map fun c => (c.columnName, c.references))
      = [[[("id", none)], [("customer_id", some (Reference.mk "customers" "id"))]]] ∧
    (schemas shopColumns shopPks shopFks shopIndexes []).map
        (fun s => s.tableMap.map fun t => (t.tableName, t.foreignKeys.length))
      = [[("customers", 0), ("orders", 0)]] ∧
    generatePostgreSqlDdl pgLib shopColumns shopPks shopFks shopIndexes [] = shopDdl ∧
    occursIn "ALTER TABLE".data shopDdl.data = false ∧
    occursIn "CREATE TABLE".data shopDdl.data = true ∧
    occursIn "CREATE INDEX".data shopDdl.data = true := by
  have h0 : (emit pg (schemas columns pks fks indexes comments)).ddlFK = [] :=
    emitSchemas_ddlFK pg _ _ (noForeignKeys_schemas columns pks fks indexes comments)
  refine ⟨h0, ?_, by decide, by decide, shop_ddl, shop_ddl_statements⟩
  unfold generatePostgreSqlDdl
  simp only [h0, List.append_nil]

/-! ## A second query message while the first invocation streams -/

theorem runLate_ordinary (cfg : Config) (l : List Event) (s : State) :
    runLate cfg s (l.map LateEvent.ev) = run cfg s l := by
  induction l generalizing s with
  | nil => rfl
  | cons e es ih =>
    show ((runLate cfg (step cfg s e).1 (es.map LateEvent.ev)).1,
      (step cfg s e).2 ++ (runLate cfg (step cfg s e).1 (es.map LateEvent.ev)).2) = _
    rw [ih]
    rfl

theorem lateQuietFor_ordinary (i : Nat) (R : List Row) (l : List LateEvent)
    (h : ∀ ev ∈ l, lateQuietFor i R ev = true) :
    l = (ordinary l).map LateEvent.ev ∧ ∀ e ∈ ordinary l, quietFor i R e = true := by
  induction l with
  | nil => exact ⟨rfl, fun e he => by cases he⟩
  | cons x xs ih =>
    have hx := h x (List.mem_cons_self x xs)
    have ih2 := ih (fun ev hev => h ev (List.mem_cons_of_mem x hev))
    cases x with
    | ev e =>
      refine ⟨?_, ?_⟩
      · show LateEvent.ev e :: xs = LateEvent.ev e :: (ordinary xs).map LateEvent.ev
        rw [← ih2.1]
      · intro e2 he2
        rcases List.mem_cons.mp he2 with h1 | h1
        · rw [h1]; exact hx
        · exact ih2.2 e2 h1
    | stale p => cases hx

/-- A late answer that is not the last batch, delivered while no `getNextRows` is held:
the batch is sent and the call `getNextRows()` of line 263 throws. -/
theorem stale_without_pull (cfg : Config) (p : PendingRead) (s : State)
    (hclosed : ((s.cursors[p.cursor]?).getD default).closed = true)
    (hnone : s.getNextRows = none) (hmore : isComplete cfg (answer s p) = false) :
    stepLate cfg s (LateEvent.stale p) =
      (afterBatch cfg p.cb (deliver p s),
        [Effect.send p.cb (if (getInv p.cb s).msg.complete = true then Port.second else Port.first)
          (batchMsg cfg (getInv p.cb s).msg (getInv p.cb s).partsId (getInv p.cb s).partsIndex
            (answer s p) false),
         Effect.uncaught]) := by
  have hcall : callGetNextRows cfg (afterBatch cfg p.cb (deliver p s)) = none := by
    unfold callGetNextRows
    have : (afterBatch cfg p.cb (deliver p s)).getNextRows = none := hnone
    rw [this]
  show onStale cfg p s = _
  unfold onStale
  rw [if_pos hclosed, cursorCallback_more cfg p.cb _ _ hmore, hcall]
  rfl

/-- C10, amended: a second query message that arrives while an earlier streaming
invocation is unfinished (it holds the cursor `c0` and `getNextRows`) calls `close()` on
that cursor, clears `cursor` and `getNextRows`, starts its own connect, releases nothing
and raises `nbQueue` by one. When no late answer of a closed cursor follows (only ticks,
its connect, answers to its reads, status timers and pool changes), everything sent is a
batch of the second invocation, in index order; once its `done()` has been called it has
sent all its batches, the last one alone complete, has released its connection once, and
`nbQueue` is back at the value it had before the second message; its connect followed by
`R / b + 1` or more rounds of "read answered, tick" ends with its `done()`. When a read `p`
of the earlier invocation that was outstanding is answered late, while the second
invocation is still connecting, with a batch that is not the last, the earlier
invocation sends that batch and its call `getNextRows()` throws, as `getNextRows` is
null. -/
theorem second_query_closes_first_cursor (cfg : Config) (b : Nat) (R : List Row) (msg : Msg)
    (rnd : Nat) (s0 : State) (rest : List LateEvent) (i0 c0 : Nat) (hsplit : cfg.split = true)
    (hb : cfg.rowsPerMsg = some b) (hb1 : 1 ≤ b) (hpool : s0.pgPool.connect = true)
    (htick : msg.tick = false) (hs : Settled s0)
    (hpull : s0.getNextRows = some (Pull.split i0)) (hcur : s0.cursor = some c0)
    (hopen : c0 < s0.cursors.length)
    (hrest : ∀ ev ∈ rest, lateQuietFor s0.invs.length R ev = true) :
    (step cfg s0 (Event.input msg true rnd)).1.cursor = none ∧
    (step cfg s0 (Event.input msg true rnd)).1.getNextRows = none ∧
    (step cfg s0 (Event.input msg true rnd)).1.getNextRows ≠ s0.getNextRows ∧
    ((step cfg s0 (Event.input msg true rnd)).1.cursors[c0]?).map (fun o => o.closed)
      = some true ∧
    (step cfg s0 (Event.input msg true rnd)).2 =
      [Effect.cursorClose c0, Effect.connect s0.invs.length] ∧
    (step cfg s0 (Event.input msg true rnd)).1.nbQueue = s0.nbQueue + 1 ∧
    (∃ n, n ≤ R.length / b + 1 ∧
      sent (runLate cfg s0 (LateEvent.ev (Event.input msg true rnd) :: rest)).2 =
        (List.range n).map (batchAt (setupOf cfg b R msg rnd s0))) ∧
    (none ∈ doneCalls s0.invs.length
        (runLate cfg s0 (LateEvent.ev (Event.input msg true rnd) :: rest)).2 →
      (sent (runLate cfg s0 (LateEvent.ev (Event.input msg true rnd) :: rest)).2).length
        = R.length / b + 1 ∧
      (∀ j, j ≤ R.length / b → ∃ m,
        (sent (runLate cfg s0 (LateEvent.ev (Event.input msg true rnd) :: rest)).2)[j]?
          = some m ∧
        m.parts = some (Parts.mk rnd (some "array") (some j)
          (if j = R.length / b then some (j + 1) else none) false msg.parts) ∧
        m.complete = decide (j = R.length / b)) ∧
      releases s0.invs.length
        (runLate cfg s0 (LateEvent.ev (Event.input msg true rnd) :: rest)).2 = 1 ∧
      (runLate cfg s0 (LateEvent.ev (Event.input msg true rnd) :: rest)).1.nbQueue
        = s0.nbQueue) ∧
    (∀ n q, resolveParams cfg (newInvocation cfg msg true rnd) = Except.ok q →
      R.length / b + 1 ≤ n →
      doneCalls s0.invs.length (runLate cfg s0 ((Event.input msg true rnd ::
        Event.connected s0.invs.length R :: rounds n).map LateEvent.ev)).2 = [none]) ∧
    (∀ p ∈ s0.pendingReads, p.cb < s0.invs.length → isComplete cfg (answer s0 p) = false →
      (stepLate cfg (step cfg s0 (Event.input msg true rnd)).1 (LateEvent.stale p)).2 =
        [Effect.send p.cb
          (if (getInv p.cb s0).msg.complete = true then Port.second else Port.first)
          (batchMsg cfg (getInv p.cb s0).msg (getInv p.cb s0).partsId
            (getInv p.cb s0).partsIndex (answer s0 p) false),
         Effect.uncaught] ∧
      (stepLate cfg (step cfg s0 (Event.input msg true rnd)).1
        (LateEvent.stale p)).1.getNextRows = none ∧
      (stepLate cfg (step cfg s0 (Event.input msg true rnd)).1
        (LateEvent.stale p)).1.cursor = none) := by
  obtain ⟨hmap, hquiet⟩ := lateQuietFor_ordinary s0.invs.length R rest hrest
  have hrun : runLate cfg s0 (LateEvent.ev (Event.input msg true rnd) :: rest) =
      run cfg s0 (Event.input msg true rnd :: ordinary rest) := by
    have h := runLate_ordinary cfg (Event.input msg true rnd :: ordinary rest) s0
    rw [List.map_cons, ← hmap] at h
    exact h
  rw [hrun]
  have hph := single_run_phase cfg b R msg rnd s0 (ordinary rest) hsplit hb hb1 hpool htick hs
    hquiet
  have hx := setupOf_valid cfg b R msg rnd s0 hsplit hb hb1
  have h1 := step_query cfg msg true rnd s0 htick hpool
  have hclosed : ((cursorsAfterClose s0)[c0]?) =
      some { ((s0.cursors[c0]?).getD default) with closed := true } := by
    simp only [cursorsAfterClose, hcur, List.getElem?_set_self hopen]
  refine ⟨by rw [h1], by rw [h1], ?_, ?_, ?_, by rw [h1], phase_sent_prefix _ hx _ _ hph, ?_,
    ?_, ?_⟩
  · rw [h1, hpull]
    intro h
    cases h
  · rw [h1]
    show ((cursorsAfterClose s0)[c0]?).map (fun o => o.closed) = some true
    rw [hclosed]
    rfl
  · rw [h1]
    simp only [closeEffects, hcur]
    rfl
  · intro hdone
    have hf := doneCalls_finished _ _ _ hph hdone
    obtain ⟨hlen, hall⟩ := finished_batches _ hx _ _ hf
    refine ⟨hlen, ?_, hf.releases, hf.nbQueue⟩
    intro j hj
    obtain ⟨m, hm, hparts, hcomplete, _, _⟩ := hall j hj
    exact ⟨m, hm, hparts, hcomplete⟩
  · intro n q hq hn
    rw [runLate_ordinary]
    exact (rounds_complete cfg b R msg rnd s0 n q hsplit hb hb1 hpool htick hs hq hn).doneCalls
  · intro p hp hcb hmore
    have hpc : p.cursor = c0 := by
      have := hs.2.2 p hp
      rw [hcur] at this
      exact (Option.some.inj this).symm
    have hcs : (step cfg s0 (Event.input msg true rnd)).1.cursors = cursorsAfterClose s0 := by
      rw [h1]
    have hg : (step cfg s0 (Event.input msg true rnd)).1.getNextRows = none := by rw [h1]
    have hc : (step cfg s0 (Event.input msg true rnd)).1.cursor = none := by rw [h1]
    have hinv : getInv p.cb (step cfg s0 (Event.input msg true rnd)).1 = getInv p.cb s0 := by
      rw [h1]
      show ((s0.invs ++ [newInvocation cfg msg true rnd])[p.cb]?).getD default = _
      rw [List.getElem?_append_left hcb]
      rfl
    have hans : answer (step cfg s0 (Event.input msg true rnd)).1 p = answer s0 p := by
      unfold answer
      rw [hcs, hpc, hclosed]
      have : (s0.cursors[c0]?) = some (s0.cursors[c0]) := List.getElem?_eq_getElem hopen
      rw [this]
      rfl
    have hcl : (((step cfg s0 (Event.input msg true rnd)).1.cursors[p.cursor]?).getD
        default).closed = true := by
      rw [hcs, hpc, hclosed]
      rfl
    have hst := stale_without_pull cfg p (step cfg s0 (Event.input msg true rnd)).1 hcl hg
      (by rw [hans]; exact hmore)
    rw [hinv, hans] at hst
    rw [hst]
    exact ⟨rfl, hg, hc⟩

theorem settled_firstReadPending : Settled (firstReadPending exampleConfig) :=
  ⟨by decide, by decide, fun p hp => by
    have h : (firstReadPending exampleConfig).pendingReads = [⟨0, 3, 0⟩] := by decide
    rw [h] at hp
    rw [List.mem_singleton.mp hp]
    decide⟩

/-- C10, amended, at a concrete input without back-pressure: the second query message
arrives while the first read of the first invocation is in flight; the second
invocation connects and its cursor delivers two rows; alternatively the read in flight
is answered late with rows 1, 2, 3. -/
theorem second_query_closes_first_cursor_witness :
    (step exampleConfig (firstReadPending exampleConfig) (Event.input {} true 43)).1.getNextRows
      ≠ (firstReadPending exampleConfig).getNextRows ∧
    (step exampleConfig (firstReadPending exampleConfig) (Event.input {} true 43)).2 =
      [Effect.cursorClose 0, Effect.connect 1] ∧
    (sent (runLate exampleConfig (firstReadPending exampleConfig)
      (LateEvent.ev (Event.input {} true 43) :: secondRuns)).2).length = 1 ∧
    releases 1 (runLate exampleConfig (firstReadPending exampleConfig)
      (LateEvent.ev (Event.input {} true 43) :: secondRuns)).2 = 1 ∧
    (runLate exampleConfig (firstReadPending exampleConfig)
      (LateEvent.ev (Event.input {} true 43) :: secondRuns)).1.nbQueue = 1 ∧
    (stepLate exampleConfig
      (step exampleConfig (firstReadPending exampleConfig) (Event.input {} true 43)).1
      (LateEvent.stale ⟨0, 3, 0⟩)).2 =
        [Effect.send 0 Port.first
          { payload := Payload.rows [1, 2, 3]
            parts := some (Parts.mk 42 (some "array") (some 0) none false none) },
         Effect.uncaught] :=
  have h := second_query_closes_first_cursor exampleConfig 3 [8, 9] {} 43
    (firstReadPending exampleConfig) secondRuns 0 0
    rfl rfl (by decide) (by decide) rfl settled_firstReadPending (by decide) (by decide)
    (by decide) (by decide)
  ⟨h.2.2.1, h.2.2.2.2.1, (h.2.2.2.2.2.2.2.1 (by decide)).1,
    (h.2.2.2.2.2.2.2.1 (by decide)).2.2.1, (h.2.2.2.2.2.2.2.1 (by decide)).2.2.2,
    (h.2.2.2.2.2.2.2.2.2 ⟨0, 3, 0⟩ (by decide) (by decide) (by decide)).1⟩

/-- C10 as stated fails. Without back-pressure the first invocation (seven rows, batches
of three) has its first read in flight and holds cursor 0 and `getNextRows`; the second
query message calls `cursor.close()` on cursor 0 and clears `cursor` and `getNextRows`.
Whether the read in flight is then never answered, answered while the second invocation
is connecting (the batch is sent and `getNextRows()` throws), or answered after the second
invocation has connected (the batch is sent and the second invocation's cursor is read),
the first invocation sends no final batch, its `done` is not called, its connection is
still held and `nbQueue` ends at 1, while the second invocation finishes. With strict
back-pressure the same happens to a first invocation parked after its first batch. -/
theorem overlap_cuts_off_first_invocation :
    (firstReadPending exampleConfig).cursor = some 0 ∧
    (firstReadPending exampleConfig).getNextRows = some (Pull.split 0) ∧
    (firstReadPending exampleConfig).pendingReads = [⟨0, 3, 0⟩] ∧
    (step exampleConfig (firstReadPending exampleConfig) (Event.input {} true 43)).2 =
      [Effect.cursorClose 0, Effect.connect 1] ∧
    (step exampleConfig (firstReadPending exampleConfig) (Event.input {} true 43)).1.cursor =
      none ∧
    (step exampleConfig (firstReadPending exampleConfig)
      (Event.input {} true 43)).1.getNextRows = none ∧
    (step exampleConfig (firstReadPending exampleConfig) (Event.input {} true 43)).1.cursors =
      [{ rows := [1, 2, 3, 4, 5, 6, 7], closed := true }] ∧
    summary (runLate exampleConfig readyState noAnswerRun).2 = [(some 43, some 0, true)] ∧
    doneCalls 0 (runLate exampleConfig readyState noAnswerRun).2 = [] ∧
    releases 0 (runLate exampleConfig readyState noAnswerRun).2 = 0 ∧
    (getInv 0 (runLate exampleConfig readyState noAnswerRun).1).client = true ∧
    doneCalls 1 (runLate exampleConfig readyState noAnswerRun).2 = [none] ∧
    (runLate exampleConfig readyState noAnswerRun).1.nbQueue = 1 ∧
    summary (runLate exampleConfig readyState lateAnswerRun).2 =
      [(some 42, some 0, false), (some 43, some 0, true)] ∧
    Effect.uncaught ∈ (runLate exampleConfig readyState lateAnswerRun).2 ∧
    doneCalls 0 (runLate exampleConfig readyState lateAnswerRun).2 = [] ∧
    releases 0 (runLate exampleConfig readyState lateAnswerRun).2 = 0 ∧
    (getInv 0 (runLate exampleConfig readyState lateAnswerRun).1).client = true ∧
    doneCalls 1 (runLate exampleConfig readyState lateAnswerRun).2 = [none] ∧
    (runLate exampleConfig readyState lateAnswerRun).1.nbQueue = 1 ∧
    ((runLate exampleConfig readyState answerAfterConnectRun).2.drop 7).map
        (fun e => (sent [e]).length) = [1, 0] ∧
    (runLate exampleConfig readyState answerAfterConnectRun).2.getLast? =
      some (Effect.cursorRead 1 3 1) ∧
    summary (runLate exampleConfig readyState (answerAfterConnectRun ++
        [LateEvent.ev (Event.readDone 0 none), LateEvent.ev tickEvent])).2 =
      [(some 42, some 0, false), (some 43, some 0, true)] ∧
    doneCalls 0 (runLate exampleConfig readyState (answerAfterConnectRun ++
        [LateEvent.ev (Event.readDone 0 none), LateEvent.ev tickEvent])).2 = [] ∧
    releases 0 (runLate exampleConfig readyState (answerAfterConnectRun ++
        [LateEvent.ev (Event.readDone 0 none), LateEvent.ev tickEvent])).2 = 0 ∧
    parkedState.cursor = some 0 ∧
    parkedState.getNextRows = some (Pull.split 0) ∧
    parkedState.pendingReads = [] ∧
    (step backPressureConfig parkedState (Event.input {} true 43)).1.cursor = none ∧
    (step backPressureConfig parkedState (Event.input {} true 43)).1.getNextRows = none ∧
    (step backPressureConfig parkedState (Event.input {} true 43)).1.cursors =
      [{ rows := [4, 5, 6, 7], closed := true }] ∧
    summary (run backPressureConfig readyState overlapRun).2 =
      [(some 42, some 0, false), (some 43, some 0, true)] ∧
    doneCalls 0 (run backPressureConfig readyState overlapRun).2 = [] ∧
    releases 0 (run backPressureConfig readyState overlapRun).2 = 0 ∧
    (getInv 0 (run backPressureConfig readyState overlapRun).1).client = true ∧
    doneCalls 1 (run backPressureConfig readyState overlapRun).2 = [none] ∧
    (run backPressureConfig readyState overlapRun).1.nbQueue = 1 := by
  repeat' apply And.intro
  all_goals decide

end TablesQuery
